import Mathlib

/-!
# Trees example: camera rig, scene populator and canopy rule

A shallow embedding of `src/main.cpp`, in two arithmetics.

* The definitions without suffix model the program's `float` values by exact
  rationals (`ℚ`): a statement about them is a statement about the arithmetic
  the code writes down, not about IEEE rounding.
* The definitions with the suffix `_f32` repeat the camera integrator, `randf`
  and the canopy callback with IEEE 754 rounding to nearest (`to_float`,
  `to_double`) after every operation: a statement about them is a statement
  about the numbers the program computes.
-/

namespace Trees

/-! ## Constants of `main.cpp` -/

/-- The constant `static const float CameraAcceleration = 0.2;` -/
def CameraAcceleration : ℚ := 2 / 10

/-- The constant `static const float CameraDeceleration = 0.1;` -/
def CameraDeceleration : ℚ := 1 / 10

/-- The constant `static const float CameraMaxSpeed = 0.05;` -/
def CameraMaxSpeed : ℚ := 5 / 100

/-- The constant `static const float CameraDistance = 8;` -/
def CameraDistance : ℚ := 8

/-- The constant `static const float CameraHeight = 6.0;` -/
def CameraHeight : ℚ := 6

/-! ## The cglm helpers used by `decelerate_camera` -/

/-- The cglm function `glm_min`: `if (a < b) return a; return b;` -/
def glm_min (a b : ℚ) : ℚ := if a < b then a else b

/-- The cglm function `glm_max`: `if (a > b) return a; return b;` -/
def glm_max (a b : ℚ) : ℚ := if a > b then a else b

/-- The cglm function `glm_clamp`: `glm_min(glm_max(val, minVal), maxVal)` -/
def glm_clamp (val minVal maxVal : ℚ) : ℚ := glm_min (glm_max val minVal) maxVal

/-! ## Camera controller -/

/-- The component `struct CameraController`. -/
structure CameraController where
  r : ℚ
  v : ℚ
  v_h : ℚ
  h : ℚ
  d : ℚ
  shake : ℚ
  deriving DecidableEq

/-- The constructor `CameraController(ar = 0, av = 0, av_h = 0, ah = CameraHeight,
ad = CameraDistance, as = 0)` with all its default arguments. -/
def CameraController.default : CameraController :=
  { r := 0, v := 0, v_h := 0, h := CameraHeight, d := CameraDistance, shake := 0 }

/-- The function `decelerate_camera`: the two `if`s run one after the other on the updated `v`,
then the result is clamped to `[-max_speed, max_speed]`. -/
def decelerate_camera (v delta_time max_speed : ℚ) : ℚ :=
  let v1 := if v > 0 then glm_clamp (v - CameraDeceleration * delta_time) 0 v else v
  let v2 := if v1 < 0 then glm_clamp (v1 + CameraDeceleration * delta_time) v1 0 else v1
  glm_clamp v2 (-max_speed) max_speed

/-- The key states `input->keys[...].state` read by `MoveCamera`. -/
structure Keys where
  key_d : Bool
  key_a : Bool
  key_s : Bool
  key_w : Bool
  key_shift : Bool
  key_minus : Bool
  key_plus : Bool
  deriving DecidableEq

/-- What the iterator hands to one invocation of `MoveCamera`: `it.delta_time()`,
`it.world_time()` and the `Input` column. -/
structure Frame where
  delta_time : ℚ
  world_time : ℚ
  keys : Keys

/-- The component `graphics::Camera`: the `position` and `lookat` vectors. -/
structure Camera where
  position0 : ℚ
  position1 : ℚ
  position2 : ℚ
  lookat0 : ℚ
  lookat1 : ℚ
  lookat2 : ℚ

/-- The `cos` and `sin` of `<math.h>`, taken as parameters. -/
structure Trig where
  cos : ℚ → ℚ
  sin : ℚ → ℚ

/-- Everything one `MoveCamera` call reads and writes: the controller, the camera
column and the world's time scale. -/
structure Rig where
  ctrl : CameraController
  camera : Camera
  time_scale : ℚ

/-- The system `MoveCamera`, statement by statement. -/
def MoveCamera (m : Trig) (it : Frame) (s : Rig) : Rig :=
  let ctrl := s.ctrl
  -- Accelerate camera if keys are pressed
  let ctrl := if it.keys.key_d then { ctrl with v := ctrl.v - CameraAcceleration * it.delta_time } else ctrl
  let ctrl := if it.keys.key_a then { ctrl with v := ctrl.v + CameraAcceleration * it.delta_time } else ctrl
  let ctrl := if it.keys.key_s then { ctrl with v_h := ctrl.v_h - CameraAcceleration * it.delta_time } else ctrl
  let ctrl := if it.keys.key_w then { ctrl with v_h := ctrl.v_h + CameraAcceleration * it.delta_time } else ctrl
  let max_speed := CameraMaxSpeed
  let max_speed := if it.keys.key_shift then max_speed / 8 else max_speed
  -- Decelerate camera each frame
  let ctrl := { ctrl with v := decelerate_camera ctrl.v it.delta_time max_speed }
  let ctrl := { ctrl with v_h := decelerate_camera ctrl.v_h it.delta_time max_speed }
  -- Update camera spherical coordinates
  let ctrl := { ctrl with r := ctrl.r + ctrl.v }
  let ctrl := { ctrl with h := ctrl.h + ctrl.v_h * 2 }
  let ctrl := { ctrl with d := ctrl.d - ctrl.v_h }
  let camera := s.camera
  let camera := { camera with position0 := m.cos ctrl.r * ctrl.d }
  let camera := { camera with position1 := ctrl.h }
  let camera := { camera with position2 := m.sin ctrl.r * ctrl.d + 5 }
  -- Camera shake
  let camera := { camera with position1 := camera.position1 + m.sin (it.world_time * 50) * ctrl.shake }
  let ctrl := { ctrl with shake := ctrl.shake * (80 / 100) }
  let camera := { camera with lookat0 := 0 }
  let camera := { camera with lookat2 := 5 }
  let time_scale := s.time_scale
  let time_scale := if it.keys.key_minus then time_scale * (95 / 100) else time_scale
  let time_scale := if it.keys.key_plus then time_scale * (105 / 100) else time_scale
  { ctrl := ctrl, camera := camera, time_scale := time_scale }

/-- The rig after `n` frames: frame `i` (counted from 0) is `frames i`. -/
def run_frames (m : Trig) (frames : ℕ → Frame) : ℕ → Rig → Rig
  | 0, s => s
  | n + 1, s => MoveCamera m (frames n) (run_frames m frames n s)

/-- None of the four directional keys is held. -/
def Keys.no_direction (k : Keys) : Prop :=
  k.key_d = false ∧ k.key_a = false ∧ k.key_s = false ∧ k.key_w = false

instance (k : Keys) : Decidable k.no_direction := by
  unfold Keys.no_direction; infer_instance

/-- The sign of a velocity as a rational: `1`, `0` or `-1`. -/
def sgn (v : ℚ) : ℚ := if 0 < v then 1 else if v < 0 then -1 else 0

/-- The value of `max_speed` at the two `decelerate_camera` calls of `MoveCamera`. -/
def max_speed_of (key_shift : Bool) : ℚ :=
  if key_shift then CameraMaxSpeed / 8 else CameraMaxSpeed

/-- A velocity after the two key tests of one axis: first the key that subtracts,
then the key that adds. -/
def accelerate (key_minus key_plus : Bool) (delta_time v : ℚ) : ℚ :=
  let v := if key_minus then v - CameraAcceleration * delta_time else v
  if key_plus then v + CameraAcceleration * delta_time else v

/-- The frame count named by the rest bound: `1 + ⌈0.05 / (0.1 * delta_time)⌉`. -/
def rest_frames (delta_time : ℚ) : ℕ := 1 + ⌈(5 / 100 : ℚ) / ((1 / 10) * delta_time)⌉₊

/-! ## Random numbers -/

/-- The C library pieces behind `randf`: the constant `RAND_MAX` and the values that
successive calls of `rand()` return (`rand n` is the value of call number `n`,
counted from 0). -/
structure Libc where
  RAND_MAX : ℕ
  rand : ℕ → ℕ

/-- The function `randf(scale)`: `((float)rand() / (float)RAND_MAX) * scale`.  The second
component is the number of `rand()` calls made so far, after this one. -/
def randf (c : Libc) (calls : ℕ) (scale : ℚ) : ℚ × ℕ :=
  (((c.rand calls : ℚ) / (c.RAND_MAX : ℚ)) * scale, calls + 1)

/-! ## Components and entities -/

/-- The component `transform::Position3`. -/
structure Position where
  x : ℚ
  y : ℚ
  z : ℚ
  deriving DecidableEq

/-- The component `geometry::Box`. -/
structure Box where
  width : ℚ
  height : ℚ
  depth : ℚ
  deriving DecidableEq

/-- The component `graphics::Rgb`. -/
structure Color where
  r : ℚ
  g : ℚ
  b : ℚ
  deriving DecidableEq

/-- One entity of the store with what `main.cpp` attaches to entities: a name, the
prefab flag, the `INSTANCEOF` links (template links) and `CHILDOF` links (composition
links) in the order they were added, the `Canopy` tag, and the own `Position`, `Color`
and `Box` values. -/
structure Entity where
  name : Option String
  is_prefab : Bool
  instanceof : List ℕ
  childof : List ℕ
  canopy : Bool
  position : Option Position
  color : Option Color
  box : Option Box
  deriving DecidableEq

/-- An entity with nothing attached. -/
def Entity.empty : Entity :=
  { name := none, is_prefab := false, instanceof := [], childof := [], canopy := false,
    position := none, color := none, box := none }

/-- The component `struct Game`, its two prefab handles (the `window` handle is written by `init_ui`
only).  Handle `0` is the null entity. -/
structure Game where
  tree_prefab : ℕ
  pine_prefab : ℕ
  deriving DecidableEq

/-- A reactive `OnSet` system over the columns `<Position, Box>` whose signature is
`"SHARED:Canopy, PARENT:INSTANCEOF|<root>"`: `parent_instanceof` is the entity the
name `<root>` resolved to when the system was created, `each` is the callback; the
callback receives and returns the count of `rand()` calls made so far. -/
structure System where
  name : String
  parent_instanceof : ℕ
  each : Libc → ℕ → Position → Box → (Position × Box) × ℕ

/-- The store: entity `id` is `entities[id]` (slot `0` is the null entity, which is
never a user entity), the `Game` singleton, the registered reactive systems, and the
number of `rand()` calls made so far. -/
structure World where
  entities : List Entity
  game : Game
  systems : List System
  rand_calls : ℕ

/-- The store before `init_prefabs` runs.  The three entities that `init_ui` creates
(camera, light, window) carry none of the attributes above and are left out. -/
def World.empty : World :=
  { entities := [Entity.empty], game := ⟨0, 0⟩, systems := [], rand_calls := 0 }

/-! ## The entity-component runtime -/

/-- Modelled from the spec: `create_object() -> id` of the attribute store; the new
object has the next free identifier and nothing attached. -/
def World.entity (w : World) : ℕ × World :=
  (w.entities.length, { w with entities := w.entities ++ [Entity.empty] })

/-- Modelled from the spec: rewriting the attributes of one object of the store, the
common part of `set_attribute` and `add_relation`. -/
def World.update (w : World) (id : ℕ) (f : Entity → Entity) : World :=
  { w with entities := w.entities.modify f id }

/-- Modelled from the spec: the store's name lookup, which resolves an identifier of
a system signature; the null entity `0` when no entity has the name. -/
def World.lookup (w : World) (name : String) : ℕ :=
  let i := w.entities.findIdx (fun e => e.name = some name)
  if i < w.entities.length then i else 0

/-- Modelled from the spec: `get_attribute(id, kind)` "returns the object's own value if
set, else recurses through TemplateLink until a value is found or the chain ends
(returns absent)".  `kind` selects the attribute; `fuel` bounds the chain length. -/
def get_attribute {α : Type} (w : World) (kind : Entity → Option α) : ℕ → ℕ → Option α
  | 0, _ => none
  | fuel + 1, id =>
    match w.entities[id]? with
    | none => none
    | some e =>
      match kind e with
      | some a => some a
      | none => e.instanceof.findSome? (fun base => get_attribute w kind fuel base)

/-- The `Canopy` tag as an attribute kind. -/
def Entity.canopy_tag (e : Entity) : Option Unit := if e.canopy then some () else none

/-- The lookup `World.get w kind id`: `get_attribute` with as much fuel as the store has entities. -/
def World.get {α : Type} (w : World) (kind : Entity → Option α) (id : ℕ) : Option α :=
  get_attribute w kind w.entities.length id

/-- Modelled from the spec: the filter of a reactive rule, "(a) possessing a given
marker attribute transitively through their template chain, and (b) having a
CompositionLink whose parent matches a given root template", for an object that has the
`Position` and `Box` the reaction is handed.  (a) is `SHARED:Canopy`: the tag is found
through a template link, not on the object itself; (b) is `PARENT:INSTANCEOF|<root>`:
the composition parent carries a template link to the root. -/
def System.selects (sys : System) (w : World) (id : ℕ) : Bool :=
  match w.entities[id]? with
  | none => false
  | some e =>
    (w.get Entity.position id).isSome && (w.get Entity.box id).isSome &&
    e.instanceof.any (fun base => (w.get Entity.canopy_tag base).isSome) &&
    e.childof.any (fun parent =>
      match w.entities[parent]? with
      | none => false
      | some pe => decide (sys.parent_instanceof ∈ pe.instanceof))

/-- Modelled from the spec: the runtime invokes `reaction(object_id, mutable Position,
mutable Extent)` synchronously if the object matches the filter; the reaction's writes
land on the object. -/
def System.run (c : Libc) (sys : System) (w : World) (id : ℕ) : World :=
  if sys.selects w id then
    match w.get Entity.position id, w.get Entity.box id with
    | some p, some b =>
      let out := sys.each c w.rand_calls p b
      { w.update id (fun e => { e with position := some out.1.1, box := some out.1.2 }) with
        rand_calls := out.2 }
    | _, _ => w
  else w

/-- Every registered reactive system is offered the object, in registration order. -/
def World.on_set (c : Libc) (w : World) (id : ℕ) : World :=
  w.systems.foldl (fun w sys => sys.run c w id) w

/-- The call `.set<Position>(p)`: `set_attribute`, then the reactive rules. -/
def World.set_position (c : Libc) (w : World) (id : ℕ) (p : Position) : World :=
  (w.update id (fun e => { e with position := some p })).on_set c id

/-- The call `.set<Box>(b)`: `set_attribute`, then the reactive rules. -/
def World.set_box (c : Libc) (w : World) (id : ℕ) (b : Box) : World :=
  (w.update id (fun e => { e with box := some b })).on_set c id

/-- The call `.set<Color>(col)`: `set_attribute`; no rule watches `Color`. -/
def World.set_color (w : World) (id : ℕ) (col : Color) : World :=
  w.update id (fun e => { e with color := some col })

/-- The call `.add<Canopy>()`. -/
def World.add_canopy (w : World) (id : ℕ) : World :=
  w.update id (fun e => { e with canopy := true })

/-- The call `.add_childof(parent)`: `add_relation` with the composition link. -/
def World.add_childof (w : World) (id parent : ℕ) : World :=
  w.update id (fun e => { e with childof := e.childof ++ [parent] })

/-- The calls `ecs.prefab(name)` and `ecs.prefab()`: a new entity with the prefab flag (every name
given in `main.cpp` is new at the time of the call). -/
def World.prefab (w : World) (name : Option String) : ℕ × World :=
  let r := w.entity
  (r.1, r.2.update r.1 (fun e => { e with name := name, is_prefab := true }))

/-- The parts of a composite: the objects with a composition link to `parent`, oldest
first. -/
def World.children (w : World) (parent : ℕ) : List Entity :=
  w.entities.filter (fun e => decide (parent ∈ e.childof))

/-- Modelled from the spec: an instantiation spawns "a tree of linked objects from the
Prototype Graph".  One part `part` of the template `base` is copied for the new object
`instance_id`: same attributes and template links, composition link moved from `base`
to the instance, prefab flag of the instance; then the reactive rules see the new part
("synchronously exactly once, at the point an object is newly created"). -/
def World.instantiate_child (c : Libc) (w : World) (instance_id base : ℕ) (part : Entity) :
    World :=
  let is_prefab := match w.entities[instance_id]? with
    | some e => e.is_prefab
    | none => false
  let copy : Entity :=
    { part with
      is_prefab := is_prefab,
      childof := part.childof.map (fun p => if p = base then instance_id else p) }
  let id := w.entities.length
  World.on_set c { w with entities := w.entities ++ [copy] } id

/-- The call `.add_instanceof(base)`: `instantiate` of the spec, the template link is added and
the parts of `base` are instantiated under the object. -/
def World.add_instanceof (c : Libc) (w : World) (id base : ℕ) : World :=
  let w := w.update id (fun e => { e with instanceof := e.instanceof ++ [base] })
  (w.children base).foldl (fun w part => w.instantiate_child c id base part) w

/-- The call `ecs.system<Position, Box>(name, "SHARED:Canopy, PARENT:INSTANCEOF|" ++ root)
.kind(flecs::OnSet).each(each)`: the root is resolved by name now, the rule is added
after the ones already registered. -/
def World.system (w : World) (name root : String)
    (each : Libc → ℕ → Position → Box → (Position × Box) × ℕ) : World :=
  { w with systems := w.systems ++ [⟨name, w.lookup root, each⟩] }

/-! ## `init_prefabs` and `init_level` -/

/-- The callback of `RandomizeCanopy`:
`float h = randf(1.0) + 0.8; b.height = h; p.y = h / 2.0 + 0.5;` -/
def RandomizeCanopy (c : Libc) (calls : ℕ) (p : Position) (b : Box) : (Position × Box) × ℕ :=
  let r := randf c calls 1
  let h := r.1 + 8 / 10
  let b := { b with height := h }
  let p := { p with y := h / 2 + 5 / 10 }
  ((p, b), r.2)

/-- The function `init_prefabs`, statement by statement. -/
def init_prefabs (c : Libc) (w : World) : World :=
  let (trunk, w) := w.prefab (some "PTrunk")
  let w := w.set_position c trunk ⟨0, 25 / 100, 0⟩
  let w := w.set_box c trunk ⟨4 / 10, 5 / 10, 4 / 10⟩
  let w := w.set_color trunk ⟨25 / 100, 2 / 10, 1 / 10⟩
  let (canopy, w) := w.prefab (some "PCanopy")
  let w := w.add_canopy canopy
  let w := w.set_color canopy ⟨35 / 100, 25 / 100, 0⟩
  let (pine_canopy, w) := w.prefab (some "PPineCanopy")
  let w := w.add_instanceof c pine_canopy canopy
  let w := w.set_color pine_canopy ⟨2 / 10, 3 / 10, 15 / 100⟩
  -- g->tree_prefab = ecs.prefab("PTree");
  let (e, w) := w.prefab (some "PTree")
  let w := { w with game := { w.game with tree_prefab := e } }
  let (e, w) := w.prefab none
  let w := w.add_childof e w.game.tree_prefab
  let w := w.add_instanceof c e trunk
  let (e, w) := w.prefab none
  let w := w.add_childof e w.game.tree_prefab
  let w := w.add_instanceof c e canopy
  let w := w.set_position c e ⟨0, 9 / 10, 0⟩
  let w := w.set_box c e ⟨8 / 10, 8 / 10, 8 / 10⟩
  -- g->pine_prefab = ecs.prefab("PPine");
  let (e, w) := w.prefab (some "PPine")
  let w := { w with game := { w.game with pine_prefab := e } }
  let (e, w) := w.prefab none
  let w := w.add_childof e w.game.pine_prefab
  let w := w.add_instanceof c e trunk
  let (e, w) := w.prefab none
  let w := w.add_childof e w.game.pine_prefab
  let w := w.add_instanceof c e pine_canopy
  let w := w.set_position c e ⟨0, 6 / 10, 0⟩
  let w := w.set_box c e ⟨8 / 10, 4 / 10, 8 / 10⟩
  let (e, w) := w.prefab none
  let w := w.add_childof e w.game.pine_prefab
  let w := w.add_instanceof c e pine_canopy
  let w := w.set_position c e ⟨0, 1, 0⟩
  let w := w.set_box c e ⟨6 / 10, 4 / 10, 6 / 10⟩
  let (e, w) := w.prefab none
  let w := w.add_childof e w.game.pine_prefab
  let w := w.add_instanceof c e pine_canopy
  let w := w.set_position c e ⟨0, 14 / 10, 0⟩
  let w := w.set_box c e ⟨4 / 10, 4 / 10, 4 / 10⟩
  w.system "RandomizeCanopy" "PTree" RandomizeCanopy

/-- The call chain `ecs.entity().add_instanceof(prefab).set<Position>(p)`. -/
def World.spawn (c : Libc) (w : World) (prefab : ℕ) (p : Position) : World :=
  let (e, w) := w.entity
  let w := w.add_instanceof c e prefab
  w.set_position c e p

/-- The body of the inner loop of `init_level` at grid cell `(x, z)`. -/
def init_level_cell (c : Libc) (x z : ℕ) (w : World) : World :=
  let r1 := randf c w.rand_calls 1
  let w := { w with rand_calls := r1.2 }
  if r1.1 > 6 / 10 then
    let r2 := randf c w.rand_calls 1
    let w := { w with rand_calls := r2.2 }
    if r2.1 > 5 / 10 then
      w.spawn c w.game.pine_prefab ⟨(x : ℚ) - 5 - 5 / 10, 0, (z : ℚ) - 5 / 10⟩
    else
      w.spawn c w.game.tree_prefab ⟨(x : ℚ) - 5 - 5 / 10, 0, (z : ℚ) - 5 / 10⟩
  else w

/-- The grass and water entities of `init_level`. -/
def init_level_ground (c : Libc) (w : World) : World :=
  -- Grass
  let (e, w) := w.entity
  let w := w.set_position c e ⟨0, -(25 / 100), 5⟩
  let w := w.set_color e ⟨25 / 100, 4 / 10, 18 / 100⟩
  let w := w.set_box c e ⟨12, 5 / 10, 12⟩
  -- Water
  let (e, w) := w.entity
  let w := w.set_position c e ⟨0, -(25 / 100), 5⟩
  let w := w.set_color e ⟨1 / 10, 27 / 100, 42 / 100⟩
  w.set_box c e ⟨15, 25 / 100, 15⟩

/-- The function `init_level`: grass, water, then the two nested loops over the 12 x 12 grid, `x`
outer and `z` inner. -/
def init_level (c : Libc) (w : World) : World :=
  let w := init_level_ground c w
  (List.range 12).foldl
    (fun w x => (List.range 12).foldl (fun w z => init_level_cell c x z w) w) w

/-- The scene `main` builds before the frame loop: `init_prefabs`, then `init_level`. -/
def scene (c : Libc) : World := init_level c (init_prefabs c World.empty)

/-! ## The scene in closed form -/

/-- The entities of the store when `init_prefabs` returns (`init_prefabs_eq`): the
null slot, `PTrunk` (1), `PCanopy` (2), `PPineCanopy` (3), `PTree` (4) with its trunk
part (5) and canopy part (6), `PPine` (7) with its trunk part (8) and its three canopy
parts (9, 10, 11). -/
def prototype_graph : List Entity :=
  [ Entity.empty,
    { Entity.empty with
        name := some "PTrunk", is_prefab := true,
        position := some ⟨0, 25 / 100, 0⟩, box := some ⟨4 / 10, 5 / 10, 4 / 10⟩,
        color := some ⟨25 / 100, 2 / 10, 1 / 10⟩ },
    { Entity.empty with
        name := some "PCanopy", is_prefab := true, canopy := true,
        color := some ⟨35 / 100, 25 / 100, 0⟩ },
    { Entity.empty with
        name := some "PPineCanopy", is_prefab := true, instanceof := [2],
        color := some ⟨2 / 10, 3 / 10, 15 / 100⟩ },
    { Entity.empty with
        name := some "PTree", is_prefab := true },
    { Entity.empty with
        is_prefab := true, instanceof := [1], childof := [4] },
    { Entity.empty with
        is_prefab := true, instanceof := [2], childof := [4],
        position := some ⟨0, 9 / 10, 0⟩, box := some ⟨8 / 10, 8 / 10, 8 / 10⟩ },
    { Entity.empty with
        name := some "PPine", is_prefab := true },
    { Entity.empty with
        is_prefab := true, instanceof := [1], childof := [7] },
    { Entity.empty with
        is_prefab := true, instanceof := [3], childof := [7],
        position := some ⟨0, 6 / 10, 0⟩, box := some ⟨8 / 10, 4 / 10, 8 / 10⟩ },
    { Entity.empty with
        is_prefab := true, instanceof := [3], childof := [7],
        position := some ⟨0, 1, 0⟩, box := some ⟨6 / 10, 4 / 10, 6 / 10⟩ },
    { Entity.empty with
        is_prefab := true, instanceof := [3], childof := [7],
        position := some ⟨0, 14 / 10, 0⟩, box := some ⟨4 / 10, 4 / 10, 4 / 10⟩ } ]

/-- The rule that `init_prefabs` registers, with `PTree` resolved to entity 4. -/
def canopy_rule : System := ⟨"RandomizeCanopy", 4, RandomizeCanopy⟩

/-- A store in which the populator can run: it starts with the prototype graph, no
later entity is a part of `PTree` or `PPine`, the `Game` handles are the two composite
prototypes and the canopy rule is the only registered rule. -/
def World.Ready (w : World) : Prop :=
  (∃ rest : List Entity, w.entities = prototype_graph ++ rest ∧
    ∀ e ∈ rest, 4 ∉ e.childof ∧ 7 ∉ e.childof) ∧
  w.game = ⟨4, 7⟩ ∧ w.systems = [canopy_rule]

/-- The five entities a pine instance consists of, when its root gets identifier `id`:
the root and copies of the parts 8, 9, 10, 11 of `PPine`. -/
def pine_entities (id : ℕ) (p : Position) : List Entity :=
  [ { Entity.empty with instanceof := [7], position := some p },
    { Entity.empty with instanceof := [1], childof := [id] },
    { Entity.empty with
        instanceof := [3], childof := [id],
        position := some ⟨0, 6 / 10, 0⟩, box := some ⟨8 / 10, 4 / 10, 8 / 10⟩ },
    { Entity.empty with
        instanceof := [3], childof := [id],
        position := some ⟨0, 1, 0⟩, box := some ⟨6 / 10, 4 / 10, 6 / 10⟩ },
    { Entity.empty with
        instanceof := [3], childof := [id],
        position := some ⟨0, 14 / 10, 0⟩, box := some ⟨4 / 10, 4 / 10, 4 / 10⟩ } ]

/-- The three entities a generic tree instance consists of, when its root gets
identifier `id` and the canopy rule draws the height `h`: the root and copies of the
parts 5 and 6 of `PTree`, the canopy resized. -/
def tree_entities (id : ℕ) (p : Position) (h : ℚ) : List Entity :=
  [ { Entity.empty with instanceof := [4], position := some p },
    { Entity.empty with instanceof := [1], childof := [id] },
    { Entity.empty with
        instanceof := [2], childof := [id],
        position := some ⟨0, h / 2 + 5 / 10, 0⟩, box := some ⟨8 / 10, h, 8 / 10⟩ } ]

/-- The grass and water entities that `init_level` creates first (`init_level_ground_eq`). -/
def ground_entities : List Entity :=
  [ { Entity.empty with
        position := some ⟨0, -(25 / 100), 5⟩, color := some ⟨25 / 100, 4 / 10, 18 / 100⟩,
        box := some ⟨12, 5 / 10, 12⟩ },
    { Entity.empty with
        position := some ⟨0, -(25 / 100), 5⟩, color := some ⟨1 / 10, 27 / 100, 42 / 100⟩,
        box := some ⟨15, 25 / 100, 15⟩ } ]

/-- The value of draw number `n` of the run: what `randf(1)` returns at the `n`-th call
of `rand()`. -/
def draw (c : Libc) (n : ℕ) : ℚ := (randf c n 1).1

/-- The number of draws made before the populator reaches cell number `i`, cells counted
in visiting order (`i = 12 * x + z`).  A cell takes one draw `r1`; a cell that spawns
takes a second draw `r2`; after a generic tree one more draw follows, made by the canopy
rule while the tree is instantiated. -/
def draw_index (c : Libc) : ℕ → ℕ
  | 0 => 0
  | i + 1 =>
    if draw c (draw_index c i) > 6 / 10 then
      if draw c (draw_index c i + 1) > 5 / 10 then draw_index c i + 2 else draw_index c i + 3
    else draw_index c i + 1

/-- Cell number `i` spawns a tree: its draw `r1` exceeds `0.6`. -/
def spawns (c : Libc) (i : ℕ) : Prop := draw c (draw_index c i) > 6 / 10

instance (c : Libc) (i : ℕ) : Decidable (spawns c i) := by
  unfold spawns; infer_instance

/-- Cell number `i` picks the pine prototype: its draw `r2` exceeds `0.5`. -/
def picks_pine (c : Libc) (i : ℕ) : Prop := draw c (draw_index c i + 1) > 5 / 10

instance (c : Libc) (i : ℕ) : Decidable (picks_pine c i) := by
  unfold picks_pine; infer_instance

/-- The `Position` the populator writes at cell number `i`, as the code computes it. -/
def cell_position (i : ℕ) : Position :=
  ⟨((i / 12 : ℕ) : ℚ) - 5 - 5 / 10, 0, ((i % 12 : ℕ) : ℚ) - 5 / 10⟩

/-- The entities that cell number `i` adds to the store when the next free identifier
is `id`. -/
def cell_entities (c : Libc) (i id : ℕ) : List Entity :=
  if spawns c i then
    if picks_pine c i then pine_entities id (cell_position i)
    else tree_entities id (cell_position i) (draw c (draw_index c i + 2) + 8 / 10)
  else []

/-- The entities that the first `k` cells add to the store, the first of them getting
identifier 14. -/
def forest (c : Libc) : ℕ → List Entity
  | 0 => []
  | k + 1 => forest c k ++ cell_entities c k (14 + (forest c k).length)

/-- The composites of the store: the objects with a template link to one of the two
composite prototypes of `Game`, oldest first. -/
def World.instances (w : World) : List Entity :=
  w.entities.filter (fun e =>
    decide (w.game.tree_prefab ∈ e.instanceof) || decide (w.game.pine_prefab ∈ e.instanceof))

/-- A draw sequence for examples: `RAND_MAX = 1` and every `rand()` returns `RAND_MAX`,
so that every cell spawns a pine. -/
def all_pines : Libc := ⟨1, fun _ => 1⟩

/-- A key state as a number: `1` when held, `0` when not. -/
def held (key : Bool) : ℚ := if key then 1 else 0

/-- The parts of a composite by identifier: the objects with a composition link to
`parent`, oldest first. -/
def World.parts (w : World) (parent : ℕ) : List ℕ :=
  (List.range w.entities.length).filter (fun id =>
    match w.entities[id]? with
    | some e => decide (parent ∈ e.childof)
    | none => false)

/-- Object `a` has a template link to object `b`. -/
def World.templates (w : World) (a b : ℕ) : Prop :=
  ∃ e, w.entities[a]? = some e ∧ b ∈ e.instanceof

/-! ## Binary floating point -/

/-- The integer nearest to `x`, a tie going to the even one. -/
def round_even (x : ℚ) : ℤ :=
  if x - ⌊x⌋ < 1 / 2 then ⌊x⌋
  else if 1 / 2 < x - ⌊x⌋ then ⌊x⌋ + 1
  else if ⌊x⌋ % 2 = 0 then ⌊x⌋ else ⌊x⌋ + 1

/-- Rounding to the IEEE 754 binary format with `p` bits of precision and smallest
normal exponent `emin`, to nearest with ties to even: the result is a multiple of
`2 ^ (e - (p - 1))`, where `2 ^ e ≤ |x| < 2 ^ (e + 1)` (and `e` is not below `emin`).
Overflow to infinity is left out. -/
def round_binary (p : ℕ) (emin : ℤ) (x : ℚ) : ℚ :=
  round_even (x / 2 ^ (max (Int.log 2 |x|) emin - (p - 1)))
    * 2 ^ (max (Int.log 2 |x|) emin - (p - 1))

/-- Rounding to `float` (binary32). -/
def to_float (x : ℚ) : ℚ := round_binary 24 (-126) x

/-- Rounding to `double` (binary64). -/
def to_double (x : ℚ) : ℚ := round_binary 53 (-1022) x

/-! ## The program in `float` arithmetic

The definitions below repeat `decelerate_camera`, `MoveCamera`, `randf` and the callback
of `RandomizeCanopy` with the rounding that C++ performs: an operation on `float`
operands is rounded to `float`, an operation with a `double` operand (a literal such as
`0.8`, `2.0`, `0.80`) is rounded to `double`, and a store into a `float` variable rounds
to `float`.  Every operation is rounded on its own (no fused multiply-add, no wider
intermediate format).  The values are the rationals that the floating-point numbers
denote. -/

/-- The constant `CameraAcceleration` as stored: `0.2` rounded to `float`. -/
def CameraAcceleration_f32 : ℚ := to_float (2 / 10)

/-- The constant `CameraDeceleration` as stored: `0.1` rounded to `float`. -/
def CameraDeceleration_f32 : ℚ := to_float (1 / 10)

/-- The constant `CameraMaxSpeed` as stored: `0.05` rounded to `float`. -/
def CameraMaxSpeed_f32 : ℚ := to_float (5 / 100)

/-- The function `decelerate_camera` in `float` arithmetic: the product and the
difference (or sum) are each rounded; `glm_clamp` only compares. -/
def decelerate_camera_f32 (v delta_time max_speed : ℚ) : ℚ :=
  let v1 := if v > 0 then
      glm_clamp (to_float (v - to_float (CameraDeceleration_f32 * delta_time))) 0 v
    else v
  let v2 := if v1 < 0 then
      glm_clamp (to_float (v1 + to_float (CameraDeceleration_f32 * delta_time))) v1 0
    else v1
  glm_clamp v2 (-max_speed) max_speed

/-- The system `MoveCamera` in `float` arithmetic, statement by statement.  The calls
`cos` and `sin` take and return a `float` (their values come from `m`); `shake *= 0.80`
and the time scale updates multiply in `double` and store a `float`. -/
def MoveCamera_f32 (m : Trig) (it : Frame) (s : Rig) : Rig :=
  let ctrl := s.ctrl
  -- Accelerate camera if keys are pressed
  let ctrl := if it.keys.key_d then
      { ctrl with v := to_float (ctrl.v - to_float (CameraAcceleration_f32 * it.delta_time)) }
    else ctrl
  let ctrl := if it.keys.key_a then
      { ctrl with v := to_float (ctrl.v + to_float (CameraAcceleration_f32 * it.delta_time)) }
    else ctrl
  let ctrl := if it.keys.key_s then
      { ctrl with v_h := to_float (ctrl.v_h - to_float (CameraAcceleration_f32 * it.delta_time)) }
    else ctrl
  let ctrl := if it.keys.key_w then
      { ctrl with v_h := to_float (ctrl.v_h + to_float (CameraAcceleration_f32 * it.delta_time)) }
    else ctrl
  let max_speed := CameraMaxSpeed_f32
  let max_speed := if it.keys.key_shift then to_float (max_speed / 8) else max_speed
  -- Decelerate camera each frame
  let ctrl := { ctrl with v := decelerate_camera_f32 ctrl.v it.delta_time max_speed }
  let ctrl := { ctrl with v_h := decelerate_camera_f32 ctrl.v_h it.delta_time max_speed }
  -- Update camera spherical coordinates
  let ctrl := { ctrl with r := to_float (ctrl.r + ctrl.v) }
  let ctrl := { ctrl with h := to_float (ctrl.h + to_float (ctrl.v_h * 2)) }
  let ctrl := { ctrl with d := to_float (ctrl.d - ctrl.v_h) }
  let camera := s.camera
  let camera := { camera with position0 := to_float (m.cos ctrl.r * ctrl.d) }
  let camera := { camera with position1 := ctrl.h }
  let camera := { camera with position2 := to_float (to_float (m.sin ctrl.r * ctrl.d) + 5) }
  -- Camera shake
  let camera := { camera with
    position1 := to_float (camera.position1
      + to_float (m.sin (to_float (it.world_time * 50)) * ctrl.shake)) }
  let ctrl := { ctrl with shake := to_float (to_double (ctrl.shake * to_double (80 / 100))) }
  let camera := { camera with lookat0 := 0 }
  let camera := { camera with lookat2 := 5 }
  let time_scale := s.time_scale
  let time_scale := if it.keys.key_minus then
      to_float (to_double (time_scale * to_double (95 / 100)))
    else time_scale
  let time_scale := if it.keys.key_plus then
      to_float (to_double (time_scale * to_double (105 / 100)))
    else time_scale
  { ctrl := ctrl, camera := camera, time_scale := time_scale }

/-- The rig after `n` frames in `float` arithmetic. -/
def run_frames_f32 (m : Trig) (frames : ℕ → Frame) : ℕ → Rig → Rig
  | 0, s => s
  | n + 1, s => MoveCamera_f32 m (frames n) (run_frames_f32 m frames n s)

/-- The function `randf(scale)` in `float` arithmetic: both casts, the quotient and the
product are rounded to `float`. -/
def randf_f32 (c : Libc) (calls : ℕ) (scale : ℚ) : ℚ × ℕ :=
  (to_float (to_float (to_float (c.rand calls) / to_float (c.RAND_MAX)) * scale), calls + 1)

/-- The callback of `RandomizeCanopy` in `float` arithmetic: `randf(1.0) + 0.8` and
`h / 2.0 + 0.5` are computed in `double` and stored into the `float`s `h` and `p.y`. -/
def RandomizeCanopy_f32 (c : Libc) (calls : ℕ) (p : Position) (b : Box) :
    (Position × Box) × ℕ :=
  let r := randf_f32 c calls 1
  let h := to_float (to_double (r.1 + to_double (8 / 10)))
  let b := { b with height := h }
  let p := { p with y := to_float (to_double (to_double (h / 2) + 5 / 10)) }
  ((p, b), r.2)

/-- The draw sequence of the usual C library in which every `rand()` returns `0`:
`RAND_MAX = 2147483647`. -/
def all_zero : Libc := ⟨2147483647, fun _ => 0⟩

/-- The value of `max_speed` at the two `decelerate_camera` calls, in `float`. -/
def max_speed_of_f32 (key_shift : Bool) : ℚ :=
  if key_shift then to_float (CameraMaxSpeed_f32 / 8) else CameraMaxSpeed_f32

/-- A velocity after the two key tests of one axis, in `float`: first the key that
subtracts, then the key that adds, each result rounded. -/
def accelerate_f32 (key_minus key_plus : Bool) (delta_time v : ℚ) : ℚ :=
  let v := if key_minus then
      to_float (v - to_float (CameraAcceleration_f32 * delta_time))
    else v
  if key_plus then to_float (v + to_float (CameraAcceleration_f32 * delta_time)) else v

/-- The frame count of the rest bound in float arithmetic:
`1 + ⌈0.05f / (c - 2 ^ (-29))⌉`, where `c` is the rounded product
`CameraDeceleration * delta_time` and `2 ^ (-29)` bounds the error of one rounded
subtraction below `1 / 16`. -/
def rest_frames_f32 (delta_time : ℚ) : ℕ :=
  1 + ⌈CameraMaxSpeed_f32 / (to_float (CameraDeceleration_f32 * delta_time) - 1 / 536870912)⌉₊

/-- The rule that `init_prefabs` registers, with the callback in float arithmetic. -/
def canopy_rule_f32 : System := ⟨"RandomizeCanopy", 4, RandomizeCanopy_f32⟩

end Trees

namespace Trees

/-! ## Facts about the clamp -/

theorem glm_min_eq (a b : ℚ) : glm_min a b = min a b := by
  unfold glm_min
  split_ifs with h
  · exact (min_eq_left h.le).symm
  · exact (min_eq_right (not_lt.mp h)).symm

theorem glm_max_eq (a b : ℚ) : glm_max a b = max a b := by
  unfold glm_max
  split_ifs with h
  · exact (max_eq_left (le_of_lt h)).symm
  · exact (max_eq_right (not_lt.mp h)).symm

theorem glm_clamp_eq (x lo hi : ℚ) : glm_clamp x lo hi = min (max x lo) hi := by
  unfold glm_clamp
  rw [glm_min_eq, glm_max_eq]

/-! ## `decelerate_camera` -/

theorem decelerate_camera_pos (v dt ms : ℚ) (hv : 0 < v) (hdt : 0 ≤ dt) (hms : 0 ≤ ms) :
    decelerate_camera v dt ms = min (max (v - CameraDeceleration * dt) 0) ms := by
  have hd : 0 ≤ CameraDeceleration * dt := mul_nonneg (by norm_num [CameraDeceleration]) hdt
  have h1 : min (max (v - CameraDeceleration * dt) 0) v = max (v - CameraDeceleration * dt) 0 :=
    min_eq_left (max_le (by linarith) hv.le)
  have h2 : ¬ max (v - CameraDeceleration * dt) 0 < 0 := not_lt.mpr (le_max_right _ _)
  have h3 : max (max (v - CameraDeceleration * dt) 0) (-ms) = max (v - CameraDeceleration * dt) 0 :=
    max_eq_left (le_trans (by linarith) (le_max_right _ _))
  simp only [decelerate_camera, glm_clamp_eq, gt_iff_lt, hv, if_true, h1, h2, if_false, h3]

theorem decelerate_camera_neg (v dt ms : ℚ) (hv : v < 0) (hdt : 0 ≤ dt) (hms : 0 ≤ ms) :
    decelerate_camera v dt ms = -min (max (-v - CameraDeceleration * dt) 0) ms := by
  have hd : 0 ≤ CameraDeceleration * dt := mul_nonneg (by norm_num [CameraDeceleration]) hdt
  have h0 : ¬ 0 < v := not_lt.mpr hv.le
  have h1 : max (v + CameraDeceleration * dt) v = v + CameraDeceleration * dt :=
    max_eq_left (by linarith)
  simp only [decelerate_camera, glm_clamp_eq, gt_iff_lt, h0, if_false, hv, if_true, h1]
  rcases le_total (v + CameraDeceleration * dt) 0 with h | h
  · rw [min_eq_left h, max_eq_left (show (0 : ℚ) ≤ -v - CameraDeceleration * dt by linarith)]
    rcases le_total (v + CameraDeceleration * dt) (-ms) with h' | h'
    · rw [max_eq_right h', min_eq_left (by linarith), min_eq_right (by linarith)]
    · rw [max_eq_left h', min_eq_left (by linarith), min_eq_left (by linarith)]
      ring
  · rw [min_eq_right h, max_eq_right (show -v - CameraDeceleration * dt ≤ (0 : ℚ) by linarith),
      max_eq_left (by linarith), min_eq_left hms]
    ring

theorem decelerate_camera_zero (dt ms : ℚ) (hms : 0 ≤ ms) : decelerate_camera 0 dt ms = 0 := by
  simp only [decelerate_camera, glm_clamp_eq, gt_iff_lt, lt_irrefl, if_false]
  rw [max_eq_left (by linarith), min_eq_left hms]

/-- C1: for every velocity `v`, every `delta_time ≥ 0` and every `max_speed ≥ 0`,
`decelerate_camera v delta_time max_speed` is
`sign v * min (max (|v| - 0.1 * delta_time) 0) max_speed`. -/
theorem decelerate_camera_closed_form (v delta_time max_speed : ℚ)
    (hdt : 0 ≤ delta_time) (hms : 0 ≤ max_speed) :
    decelerate_camera v delta_time max_speed
      = sgn v * min (max (|v| - (1 / 10) * delta_time) 0) max_speed := by
  have hc : (1 / 10 : ℚ) = CameraDeceleration := by norm_num [CameraDeceleration]
  rw [hc]
  rcases lt_trichotomy v 0 with hv | hv | hv
  · have h0 : ¬ 0 < v := not_lt.mpr hv.le
    rw [decelerate_camera_neg v _ _ hv hdt hms, abs_of_neg hv]
    simp only [sgn, h0, hv, if_false, if_true]
    ring
  · subst hv
    rw [decelerate_camera_zero _ _ hms]
    simp [sgn]
  · rw [decelerate_camera_pos v _ _ hv hdt hms, abs_of_pos hv]
    simp only [sgn, hv, if_true, one_mul]

/-- C1, at a concrete input: `v = -1/25`, `delta_time = 1/5`, `max_speed = 1/20`. -/
theorem decelerate_camera_closed_form_witness :
    decelerate_camera (-1 / 25) (1 / 5) (1 / 20)
      = sgn (-1 / 25) * min (max (|(-1 / 25 : ℚ)| - (1 / 10) * (1 / 5)) 0) (1 / 20) :=
  decelerate_camera_closed_form (-1 / 25) (1 / 5) (1 / 20) (by norm_num) (by norm_num)

/-! ## One `MoveCamera` step on the controller -/

theorem max_speed_of_pos (b : Bool) : 0 < max_speed_of b := by
  cases b <;> norm_num [max_speed_of, CameraMaxSpeed]

theorem max_speed_of_le (b : Bool) : max_speed_of b ≤ 5 / 100 := by
  cases b <;> norm_num [max_speed_of, CameraMaxSpeed]

theorem MoveCamera_ctrl (m : Trig) (it : Frame) (s : Rig) :
    (MoveCamera m it s).ctrl =
      { r := s.ctrl.r + decelerate_camera
            (accelerate it.keys.key_d it.keys.key_a it.delta_time s.ctrl.v)
            it.delta_time (max_speed_of it.keys.key_shift),
        v := decelerate_camera
            (accelerate it.keys.key_d it.keys.key_a it.delta_time s.ctrl.v)
            it.delta_time (max_speed_of it.keys.key_shift),
        v_h := decelerate_camera
            (accelerate it.keys.key_s it.keys.key_w it.delta_time s.ctrl.v_h)
            it.delta_time (max_speed_of it.keys.key_shift),
        h := s.ctrl.h + decelerate_camera
            (accelerate it.keys.key_s it.keys.key_w it.delta_time s.ctrl.v_h)
            it.delta_time (max_speed_of it.keys.key_shift) * 2,
        d := s.ctrl.d - decelerate_camera
            (accelerate it.keys.key_s it.keys.key_w it.delta_time s.ctrl.v_h)
            it.delta_time (max_speed_of it.keys.key_shift),
        shake := s.ctrl.shake * (80 / 100) } := by
  cases hd : it.keys.key_d <;> cases ha : it.keys.key_a <;> cases hs : it.keys.key_s <;>
    cases hw : it.keys.key_w <;>
    simp [MoveCamera, accelerate, max_speed_of, hd, ha, hs, hw]

theorem accelerate_none (dt v : ℚ) : accelerate false false dt v = v := by
  simp [accelerate]

theorem decelerate_camera_abs_le (v dt ms : ℚ) (hms : 0 ≤ ms) :
    |decelerate_camera v dt ms| ≤ ms := by
  simp only [decelerate_camera, glm_clamp_eq]
  rw [abs_le]
  exact ⟨le_min (le_max_right _ _) (by linarith), min_le_right _ _⟩

theorem decelerate_camera_abs (v dt ms : ℚ) (hdt : 0 ≤ dt) (hms : 0 ≤ ms) :
    |decelerate_camera v dt ms| = min (max (|v| - CameraDeceleration * dt) 0) ms := by
  have hnn : ∀ x : ℚ, 0 ≤ min (max x 0) ms := fun x => le_min (le_max_right _ _) hms
  rcases lt_trichotomy v 0 with hv | hv | hv
  · rw [decelerate_camera_neg v _ _ hv hdt hms, abs_neg, abs_of_nonneg (hnn _), abs_of_neg hv]
  · subst hv
    have hd : 0 ≤ CameraDeceleration * dt := mul_nonneg (by norm_num [CameraDeceleration]) hdt
    rw [decelerate_camera_zero _ _ hms, abs_zero, max_eq_right (by linarith), min_eq_left hms]
  · rw [decelerate_camera_pos v _ _ hv hdt hms, abs_of_nonneg (hnn _), abs_of_pos hv]

theorem decelerate_camera_abs_le_self (v dt ms : ℚ) (hdt : 0 ≤ dt) (hms : 0 ≤ ms) :
    |decelerate_camera v dt ms| ≤ max (|v| - CameraDeceleration * dt) 0 := by
  rw [decelerate_camera_abs v dt ms hdt hms]
  exact min_le_left _ _

/-! ## Frames without directional input -/

theorem step_no_direction (m : Trig) (it : Frame) (s : Rig) (hk : it.keys.no_direction) :
    (MoveCamera m it s).ctrl.v
        = decelerate_camera s.ctrl.v it.delta_time (max_speed_of it.keys.key_shift) ∧
    (MoveCamera m it s).ctrl.v_h
        = decelerate_camera s.ctrl.v_h it.delta_time (max_speed_of it.keys.key_shift) := by
  obtain ⟨hd, ha, hs, hw⟩ := hk
  rw [MoveCamera_ctrl, hd, ha, hs, hw, accelerate_none, accelerate_none]
  exact ⟨rfl, rfl⟩

theorem step_position (m : Trig) (it : Frame) (s : Rig) :
    (MoveCamera m it s).ctrl.r = s.ctrl.r + (MoveCamera m it s).ctrl.v ∧
    (MoveCamera m it s).ctrl.h = s.ctrl.h + (MoveCamera m it s).ctrl.v_h * 2 ∧
    (MoveCamera m it s).ctrl.d = s.ctrl.d - (MoveCamera m it s).ctrl.v_h := by
  rw [MoveCamera_ctrl]
  exact ⟨rfl, rfl, rfl⟩

/-- With no direction held and `delta_time ≥ 0`, one step sends a speed `a` to at most
`max (a - 0.1 * delta_time) 0`, and to at most `0.05`. -/
theorem step_speed_bound (m : Trig) (it : Frame) (s : Rig) (hk : it.keys.no_direction)
    (hdt : 0 ≤ it.delta_time) :
    (|(MoveCamera m it s).ctrl.v| ≤ max (|s.ctrl.v| - CameraDeceleration * it.delta_time) 0 ∧
      |(MoveCamera m it s).ctrl.v| ≤ 5 / 100) ∧
    (|(MoveCamera m it s).ctrl.v_h| ≤ max (|s.ctrl.v_h| - CameraDeceleration * it.delta_time) 0 ∧
      |(MoveCamera m it s).ctrl.v_h| ≤ 5 / 100) := by
  obtain ⟨hv, hvh⟩ := step_no_direction m it s hk
  have hms := (max_speed_of_pos it.keys.key_shift).le
  have hle := max_speed_of_le it.keys.key_shift
  rw [hv, hvh]
  exact ⟨⟨decelerate_camera_abs_le_self _ _ _ hdt hms,
      le_trans (decelerate_camera_abs_le _ _ _ hms) hle⟩,
    ⟨decelerate_camera_abs_le_self _ _ _ hdt hms,
      le_trans (decelerate_camera_abs_le _ _ _ hms) hle⟩⟩

theorem max_sub_le_self (a b : ℚ) (ha : 0 ≤ a) (hb : 0 ≤ b) : max (a - b) 0 ≤ a :=
  max_le (by linarith) ha

/-- Bound on both speeds `k` frames after the first one. -/
theorem speeds_after (m : Trig) (frames : ℕ → Frame) (dt : ℚ) (s : Rig) (hdt : 0 < dt)
    (hframes : ∀ i, (frames i).delta_time = dt ∧ (frames i).keys.no_direction) (k : ℕ) :
    |(run_frames m frames (1 + k) s).ctrl.v| ≤ max (5 / 100 - k * (CameraDeceleration * dt)) 0 ∧
    |(run_frames m frames (1 + k) s).ctrl.v_h| ≤ max (5 / 100 - k * (CameraDeceleration * dt)) 0 := by
  induction k with
  | zero =>
    have hb := step_speed_bound m (frames 0) s (hframes 0).2 (by rw [(hframes 0).1]; exact hdt.le)
    simp only [run_frames, Nat.cast_zero, zero_mul, sub_zero]
    exact ⟨le_trans hb.1.2 (le_max_left _ _), le_trans hb.2.2 (le_max_left _ _)⟩
  | succ k ih =>
    have hb := step_speed_bound m (frames (1 + k)) (run_frames m frames (1 + k) s)
      (hframes (1 + k)).2 (by rw [(hframes (1 + k)).1]; exact hdt.le)
    rw [(hframes (1 + k)).1] at hb
    have hstep : ∀ a : ℚ, a ≤ max (5 / 100 - k * (CameraDeceleration * dt)) 0 →
        max (a - CameraDeceleration * dt) 0
          ≤ max (5 / 100 - ((k + 1 : ℕ) : ℚ) * (CameraDeceleration * dt)) 0 := by
      intro a ha
      have hd : 0 < CameraDeceleration * dt := mul_pos (by norm_num [CameraDeceleration]) hdt
      push_cast
      rcases le_total (5 / 100 - (k : ℚ) * (CameraDeceleration * dt)) 0 with h | h
      · rw [max_eq_right h] at ha
        exact le_trans (max_le (by linarith) le_rfl) (le_max_right _ _)
      · rw [max_eq_left h] at ha
        exact max_le_max (by linarith) le_rfl
    have e : 1 + (k + 1) = (1 + k) + 1 := by omega
    rw [e]
    simp only [run_frames]
    exact ⟨le_trans hb.1.1 (hstep _ ih.1), le_trans hb.2.1 (hstep _ ih.2)⟩

theorem rest_frames_bound (dt : ℚ) (hdt : 0 < dt) :
    (5 / 100 : ℚ) - ((rest_frames dt - 1 : ℕ) : ℚ) * (CameraDeceleration * dt) ≤ 0 := by
  have hd : 0 < (1 / 10 : ℚ) * dt := mul_pos (by norm_num) hdt
  have h := Nat.le_ceil ((5 / 100 : ℚ) / ((1 / 10) * dt))
  rw [div_le_iff₀ hd] at h
  have e : rest_frames dt - 1 = ⌈(5 / 100 : ℚ) / ((1 / 10) * dt)⌉₊ := by
    unfold rest_frames; omega
  rw [e]
  have hc : CameraDeceleration = 1 / 10 := by norm_num [CameraDeceleration]
  rw [hc]
  linarith

/-- From frame `rest_frames dt` on, both velocities are zero. -/
theorem at_rest_from (m : Trig) (frames : ℕ → Frame) (dt : ℚ) (s : Rig) (hdt : 0 < dt)
    (hframes : ∀ i, (frames i).delta_time = dt ∧ (frames i).keys.no_direction) (n : ℕ)
    (hn : rest_frames dt ≤ n) :
    (run_frames m frames n s).ctrl.v = 0 ∧ (run_frames m frames n s).ctrl.v_h = 0 := by
  have h1 : 1 ≤ rest_frames dt := by unfold rest_frames; omega
  obtain ⟨k, rfl⟩ : ∃ k, n = 1 + k := ⟨n - 1, by omega⟩
  have hb := speeds_after m frames dt s hdt hframes k
  have hd : 0 < CameraDeceleration * dt := mul_pos (by norm_num [CameraDeceleration]) hdt
  have hk : ((rest_frames dt - 1 : ℕ) : ℚ) ≤ (k : ℚ) := by
    exact_mod_cast (show rest_frames dt - 1 ≤ k by omega)
  have hz : (5 / 100 : ℚ) - k * (CameraDeceleration * dt) ≤ 0 := by
    have := rest_frames_bound dt hdt
    have := mul_le_mul_of_nonneg_right hk hd.le
    linarith
  rw [max_eq_right hz] at hb
  exact ⟨abs_nonpos_iff.mp hb.1, abs_nonpos_iff.mp hb.2⟩

/-- In exact arithmetic: with a fixed `delta_time > 0` and none of the four directional
keys held (the modifier may be held or not, frame by frame), `|v|` and `|v_h|` never
increase from one frame to the next, and from frame `1 + ⌈0.05 / (0.1 * delta_time)⌉` on
both velocities are `0` and `r`, `h`, `d` keep the values they have at that frame. -/
theorem no_input_rest_exact (m : Trig) (frames : ℕ → Frame) (delta_time : ℚ) (s : Rig)
    (hdt : 0 < delta_time)
    (hframes : ∀ i, (frames i).delta_time = delta_time ∧ (frames i).keys.no_direction) :
    (∀ n, |(run_frames m frames (n + 1) s).ctrl.v| ≤ |(run_frames m frames n s).ctrl.v| ∧
        |(run_frames m frames (n + 1) s).ctrl.v_h| ≤ |(run_frames m frames n s).ctrl.v_h|) ∧
    (∀ n, rest_frames delta_time ≤ n →
        (run_frames m frames n s).ctrl.v = 0 ∧
        (run_frames m frames n s).ctrl.v_h = 0 ∧
        (run_frames m frames n s).ctrl.r = (run_frames m frames (rest_frames delta_time) s).ctrl.r ∧
        (run_frames m frames n s).ctrl.h = (run_frames m frames (rest_frames delta_time) s).ctrl.h ∧
        (run_frames m frames n s).ctrl.d
          = (run_frames m frames (rest_frames delta_time) s).ctrl.d) := by
  have hd : 0 ≤ CameraDeceleration * delta_time :=
    mul_nonneg (by norm_num [CameraDeceleration]) hdt.le
  refine ⟨fun n => ?_, fun n hn => ?_⟩
  · have hb := step_speed_bound m (frames n) (run_frames m frames n s) (hframes n).2
      (by rw [(hframes n).1]; exact hdt.le)
    rw [(hframes n).1] at hb
    simp only [run_frames]
    exact ⟨le_trans hb.1.1 (max_sub_le_self _ _ (abs_nonneg _) hd),
      le_trans hb.2.1 (max_sub_le_self _ _ (abs_nonneg _) hd)⟩
  · obtain ⟨hv, hvh⟩ := at_rest_from m frames delta_time s hdt hframes n hn
    refine ⟨hv, hvh, ?_⟩
    induction n, hn using Nat.le_induction with
    | base => exact ⟨rfl, rfl, rfl⟩
    | succ k hk ih =>
      obtain ⟨hv0, hvh0⟩ := at_rest_from m frames delta_time s hdt hframes k hk
      obtain ⟨ihr, ihh, ihd⟩ := ih hv0 hvh0
      obtain ⟨pr, ph, pd⟩ := step_position m (frames k) (run_frames m frames k s)
      simp only [run_frames] at hv hvh ⊢
      rw [pr, ph, pd, hv, hvh, ihr, ihh, ihd]
      simp

/-- C3: the rest state is a fixed point of the integrator.  With `v = 0`, `v_h = 0`
and none of the four directional keys held, one `MoveCamera` step (any `delta_time`,
modifier held or not) leaves `v = 0`, `v_h = 0` and `r`, `h`, `d` unchanged. -/
theorem rest_is_fixed_point (m : Trig) (it : Frame) (s : Rig)
    (hv : s.ctrl.v = 0) (hvh : s.ctrl.v_h = 0) (hk : it.keys.no_direction) :
    (MoveCamera m it s).ctrl.v = 0 ∧ (MoveCamera m it s).ctrl.v_h = 0 ∧
    (MoveCamera m it s).ctrl.r = s.ctrl.r ∧ (MoveCamera m it s).ctrl.h = s.ctrl.h ∧
    (MoveCamera m it s).ctrl.d = s.ctrl.d := by
  obtain ⟨h1, h2⟩ := step_no_direction m it s hk
  obtain ⟨pr, ph, pd⟩ := step_position m it s
  have hms := (max_speed_of_pos it.keys.key_shift).le
  rw [hv, decelerate_camera_zero _ _ hms] at h1
  rw [hvh, decelerate_camera_zero _ _ hms] at h2
  rw [pr, ph, pd, h1, h2]
  simp

/-- C3, at the scenario of the specification: `delta_time = 1`, no key held, modifier
unheld, velocities zero, `r = 7`, `h = 6`, `d = 8`. -/
theorem rest_is_fixed_point_witness :
    (MoveCamera ⟨fun _ => 0, fun _ => 0⟩
        ⟨1, 0, ⟨false, false, false, false, false, false, false⟩⟩
        ⟨⟨7, 0, 0, 6, 8, 0⟩, ⟨0, 0, 0, 0, 0, 0⟩, 1⟩).ctrl.v = 0 ∧
    (MoveCamera ⟨fun _ => 0, fun _ => 0⟩
        ⟨1, 0, ⟨false, false, false, false, false, false, false⟩⟩
        ⟨⟨7, 0, 0, 6, 8, 0⟩, ⟨0, 0, 0, 0, 0, 0⟩, 1⟩).ctrl.v_h = 0 ∧
    (MoveCamera ⟨fun _ => 0, fun _ => 0⟩
        ⟨1, 0, ⟨false, false, false, false, false, false, false⟩⟩
        ⟨⟨7, 0, 0, 6, 8, 0⟩, ⟨0, 0, 0, 0, 0, 0⟩, 1⟩).ctrl.r = 7 ∧
    (MoveCamera ⟨fun _ => 0, fun _ => 0⟩
        ⟨1, 0, ⟨false, false, false, false, false, false, false⟩⟩
        ⟨⟨7, 0, 0, 6, 8, 0⟩, ⟨0, 0, 0, 0, 0, 0⟩, 1⟩).ctrl.h = 6 ∧
    (MoveCamera ⟨fun _ => 0, fun _ => 0⟩
        ⟨1, 0, ⟨false, false, false, false, false, false, false⟩⟩
        ⟨⟨7, 0, 0, 6, 8, 0⟩, ⟨0, 0, 0, 0, 0, 0⟩, 1⟩).ctrl.d = 8 :=
  rest_is_fixed_point ⟨fun _ => 0, fun _ => 0⟩
    ⟨1, 0, ⟨false, false, false, false, false, false, false⟩⟩
    ⟨⟨7, 0, 0, 6, 8, 0⟩, ⟨0, 0, 0, 0, 0, 0⟩, 1⟩ rfl rfl ⟨rfl, rfl, rfl, rfl⟩

/-- C4: after every `MoveCamera` step, whatever the prior state, `delta_time` and held
keys, `|v| ≤ 0.05` and `|v_h| ≤ 0.05`; and when the modifier key is held during the
step, `|v| ≤ 0.05 / 8` and `|v_h| ≤ 0.05 / 8`. -/
theorem speed_is_capped (m : Trig) (it : Frame) (s : Rig) :
    (|(MoveCamera m it s).ctrl.v| ≤ 5 / 100 ∧ |(MoveCamera m it s).ctrl.v_h| ≤ 5 / 100) ∧
    (it.keys.key_shift = true →
      |(MoveCamera m it s).ctrl.v| ≤ 5 / 100 / 8 ∧
      |(MoveCamera m it s).ctrl.v_h| ≤ 5 / 100 / 8) := by
  have hms := (max_speed_of_pos it.keys.key_shift).le
  have hle := max_speed_of_le it.keys.key_shift
  rw [MoveCamera_ctrl]
  refine ⟨⟨le_trans (decelerate_camera_abs_le _ _ _ hms) hle,
    le_trans (decelerate_camera_abs_le _ _ _ hms) hle⟩, fun hshift => ?_⟩
  have e : max_speed_of it.keys.key_shift = 5 / 100 / 8 := by
    rw [hshift]; norm_num [max_speed_of, CameraMaxSpeed]
  rw [← e]
  exact ⟨decelerate_camera_abs_le _ _ _ hms, decelerate_camera_abs_le _ _ _ hms⟩

/-- C4, at a concrete input: modifier and the A and W keys held for `delta_time = 2`,
coming from `v = 9`, `v_h = -4`. -/
theorem speed_is_capped_witness :
    |(MoveCamera ⟨fun _ => 0, fun _ => 0⟩
        ⟨2, 0, ⟨false, true, false, true, true, false, false⟩⟩
        ⟨⟨0, 9, -4, 6, 8, 0⟩, ⟨0, 0, 0, 0, 0, 0⟩, 1⟩).ctrl.v| ≤ 5 / 100 / 8 ∧
    |(MoveCamera ⟨fun _ => 0, fun _ => 0⟩
        ⟨2, 0, ⟨false, true, false, true, true, false, false⟩⟩
        ⟨⟨0, 9, -4, 6, 8, 0⟩, ⟨0, 0, 0, 0, 0, 0⟩, 1⟩).ctrl.v_h| ≤ 5 / 100 / 8 :=
  (speed_is_capped ⟨fun _ => 0, fun _ => 0⟩
    ⟨2, 0, ⟨false, true, false, true, true, false, false⟩⟩
    ⟨⟨0, 9, -4, 6, 8, 0⟩, ⟨0, 0, 0, 0, 0, 0⟩, 1⟩).2 rfl

/-- C5: after `n` `MoveCamera` steps the shake amplitude is the initial one times
`0.80 ^ n`, whatever the frames' key states and delta times and whatever the rest of the
state (velocities included). -/
theorem shake_decay (m : Trig) (frames : ℕ → Frame) (s : Rig) (n : ℕ) :
    (run_frames m frames n s).ctrl.shake = s.ctrl.shake * (80 / 100 : ℚ) ^ n := by
  induction n with
  | zero => simp [run_frames]
  | succ k ih =>
    simp only [run_frames]
    rw [MoveCamera_ctrl]
    show (run_frames m frames k s).ctrl.shake * (80 / 100) = _
    rw [ih, pow_succ, mul_assoc]

/-! ## The prototype graph -/

theorem modify_length_append {α : Type} (f : α → α) (l : List α) (a : α) (l' : List α) :
    List.modify f l.length (l ++ a :: l') = l ++ f a :: l' := by
  induction l with
  | nil => rfl
  | cons b l ih => simp [ih]

theorem getElem?_length_append {α : Type} (l : List α) (a : α) (l' : List α) :
    (l ++ a :: l')[l.length]? = some a := by
  rw [List.getElem?_append_right (le_refl _), Nat.sub_self, List.getElem?_cons_zero]

theorem getElem?_append_of_some {α : Type} (l l' : List α) (i : ℕ) (a : α)
    (h : l[i]? = some a) : (l ++ l')[i]? = some a := by
  have hi : i < l.length := by
    by_contra hc
    rw [List.getElem?_eq_none (not_lt.mp hc)] at h
    exact Option.noConfusion h
  rw [List.getElem?_append_left hi, h]

theorem prefab_mk (es : List Entity) (g : Game) (ss : List System) (n : ℕ)
    (name : Option String) :
    World.prefab ⟨es, g, ss, n⟩ name
      = (es.length, ⟨es ++ [{ Entity.empty with name := name, is_prefab := true }], g, ss, n⟩) := by
  simp [World.prefab, World.entity, World.update, modify_length_append]

theorem entity_mk (es : List Entity) (g : Game) (ss : List System) (n : ℕ) :
    World.entity ⟨es, g, ss, n⟩ = (es.length, ⟨es ++ [Entity.empty], g, ss, n⟩) := rfl

theorem update_mk (es : List Entity) (g : Game) (ss : List System) (n : ℕ) (id : ℕ)
    (f : Entity → Entity) :
    World.update ⟨es, g, ss, n⟩ id f = ⟨es.modify f id, g, ss, n⟩ := rfl

theorem on_set_nil (c : Libc) (es : List Entity) (g : Game) (n : ℕ) (id : ℕ) :
    World.on_set c ⟨es, g, [], n⟩ id = ⟨es, g, [], n⟩ := rfl

theorem on_set_one (c : Libc) (es : List Entity) (g : Game) (sys : System) (n : ℕ) (id : ℕ) :
    World.on_set c ⟨es, g, [sys], n⟩ id = sys.run c ⟨es, g, [sys], n⟩ id := rfl

theorem children_mk (es : List Entity) (g : Game) (ss : List System) (n : ℕ) (p : ℕ) :
    World.children ⟨es, g, ss, n⟩ p = es.filter (fun e => decide (p ∈ e.childof)) := rfl

theorem system_mk (es : List Entity) (g : Game) (ss : List System) (n : ℕ) (name root : String)
    (each : Libc → ℕ → Position → Box → (Position × Box) × ℕ) :
    World.system ⟨es, g, ss, n⟩ name root each
      = ⟨es, g, ss ++ [⟨name, World.lookup ⟨es, g, ss, n⟩ root, each⟩], n⟩ := rfl

theorem init_prefabs_eq (c : Libc) :
    init_prefabs c World.empty
      = { entities := prototype_graph, game := ⟨4, 7⟩, systems := [canopy_rule],
          rand_calls := 0 } := by
  simp [init_prefabs, World.empty, prefab_mk, update_mk, on_set_nil, children_mk, system_mk,
    World.set_position, World.set_box, World.set_color, World.add_canopy, World.add_childof,
    World.add_instanceof, Entity.empty, World.lookup, List.findIdx, List.findIdx.go,
    prototype_graph, canopy_rule]

/-! ## Reactive rule on a new object -/

/-- A rule leaves the store alone when the object has no composition parent that is
an instance of the rule's root. -/
theorem run_of_no_parent (c : Libc) (sys : System) (w : World) (id : ℕ) (e : Entity)
    (he : w.entities[id]? = some e)
    (hp : e.childof.any (fun parent =>
      match w.entities[parent]? with
      | none => false
      | some pe => decide (sys.parent_instanceof ∈ pe.instanceof)) = false) :
    sys.run c w id = w := by
  have hs : sys.selects w id = false := by
    simp only [System.selects, he, hp, Bool.and_false]
  simp [System.run, hs]

/-- A rule leaves the store alone when the object has no template carrying the tag. -/
theorem run_of_no_canopy (c : Libc) (sys : System) (w : World) (id : ℕ) (e : Entity)
    (he : w.entities[id]? = some e)
    (hp : e.instanceof.any (fun base => (w.get Entity.canopy_tag base).isSome) = false) :
    sys.run c w id = w := by
  have hs : sys.selects w id = false := by
    simp only [System.selects, he, hp, Bool.and_false, Bool.false_and]
  simp [System.run, hs]

theorem instantiate_child_mk (c : Libc) (es : List Entity) (g : Game) (sys : System) (n : ℕ)
    (i base : ℕ) (part root : Entity) (hr : es[i]? = some root) :
    World.instantiate_child c ⟨es, g, [sys], n⟩ i base part
      = sys.run c ⟨es ++ [{ part with
          is_prefab := root.is_prefab,
          childof := part.childof.map (fun p => if p = base then i else p) }], g, [sys], n⟩
          es.length := by
  simp [World.instantiate_child, hr, on_set_one]

theorem get_of_own {α : Type} (w : World) (kind : Entity → Option α) (id : ℕ) (e : Entity)
    (a : α) (he : w.entities[id]? = some e) (ha : kind e = some a) :
    w.get kind id = some a := by
  have hlen : w.entities.length ≠ 0 := by
    intro h0
    rw [List.length_eq_zero] at h0
    rw [h0] at he
    exact Option.noConfusion he
  obtain ⟨k, hk⟩ := Nat.exists_eq_succ_of_ne_zero hlen
  simp only [World.get, hk, get_attribute, he, ha]

theorem get_of_root {α : Type} (w : World) (kind : Entity → Option α) (id : ℕ) (e : Entity)
    (he : w.entities[id]? = some e) (ha : kind e = none) (hi : e.instanceof = []) :
    w.get kind id = none := by
  unfold World.get
  cases w.entities.length with
  | zero => rfl
  | succ k => simp only [get_attribute, he, ha, hi, List.findSome?_nil]

/-- The copy of `part` that an instantiation under `root` (identifier `id`) makes. -/
theorem part_lookup (es : List Entity) (root : Entity) (parts : List Entity) (copy : Entity) :
    (es ++ root :: (parts ++ [copy]))[(es ++ root :: parts).length]? = some copy := by
  have e : es ++ root :: (parts ++ [copy]) = (es ++ root :: parts) ++ copy :: [] := by simp
  rw [e, getElem?_length_append]

theorem instantiate_child_root (c : Libc) (es : List Entity) (g : Game) (sys : System) (n : ℕ)
    (base : ℕ) (root part : Entity) (parts : List Entity) :
    World.instantiate_child c ⟨es ++ root :: parts, g, [sys], n⟩ es.length base part
      = sys.run c ⟨es ++ root :: (parts ++ [{ part with
          is_prefab := root.is_prefab,
          childof := part.childof.map (fun p => if p = base then es.length else p) }]),
          g, [sys], n⟩ (es ++ root :: parts).length := by
  rw [instantiate_child_mk c _ g sys n es.length base part root (getElem?_length_append _ _ _)]
  simp

/-- A new part whose parent is no instance of the rule's root is left as it is. -/
theorem run_new_other_root (c : Libc) (es : List Entity) (g : Game) (sys : System)
    (n : ℕ) (root copy : Entity) (parts : List Entity)
    (hc : copy.childof = [es.length]) (hr : sys.parent_instanceof ∉ root.instanceof) :
    sys.run c ⟨es ++ root :: (parts ++ [copy]), g, [sys], n⟩ (es ++ root :: parts).length
      = ⟨es ++ root :: (parts ++ [copy]), g, [sys], n⟩ := by
  apply run_of_no_parent c sys _ _ _ (part_lookup _ _ _ _)
  simp only [hc, List.any_cons, List.any_nil, getElem?_length_append, Bool.or_false,
    decide_eq_false_iff_not]
  exact hr

/-- A new part whose only template is a root object without the tag is left as it is. -/
theorem run_new_no_canopy (c : Libc) (es : List Entity) (g : Game) (sys : System)
    (n : ℕ) (root copy : Entity) (parts : List Entity) (b : ℕ) (be : Entity)
    (hi : copy.instanceof = [b]) (hb : es[b]? = some be)
    (hbc : be.canopy = false) (hbi : be.instanceof = []) :
    sys.run c ⟨es ++ root :: (parts ++ [copy]), g, [sys], n⟩ (es ++ root :: parts).length
      = ⟨es ++ root :: (parts ++ [copy]), g, [sys], n⟩ := by
  apply run_of_no_canopy c sys _ _ _ (part_lookup _ _ _ _)
  have hg : World.get ⟨es ++ root :: (parts ++ [copy]), g, [sys], n⟩ Entity.canopy_tag b = none :=
    get_of_root _ _ b be (getElem?_append_of_some _ _ _ _ hb) (by simp [Entity.canopy_tag, hbc]) hbi
  simp only [hi, List.any_cons, List.any_nil, hg, Option.isSome_none, Bool.or_false]

/-- A new part with own `Position` and `Box`, a template carrying the tag and a parent
that is an instance of the rule's root is handed to the rule's callback. -/
theorem run_new_selected (c : Libc) (es : List Entity) (g : Game) (sys : System)
    (n : ℕ) (root copy : Entity) (parts : List Entity) (b : ℕ) (be : Entity)
    (p : Position) (bx : Box)
    (hc : copy.childof = [es.length]) (hi : copy.instanceof = [b]) (hb : es[b]? = some be)
    (hbc : be.canopy = true) (hp : copy.position = some p) (hx : copy.box = some bx)
    (hr : sys.parent_instanceof ∈ root.instanceof) :
    sys.run c ⟨es ++ root :: (parts ++ [copy]), g, [sys], n⟩ (es ++ root :: parts).length
      = ⟨es ++ root :: (parts ++ [{ copy with
          position := some (sys.each c n p bx).1.1, box := some (sys.each c n p bx).1.2 }]),
          g, [sys], (sys.each c n p bx).2⟩ := by
  have hl := part_lookup es root parts copy
  have hgp := get_of_own ⟨es ++ root :: (parts ++ [copy]), g, [sys], n⟩
        Entity.position (es ++ root :: parts).length copy p hl hp
  have hgx := get_of_own ⟨es ++ root :: (parts ++ [copy]), g, [sys], n⟩
        Entity.box (es ++ root :: parts).length copy bx hl hx
  have hgc := get_of_own ⟨es ++ root :: (parts ++ [copy]), g, [sys], n⟩
        Entity.canopy_tag b be () (getElem?_append_of_some _ _ _ _ hb)
        (by simp [Entity.canopy_tag, hbc])
  have hs : sys.selects ⟨es ++ root :: (parts ++ [copy]), g, [sys], n⟩
        (es ++ root :: parts).length = true := by
    simp only [System.selects, hl, hgp, hgx, hi, hc, List.any_cons, List.any_nil, hgc,
      getElem?_length_append, Option.isSome_some, Bool.and_self, Bool.or_false, hr, decide_True]
  simp only [System.run, hs, if_true, hgp, hgx, update_mk]
  have e : es ++ root :: (parts ++ [copy]) = (es ++ root :: parts) ++ copy :: [] := by simp
  rw [e, modify_length_append]
  simp

/-! ## Instantiating the two composites -/

theorem instantiate_child_other_root (c : Libc) (es : List Entity) (g : Game) (sys : System)
    (n : ℕ) (base : ℕ) (root part : Entity) (parts : List Entity)
    (hc : part.childof = [base]) (hr : sys.parent_instanceof ∉ root.instanceof) :
    World.instantiate_child c ⟨es ++ root :: parts, g, [sys], n⟩ es.length base part
      = ⟨es ++ root :: (parts ++ [{ part with
          is_prefab := root.is_prefab, childof := [es.length] }]), g, [sys], n⟩ := by
  rw [instantiate_child_root, hc]
  simp only [List.map_cons, List.map_nil, if_true]
  exact run_new_other_root c es g sys n root _ parts rfl hr

theorem instantiate_child_no_canopy (c : Libc) (es : List Entity) (g : Game) (sys : System)
    (n : ℕ) (base : ℕ) (root part : Entity) (parts : List Entity) (b : ℕ) (be : Entity)
    (hc : part.childof = [base]) (hi : part.instanceof = [b]) (hb : es[b]? = some be)
    (hbc : be.canopy = false) (hbi : be.instanceof = []) :
    World.instantiate_child c ⟨es ++ root :: parts, g, [sys], n⟩ es.length base part
      = ⟨es ++ root :: (parts ++ [{ part with
          is_prefab := root.is_prefab, childof := [es.length] }]), g, [sys], n⟩ := by
  rw [instantiate_child_root, hc]
  simp only [List.map_cons, List.map_nil, if_true]
  exact run_new_no_canopy c es g sys n root _ parts b be hi hb hbc hbi

theorem instantiate_child_selected (c : Libc) (es : List Entity) (g : Game) (sys : System)
    (n : ℕ) (base : ℕ) (root part : Entity) (parts : List Entity) (b : ℕ) (be : Entity)
    (p : Position) (bx : Box)
    (hc : part.childof = [base]) (hi : part.instanceof = [b]) (hb : es[b]? = some be)
    (hbc : be.canopy = true) (hp : part.position = some p) (hx : part.box = some bx)
    (hr : sys.parent_instanceof ∈ root.instanceof) :
    World.instantiate_child c ⟨es ++ root :: parts, g, [sys], n⟩ es.length base part
      = ⟨es ++ root :: (parts ++ [{ part with
          is_prefab := root.is_prefab, childof := [es.length],
          position := some (sys.each c n p bx).1.1, box := some (sys.each c n p bx).1.2 }]),
          g, [sys], (sys.each c n p bx).2⟩ := by
  rw [instantiate_child_root, hc]
  simp only [List.map_cons, List.map_nil, if_true]
  exact run_new_selected c es g sys n root _ parts b be p bx rfl hi hb hbc hp hx hr

/-- Writing the `Position` of a root object (one without composition parent). -/
theorem set_position_root (c : Libc) (es : List Entity) (g : Game) (sys : System) (n : ℕ)
    (root : Entity) (parts : List Entity) (p : Position) (hc : root.childof = []) :
    World.set_position c ⟨es ++ root :: parts, g, [sys], n⟩ es.length p
      = ⟨es ++ { root with position := some p } :: parts, g, [sys], n⟩ := by
  simp only [World.set_position, update_mk, modify_length_append, on_set_one]
  apply run_of_no_parent c sys _ _ _ (getElem?_length_append _ _ _)
  simp only [hc, List.any_nil]

theorem add_instanceof_new (c : Libc) (es : List Entity) (g : Game) (ss : List System) (n : ℕ)
    (base : ℕ) (kids : List Entity)
    (hk : es.filter (fun e => decide (base ∈ e.childof)) = kids) :
    World.add_instanceof c ⟨es ++ [Entity.empty], g, ss, n⟩ es.length base
      = kids.foldl (fun w part => w.instantiate_child c es.length base part)
          ⟨es ++ [{ Entity.empty with instanceof := [base] }], g, ss, n⟩ := by
  simp only [World.add_instanceof, update_mk, modify_length_append, children_mk,
    List.filter_append, hk]
  simp [Entity.empty]

/-- The parts of `PPine` and of `PTree` in the prototype graph. -/
theorem prototype_children :
    prototype_graph.filter (fun e => decide (7 ∈ e.childof))
      = [ { Entity.empty with is_prefab := true, instanceof := [1], childof := [7] },
          { Entity.empty with
              is_prefab := true, instanceof := [3], childof := [7],
              position := some ⟨0, 6 / 10, 0⟩, box := some ⟨8 / 10, 4 / 10, 8 / 10⟩ },
          { Entity.empty with
              is_prefab := true, instanceof := [3], childof := [7],
              position := some ⟨0, 1, 0⟩, box := some ⟨6 / 10, 4 / 10, 6 / 10⟩ },
          { Entity.empty with
              is_prefab := true, instanceof := [3], childof := [7],
              position := some ⟨0, 14 / 10, 0⟩, box := some ⟨4 / 10, 4 / 10, 4 / 10⟩ } ] ∧
    prototype_graph.filter (fun e => decide (4 ∈ e.childof))
      = [ { Entity.empty with is_prefab := true, instanceof := [1], childof := [4] },
          { Entity.empty with
              is_prefab := true, instanceof := [2], childof := [4],
              position := some ⟨0, 9 / 10, 0⟩, box := some ⟨8 / 10, 8 / 10, 8 / 10⟩ } ] := by
  constructor <;> simp [prototype_graph, Entity.empty, List.filter]

theorem spawn_pine (c : Libc) (es : List Entity) (n : ℕ) (p : Position)
    (hk : es.filter (fun e => decide (7 ∈ e.childof))
      = prototype_graph.filter (fun e => decide (7 ∈ e.childof))) :
    World.spawn c ⟨es, ⟨4, 7⟩, [canopy_rule], n⟩ 7 p
      = ⟨es ++ pine_entities es.length p, ⟨4, 7⟩, [canopy_rule], n⟩ := by
  have hr : canopy_rule.parent_instanceof ∉ ({ Entity.empty with instanceof := [7] } : Entity).instanceof := by
    simp [canopy_rule]
  rw [prototype_children.1] at hk
  simp only [World.spawn, entity_mk]
  rw [add_instanceof_new c es _ _ n 7 _ hk]
  simp only [List.foldl_cons, List.foldl_nil]
  rw [instantiate_child_other_root c es _ _ n 7 _ _ [] rfl hr,
    instantiate_child_other_root c es _ _ n 7 _ _ _ rfl hr,
    instantiate_child_other_root c es _ _ n 7 _ _ _ rfl hr,
    instantiate_child_other_root c es _ _ n 7 _ _ _ rfl hr,
    set_position_root c es _ _ n _ _ p rfl]
  simp [pine_entities, Entity.empty]

theorem spawn_tree (c : Libc) (es : List Entity) (n : ℕ) (p : Position)
    (hk : es.filter (fun e => decide (4 ∈ e.childof))
      = prototype_graph.filter (fun e => decide (4 ∈ e.childof)))
    (h1 : es[1]? = prototype_graph[1]?) (h2 : es[2]? = prototype_graph[2]?) :
    World.spawn c ⟨es, ⟨4, 7⟩, [canopy_rule], n⟩ 4 p
      = ⟨es ++ tree_entities es.length p ((randf c n 1).1 + 8 / 10), ⟨4, 7⟩, [canopy_rule],
          n + 1⟩ := by
  have hr : canopy_rule.parent_instanceof ∈ ({ Entity.empty with instanceof := [4] } : Entity).instanceof := by
    simp [canopy_rule]
  rw [prototype_children.2] at hk
  simp only [World.spawn, entity_mk]
  rw [add_instanceof_new c es _ _ n 4 _ hk]
  simp only [List.foldl_cons, List.foldl_nil]
  rw [instantiate_child_no_canopy c es _ _ n 4 _ _ [] 1 _ rfl rfl h1 rfl rfl,
    instantiate_child_selected c es _ _ n 4 _ _ _ 2 _ _ _ rfl rfl h2 rfl rfl rfl hr,
    set_position_root c es _ _ _ _ _ p rfl]
  simp [tree_entities, Entity.empty, canopy_rule, RandomizeCanopy, randf]

/-! ## The populator -/

theorem set_all_root (c : Libc) (es : List Entity) (g : Game) (sys : System) (n : ℕ)
    (p : Position) (col : Color) (b : Box) :
    World.set_box c (World.set_color
        (World.set_position c ⟨es ++ [Entity.empty], g, [sys], n⟩ es.length p) es.length col)
        es.length b
      = ⟨es ++ [{ Entity.empty with position := some p, color := some col, box := some b }],
          g, [sys], n⟩ := by
  rw [set_position_root c es g sys n Entity.empty [] _ rfl]
  simp only [World.set_color, World.set_box, update_mk, modify_length_append, on_set_one]
  exact run_of_no_parent c sys _ _ _ (getElem?_length_append _ _ _) (by simp [Entity.empty])

theorem init_level_ground_eq (c : Libc) (es : List Entity) (g : Game) (sys : System) (n : ℕ) :
    init_level_ground c ⟨es, g, [sys], n⟩ = ⟨es ++ ground_entities, g, [sys], n⟩ := by
  simp only [init_level_ground, entity_mk, set_all_root]
  simp [ground_entities]

theorem ready_filter (w : World) (hw : w.Ready) (base : ℕ) (hb : base = 4 ∨ base = 7) :
    w.entities.filter (fun e => decide (base ∈ e.childof))
      = prototype_graph.filter (fun e => decide (base ∈ e.childof)) := by
  obtain ⟨⟨rest, he, hrest⟩, -, -⟩ := hw
  rw [he, List.filter_append]
  have : rest.filter (fun e => decide (base ∈ e.childof)) = [] := by
    rw [List.filter_eq_nil_iff]
    intro e hmem
    rcases hb with rfl | rfl
    · simpa using (hrest e hmem).1
    · simpa using (hrest e hmem).2
  rw [this, List.append_nil]

theorem ready_lookup (w : World) (hw : w.Ready) (i : ℕ) (hi : i < 12) :
    w.entities[i]? = prototype_graph[i]? := by
  obtain ⟨⟨rest, he, -⟩, -, -⟩ := hw
  rw [he, List.getElem?_append_left (by simpa [prototype_graph] using hi)]

theorem ready_append (es : List Entity) (n m : ℕ) (new : List Entity)
    (hw : World.Ready ⟨es, ⟨4, 7⟩, [canopy_rule], n⟩)
    (hnew : ∀ e ∈ new, 4 ∉ e.childof ∧ 7 ∉ e.childof) :
    World.Ready ⟨es ++ new, ⟨4, 7⟩, [canopy_rule], m⟩ := by
  obtain ⟨⟨rest, he, hrest⟩, -, -⟩ := hw
  refine ⟨⟨rest ++ new, ?_, ?_⟩, rfl, rfl⟩
  · show es ++ new = _
    rw [show es = prototype_graph ++ rest from he, List.append_assoc]
  · intro e hmem
    rcases List.mem_append.mp hmem with h | h
    · exact hrest e h
    · exact hnew e h

theorem cell_entities_childof (c : Libc) (i id : ℕ) (hid : 12 ≤ id) :
    ∀ e ∈ cell_entities c i id, 4 ∉ e.childof ∧ 7 ∉ e.childof := by
  intro e he
  unfold cell_entities at he
  split_ifs at he
  · simp only [pine_entities, List.mem_cons, List.mem_singleton, List.not_mem_nil, or_false] at he
    rcases he with rfl | rfl | rfl | rfl | rfl <;> simp [Entity.empty] <;> omega
  · simp only [tree_entities, List.mem_cons, List.mem_singleton, List.not_mem_nil, or_false] at he
    rcases he with rfl | rfl | rfl <;> simp [Entity.empty] <;> omega
  · simp at he

/-- One cell of the grid, in a store in which the populator can run. -/
theorem init_level_cell_eq (c : Libc) (x z : ℕ) (es : List Entity) (n : ℕ)
    (hw : World.Ready ⟨es, ⟨4, 7⟩, [canopy_rule], n⟩) :
    init_level_cell c x z ⟨es, ⟨4, 7⟩, [canopy_rule], n⟩ =
      if draw c n > 6 / 10 then
        if draw c (n + 1) > 5 / 10 then
          ⟨es ++ pine_entities es.length ⟨(x : ℚ) - 5 - 5 / 10, 0, (z : ℚ) - 5 / 10⟩,
            ⟨4, 7⟩, [canopy_rule], n + 2⟩
        else
          ⟨es ++ tree_entities es.length ⟨(x : ℚ) - 5 - 5 / 10, 0, (z : ℚ) - 5 / 10⟩
              (draw c (n + 2) + 8 / 10), ⟨4, 7⟩, [canopy_rule], n + 3⟩
      else ⟨es, ⟨4, 7⟩, [canopy_rule], n + 1⟩ := by
  have h7 := ready_filter _ hw 7 (Or.inr rfl)
  have h4 := ready_filter _ hw 4 (Or.inl rfl)
  have h1 := ready_lookup _ hw 1 (by norm_num)
  have h2 := ready_lookup _ hw 2 (by norm_num)
  have r1 : (randf c n 1).2 = n + 1 := rfl
  have r2 : (randf c (n + 1) 1).2 = n + 2 := rfl
  simp only [init_level_cell, draw, r1, r2]
  split_ifs with ha hb
  · exact spawn_pine c es (n + 2) _ h7
  · exact spawn_tree c es (n + 2) _ h4 h1 h2
  · rfl

/-- The two nested loops over a grid visit the cells in the order of their number
`i = b * x + z`. -/
theorem fold_grid {W : Type} (f : ℕ → ℕ → W → W) (b : ℕ) (hb : 0 < b) (a : ℕ) (w0 : W) :
    (List.range a).foldl (fun w x => (List.range b).foldl (fun w z => f x z w) w) w0
      = (List.range (a * b)).foldl (fun w i => f (i / b) (i % b) w) w0 := by
  induction a with
  | zero => simp
  | succ a ih =>
    rw [List.range_succ, List.foldl_append, List.foldl_cons, List.foldl_nil, ih,
      show (a + 1) * b = a * b + b by ring, List.range_add, List.foldl_append, List.foldl_map]
    apply List.foldl_ext
    intro w z hz
    have hz' : z < b := List.mem_range.mp hz
    have h1 : (a * b + z) / b = a := by
      rw [Nat.add_comm, Nat.add_mul_div_right _ _ hb, Nat.div_eq_of_lt hz', Nat.zero_add]
    have h2 : (a * b + z) % b = z := by
      rw [Nat.add_comm, Nat.add_mul_mod_self_right, Nat.mod_eq_of_lt hz']
    rw [h1, h2]

theorem ground_ready (n : ℕ) :
    World.Ready ⟨prototype_graph ++ ground_entities, ⟨4, 7⟩, [canopy_rule], n⟩ := by
  refine ⟨⟨ground_entities, rfl, ?_⟩, rfl, rfl⟩
  intro e he
  simp only [ground_entities, List.mem_cons, List.mem_singleton, List.not_mem_nil, or_false] at he
  rcases he with rfl | rfl <;> simp [Entity.empty]

theorem forest_succ (c : Libc) (k : ℕ) :
    forest c (k + 1) = forest c k ++ cell_entities c k (14 + (forest c k).length) := rfl

/-- The store after the first `k` cells of the grid. -/
theorem run_cells (c : Libc) (k : ℕ) :
    (List.range k).foldl (fun w i => init_level_cell c (i / 12) (i % 12) w)
        ⟨prototype_graph ++ ground_entities, ⟨4, 7⟩, [canopy_rule], 0⟩
      = ⟨prototype_graph ++ ground_entities ++ forest c k, ⟨4, 7⟩, [canopy_rule],
          draw_index c k⟩ ∧
    World.Ready ⟨prototype_graph ++ ground_entities ++ forest c k, ⟨4, 7⟩, [canopy_rule],
      draw_index c k⟩ := by
  induction k with
  | zero =>
    simp only [List.range_zero, List.foldl_nil, forest, draw_index, List.append_nil]
    exact ⟨trivial, ground_ready 0⟩
  | succ k ih =>
    obtain ⟨ih1, ih2⟩ := ih
    have hlen : (prototype_graph ++ ground_entities ++ forest c k).length
        = 14 + (forest c k).length := by
      simp only [prototype_graph, ground_entities, List.length_append, List.length_cons,
        List.length_nil]
    have hready : World.Ready ⟨prototype_graph ++ ground_entities ++ forest c (k + 1), ⟨4, 7⟩,
        [canopy_rule], draw_index c (k + 1)⟩ := by
      rw [forest_succ, ← List.append_assoc]
      exact ready_append _ _ _ _ ih2 (cell_entities_childof c k _ (by omega))
    refine ⟨?_, hready⟩
    rw [List.range_succ, List.foldl_append, List.foldl_cons, List.foldl_nil, ih1,
      init_level_cell_eq c _ _ _ _ ih2, hlen, forest_succ, ← List.append_assoc]
    simp only [cell_entities, spawns, picks_pine, draw_index, cell_position]
    split_ifs <;> simp

/-- The scene in closed form. -/
theorem scene_eq (c : Libc) :
    scene c = ⟨prototype_graph ++ ground_entities ++ forest c 144, ⟨4, 7⟩, [canopy_rule],
      draw_index c 144⟩ := by
  have h := fold_grid (fun x z w => init_level_cell c x z w) 12 (by norm_num) 12
  simp only [scene, init_level, init_prefabs_eq, init_level_ground_eq]
  rw [h]
  exact (run_cells c 144).1

/-! ## What the populator spawned -/

/-- The root object of the composite that cell number `i` spawns. -/
theorem cell_instances (c : Libc) (i id : ℕ) :
    (cell_entities c i id).filter
        (fun e => decide (4 ∈ e.instanceof) || decide (7 ∈ e.instanceof))
      = if spawns c i then
          [{ Entity.empty with
              instanceof := [if picks_pine c i then 7 else 4],
              position := some (cell_position i) }]
        else [] := by
  unfold cell_entities
  split_ifs <;> simp [pine_entities, tree_entities, Entity.empty, List.filter]

theorem forest_instances (c : Libc) (k : ℕ) :
    (forest c k).filter (fun e => decide (4 ∈ e.instanceof) || decide (7 ∈ e.instanceof))
      = (List.range k).filterMap (fun i =>
          if spawns c i then
            some { Entity.empty with
              instanceof := [if picks_pine c i then 7 else 4],
              position := some (cell_position i) }
          else none) := by
  induction k with
  | zero => rfl
  | succ k ih =>
    rw [forest_succ, List.filter_append, ih, cell_instances, List.range_succ,
      List.filterMap_append]
    congr 1
    by_cases h : spawns c k <;> simp [h]

theorem scene_instances (c : Libc) :
    (scene c).instances
      = (List.range 144).filterMap (fun i =>
          if spawns c i then
            some { Entity.empty with
              instanceof := [if picks_pine c i then 7 else 4],
              position := some (cell_position i) }
          else none) := by
  rw [scene_eq]
  simp only [World.instances, List.filter_append, forest_instances]
  simp [prototype_graph, ground_entities, Entity.empty, List.filter]

theorem cell_position_eq (i : ℕ) :
    cell_position i = ⟨((i / 12 : ℕ) : ℚ) - 11 / 2, 0, ((i % 12 : ℕ) : ℚ) - 1 / 2⟩ := by
  simp only [cell_position, Position.mk.injEq]
  refine ⟨by ring, trivial, by ring⟩

/-- C6: the populator is a function of the draw sequence `c`.  It goes through the
144 cells in the order of their number `i = 12 * x + z` (`x` outer, `z` inner); cell `i`
reads its draw `r1` at position `draw_index c i` of the sequence and spawns exactly when
`r1 > 0.6`; a spawning cell reads `r2` at the next position and takes the pine prototype
exactly when `r2 > 0.5`, the generic tree prototype otherwise; a cell that does not
spawn reads no second draw.  (After a generic tree the sequence is advanced once more, by
the canopy rule.) -/
theorem populator_follows_draws (c : Libc) :
    (scene c).instances.map (fun e => (e.instanceof, e.position))
      = (List.range 144).filterMap (fun i =>
          if draw c (draw_index c i) > 6 / 10 then
            some ([if draw c (draw_index c i + 1) > 5 / 10 then (scene c).game.pine_prefab
                    else (scene c).game.tree_prefab],
                  some (cell_position i))
          else none) ∧
    (scene c).rand_calls = draw_index c 144 ∧
    (∀ i, draw_index c (i + 1) =
      if draw c (draw_index c i) > 6 / 10 then
        if draw c (draw_index c i + 1) > 5 / 10 then draw_index c i + 2 else draw_index c i + 3
      else draw_index c i + 1) := by
  refine ⟨?_, ?_, fun i => rfl⟩
  · rw [scene_instances, List.map_filterMap]
    have hg : (scene c).game = ⟨4, 7⟩ := by rw [scene_eq]
    rw [hg]
    congr 1
    funext i
    by_cases h : spawns c i
    · have h' := h
      unfold spawns at h'
      by_cases hp : picks_pine c i
      · have hp' := hp
        unfold picks_pine at hp'
        simp [h, h', hp, hp', Entity.empty]
      · have hp' := hp
        unfold picks_pine at hp'
        simp [h, h', hp, hp', Entity.empty]
    · have h' := h
      unfold spawns at h'
      simp [h, h']
  · rw [scene_eq]

/-- C8: the objects the populator spawned carry, in spawning order, the Positions
`(x - 5.5, 0, z - 0.5)` of the spawning cells `(x, z) = (i / 12, i % 12)`, whichever
prototype was chosen; and when cell `(0, 0)` spawns a pine, the first object of the scene
is a pine at exactly `(-5.5, 0, -0.5)`. -/
theorem spawned_positions (c : Libc) :
    (scene c).instances.map Entity.position
      = ((List.range 144).filter (fun i => decide (spawns c i))).map (fun i =>
          some ⟨((i / 12 : ℕ) : ℚ) - 11 / 2, 0, ((i % 12 : ℕ) : ℚ) - 1 / 2⟩) ∧
    (spawns c 0 → picks_pine c 0 →
      (scene c).instances.head? = some { Entity.empty with
        instanceof := [(scene c).game.pine_prefab],
        position := some ⟨-(11 / 2), 0, -(1 / 2)⟩ }) := by
  constructor
  · rw [scene_instances, List.map_filterMap, ← List.filterMap_eq_map, List.filterMap_filter]
    congr 1
    funext i
    by_cases h : spawns c i <;> simp [h, cell_position_eq]
  · intro h0 h1
    have hg : (scene c).game = ⟨4, 7⟩ := by rw [scene_eq]
    rw [scene_instances, hg, List.range_succ_eq_map, List.filterMap_cons]
    simp only [h0, h1, if_true, List.head?_cons, cell_position_eq]
    norm_num

/-- C8, at a concrete draw sequence: `RAND_MAX = 1` and every `rand()` returns 1, so
cell `(0, 0)` spawns a pine. -/
theorem spawned_positions_witness :
    (scene ⟨1, fun _ => 1⟩).instances.head? = some { Entity.empty with
      instanceof := [(scene ⟨1, fun _ => 1⟩).game.pine_prefab],
      position := some ⟨-(11 / 2), 0, -(1 / 2)⟩ } :=
  (spawned_positions ⟨1, fun _ => 1⟩).2
    (by norm_num [spawns, draw, draw_index, randf])
    (by norm_num [picks_pine, draw, draw_index, randf])

theorem scene_head_pine (c : Libc) (h0 : spawns c 0) (h1 : picks_pine c 0) :
    (scene c).instances.head? = some { Entity.empty with
      instanceof := [7], position := some ⟨-(11 / 2), 0, -(1 / 2)⟩ } := by
  rw [scene_instances, List.range_succ_eq_map, List.filterMap_cons]
  simp only [h0, h1, if_true, List.head?_cons, cell_position_eq]
  norm_num

theorem all_pines_spawn : spawns all_pines 0 ∧ picks_pine all_pines 0 := by
  constructor <;> norm_num [spawns, picks_pine, draw, draw_index, randf, all_pines]

/-- C7, refuted as stated: in the scene in which every draw is `RAND_MAX`, the tree
of cell `(0, 0)` is the first object spawned, and no single offset `o` gives its
Position as `(0 - o, 0, 0 - o)`. -/
theorem single_offset_fails :
    ∃ e, (scene all_pines).instances.head? = some e ∧
      ¬ ∃ offset : ℚ, e.position = some ⟨0 - offset, 0, 0 - offset⟩ := by
  refine ⟨_, scene_head_pine all_pines all_pines_spawn.1 all_pines_spawn.2, ?_⟩
  rintro ⟨o, ho⟩
  simp only [Option.some.injEq, Position.mk.injEq] at ho
  linarith [ho.1, ho.2.2]

/-- C7, amended: at grid cell `(x, z)` the populator, when it spawns, creates the tree
(of either prototype) as the next object of the store with Position
`(x - 5.5, 0, z - 0.5)`: the offset subtracted from `x` is `5.5`, the one subtracted
from `z` is `0.5`. -/
theorem cell_offsets (c : Libc) (x z : ℕ) (w : World) (hw : w.Ready) :
    (init_level_cell c x z w).entities[w.entities.length]? =
      if draw c w.rand_calls > 6 / 10 then
        some { Entity.empty with
          instanceof := [if draw c (w.rand_calls + 1) > 5 / 10 then w.game.pine_prefab
            else w.game.tree_prefab],
          position := some ⟨(x : ℚ) - 11 / 2, 0, (z : ℚ) - 1 / 2⟩ }
      else none := by
  obtain ⟨es, g, ss, n⟩ := w
  obtain ⟨hg, hs⟩ : g = ⟨4, 7⟩ ∧ ss = [canopy_rule] := hw.2
  subst hg hs
  rw [init_level_cell_eq c x z es n hw]
  have e1 : (x : ℚ) - 5 - 5 / 10 = (x : ℚ) - 11 / 2 := by ring
  have e2 : (z : ℚ) - 5 / 10 = (z : ℚ) - 1 / 2 := by ring
  split_ifs
  · simp only [pine_entities, getElem?_length_append, e1, e2]
  · simp only [tree_entities, getElem?_length_append, e1, e2]
  · exact List.getElem?_eq_none (le_refl _)

/-- C7 amended, in the first iteration of the loop of `init_level` (cell `(0, 0)`) when
every draw is `RAND_MAX`. -/
theorem cell_offsets_witness :
    (init_level_cell all_pines 0 0
        (init_level_ground all_pines (init_prefabs all_pines World.empty))).entities[
        (init_level_ground all_pines (init_prefabs all_pines World.empty)).entities.length]? =
      if draw all_pines
          (init_level_ground all_pines (init_prefabs all_pines World.empty)).rand_calls
            > 6 / 10 then
        some { Entity.empty with
          instanceof := [if draw all_pines
              ((init_level_ground all_pines (init_prefabs all_pines World.empty)).rand_calls + 1)
                > 5 / 10 then
              (init_level_ground all_pines (init_prefabs all_pines World.empty)).game.pine_prefab
            else
              (init_level_ground all_pines (init_prefabs all_pines World.empty)).game.tree_prefab],
          position := some ⟨((0 : ℕ) : ℚ) - 11 / 2, 0, ((0 : ℕ) : ℚ) - 1 / 2⟩ }
      else none :=
  cell_offsets all_pines 0 0 _
    (by rw [init_prefabs_eq, init_level_ground_eq]; exact ground_ready 0)

/-! ## Which parts the canopy rule selects -/

theorem selects_false_of_parent (sys : System) (w : World) (id pid : ℕ) (e pe : Entity)
    (he : w.entities[id]? = some e) (hc : e.childof = [pid])
    (hp : w.entities[pid]? = some pe) (hr : sys.parent_instanceof ∉ pe.instanceof) :
    sys.selects w id = false := by
  simp only [System.selects, he, hc, List.any_cons, List.any_nil, hp, Bool.or_false,
    decide_eq_false hr, Bool.and_false]

theorem selects_true_of (sys : System) (w : World) (id pid b : ℕ) (e pe be : Entity)
    (p : Position) (bx : Box)
    (he : w.entities[id]? = some e) (hc : e.childof = [pid])
    (hp : w.entities[pid]? = some pe) (hr : sys.parent_instanceof ∈ pe.instanceof)
    (hi : e.instanceof = [b]) (hb : w.entities[b]? = some be) (hbc : be.canopy = true)
    (hpos : e.position = some p) (hbox : e.box = some bx) :
    sys.selects w id = true := by
  have hgp := get_of_own w Entity.position id e p he hpos
  have hgx := get_of_own w Entity.box id e bx he hbox
  have hgc := get_of_own w Entity.canopy_tag b be () hb (by simp [Entity.canopy_tag, hbc])
  simp only [System.selects, he, hc, hi, List.any_cons, List.any_nil, hp, Bool.or_false,
    hgp, hgx, hgc, Option.isSome_some, Bool.and_self, decide_eq_true hr]

/-- An attribute found two template links up. -/
theorem get_of_grandparent {α : Type} (w : World) (kind : Entity → Option α)
    (id b1 b2 : ℕ) (e e1 e2 : Entity) (a : α) (hlen : 3 ≤ w.entities.length)
    (he : w.entities[id]? = some e) (hk : kind e = none) (hi : e.instanceof = [b1])
    (he1 : w.entities[b1]? = some e1) (hk1 : kind e1 = none) (hi1 : e1.instanceof = [b2])
    (he2 : w.entities[b2]? = some e2) (hk2 : kind e2 = some a) :
    w.get kind id = some a := by
  obtain ⟨k, hk'⟩ : ∃ k, w.entities.length = k + 1 + 1 + 1 := ⟨w.entities.length - 3, by omega⟩
  simp only [World.get, hk', get_attribute, he, hk, hi, List.findSome?_cons, List.findSome?_nil,
    he1, hk1, hi1, he2, hk2]

theorem lookup_mid {α : Type} (es mid more : List α) (k : ℕ) (hk : k < mid.length) :
    (es ++ mid ++ more)[es.length + k]? = mid[k]? := by
  rw [List.append_assoc, List.getElem?_append_right (Nat.le_add_right _ _),
    Nat.add_sub_cancel_left, List.getElem?_append_left hk]

theorem lookup_pre {α : Type} (es mid more : List α) (i : ℕ) (a : α) (h : es[i]? = some a) :
    (es ++ mid ++ more)[i]? = some a := by
  rw [List.append_assoc]
  exact getElem?_append_of_some _ _ _ _ h

/-- A canopy part of a pine instance: part number `k` of the instance whose root has
identifier `es.length`. -/
theorem pine_part (es more : List Entity) (rules : List System) (n : ℕ) (p : Position)
    (h2 : es[2]? = prototype_graph[2]?) (h3 : es[3]? = prototype_graph[3]?)
    (k : ℕ) (part : Entity) (bx : Box) (q : Position)
    (hpart : (pine_entities es.length p)[k]? = some part)
    (hc : part.childof = [es.length]) (hi : part.instanceof = [3])
    (hcan : part.canopy = false) (hbox : part.box = some bx) (hpos : part.position = some q) :
    World.get ⟨es ++ pine_entities es.length p ++ more, ⟨4, 7⟩, rules, n⟩
        Entity.canopy_tag (es.length + k) = some () ∧
    canopy_rule.selects ⟨es ++ pine_entities es.length p ++ more, ⟨4, 7⟩, rules, n⟩
        (es.length + k) = false ∧
    World.get ⟨es ++ pine_entities es.length p ++ more, ⟨4, 7⟩, rules, n⟩
        Entity.box (es.length + k) = some bx ∧
    World.get ⟨es ++ pine_entities es.length p ++ more, ⟨4, 7⟩, rules, n⟩
        Entity.position (es.length + k) = some q := by
  have hroot : (es ++ pine_entities es.length p ++ more)[es.length]?
      = some { Entity.empty with instanceof := [7], position := some p } := by
    have := lookup_mid es (pine_entities es.length p) more 0 (by simp [pine_entities])
    simpa [pine_entities] using this
  have hklt : k < (pine_entities es.length p).length := by
    by_contra hc'
    rw [List.getElem?_eq_none (not_lt.mp hc')] at hpart
    exact Option.noConfusion hpart
  have hl : 3 ≤ (es ++ pine_entities es.length p ++ more).length := by
    have : (pine_entities es.length p).length = 5 := rfl
    simp only [List.length_append]; omega
  have e2 := lookup_pre es (pine_entities es.length p) more 2 _ h2
  have e3 := lookup_pre es (pine_entities es.length p) more 3 _ h3
  have hnr : canopy_rule.parent_instanceof
      ∉ ({ Entity.empty with instanceof := [7], position := some p } : Entity).instanceof := by
    simp [canopy_rule]
  have hk := lookup_mid es (pine_entities es.length p) more k hklt
  rw [hpart] at hk
  exact ⟨get_of_grandparent _ _ _ 3 2 _ _ _ () hl hk (by simp [Entity.canopy_tag, hcan]) hi
      e3 rfl rfl e2 rfl,
    selects_false_of_parent _ _ _ es.length _ _ hk hc hroot hnr,
    get_of_own _ Entity.box _ _ _ hk hbox, get_of_own _ Entity.position _ _ _ hk hpos⟩

/-- The three canopy parts of a pine instance in any store: they carry the tag through
`PPineCanopy` and `PCanopy`, the canopy rule does not select them, and their `Box` and
`Position` are the ones of the parts of `PPine` (heights `0.4`). -/
theorem pine_parts (es more : List Entity) (rules : List System) (n : ℕ) (p : Position)
    (h2 : es[2]? = prototype_graph[2]?) (h3 : es[3]? = prototype_graph[3]?)
    (k : ℕ) (hk : k = 2 ∨ k = 3 ∨ k = 4) :
    World.get ⟨es ++ pine_entities es.length p ++ more, ⟨4, 7⟩, rules, n⟩
        Entity.canopy_tag (es.length + k) = some () ∧
    canopy_rule.selects ⟨es ++ pine_entities es.length p ++ more, ⟨4, 7⟩, rules, n⟩
        (es.length + k) = false ∧
    (World.get ⟨es ++ pine_entities es.length p ++ more, ⟨4, 7⟩, rules, n⟩
        Entity.box (es.length + k)).map Box.height = some (4 / 10) ∧
    World.get ⟨es ++ pine_entities es.length p ++ more, ⟨4, 7⟩, rules, n⟩
        Entity.box (es.length + k) = (prototype_graph[7 + k]?).bind Entity.box ∧
    World.get ⟨es ++ pine_entities es.length p ++ more, ⟨4, 7⟩, rules, n⟩
        Entity.position (es.length + k) = (prototype_graph[7 + k]?).bind Entity.position := by
  rcases hk with rfl | rfl | rfl
  · obtain ⟨a, b, c, d⟩ := pine_part es more rules n p h2 h3 2 _ _ _ rfl rfl rfl rfl rfl rfl
    refine ⟨a, b, ?_, ?_, ?_⟩
    · rw [c]; rfl
    · rw [c]; rfl
    · rw [d]; rfl
  · obtain ⟨a, b, c, d⟩ := pine_part es more rules n p h2 h3 3 _ _ _ rfl rfl rfl rfl rfl rfl
    refine ⟨a, b, ?_, ?_, ?_⟩
    · rw [c]; rfl
    · rw [c]; rfl
    · rw [d]; rfl
  · obtain ⟨a, b, c, d⟩ := pine_part es more rules n p h2 h3 4 _ _ _ rfl rfl rfl rfl rfl rfl
    refine ⟨a, b, ?_, ?_, ?_⟩
    · rw [c]; rfl
    · rw [c]; rfl
    · rw [d]; rfl

theorem forest_split (c : Libc) (k : ℕ) :
    ∃ more, forest c (k + 1) = cell_entities c 0 14 ++ more := by
  induction k with
  | zero => exact ⟨[], by simp [forest]⟩
  | succ k ih =>
    obtain ⟨more, h⟩ := ih
    exact ⟨more ++ cell_entities c (k + 1) (14 + (forest c (k + 1)).length), by
      rw [forest_succ, h, List.append_assoc]⟩

/-- The scene when cell `(0, 0)` spawns a pine: the instance has the identifiers 14
to 18. -/
theorem scene_first_pine (c : Libc) (h0 : spawns c 0) (h1 : picks_pine c 0) :
    ∃ more, scene c = ⟨(prototype_graph ++ ground_entities)
        ++ pine_entities (prototype_graph ++ ground_entities).length (cell_position 0) ++ more,
        ⟨4, 7⟩, [canopy_rule], draw_index c 144⟩ := by
  obtain ⟨more, h⟩ := forest_split c 143
  refine ⟨more, ?_⟩
  rw [scene_eq, h, cell_entities, if_pos h0, if_pos h1, ← List.append_assoc]
  rfl

theorem ready_two_three (w : World) (hw : w.Ready) :
    w.entities[2]? = prototype_graph[2]? ∧ w.entities[3]? = prototype_graph[3]? :=
  ⟨ready_lookup w hw 2 (by norm_num), ready_lookup w hw 3 (by norm_num)⟩

/-- C10, refuted as stated: in the scene in which every draw is `RAND_MAX`, object 14
is a pine instance and its canopy parts 16, 17 and 18 carry the `Canopy` tag through
their template chain, yet no registered rule selects them and their `Box.height` is the
prototype's `0.4`, below `0.8`. -/
theorem pine_canopies_not_selected :
    (scene all_pines).entities[14]?.map Entity.instanceof
      = some [(scene all_pines).game.pine_prefab] ∧
    ((scene all_pines).entities[16]?.map Entity.childof = some [14] ∧
      (scene all_pines).get Entity.canopy_tag 16 = some () ∧
      (∀ sys ∈ (scene all_pines).systems, sys.selects (scene all_pines) 16 = false) ∧
      ((scene all_pines).get Entity.box 16).map Box.height = some (4 / 10)) ∧
    ((scene all_pines).entities[17]?.map Entity.childof = some [14] ∧
      (scene all_pines).get Entity.canopy_tag 17 = some () ∧
      (∀ sys ∈ (scene all_pines).systems, sys.selects (scene all_pines) 17 = false) ∧
      ((scene all_pines).get Entity.box 17).map Box.height = some (4 / 10)) ∧
    ((scene all_pines).entities[18]?.map Entity.childof = some [14] ∧
      (scene all_pines).get Entity.canopy_tag 18 = some () ∧
      (∀ sys ∈ (scene all_pines).systems, sys.selects (scene all_pines) 18 = false) ∧
      ((scene all_pines).get Entity.box 18).map Box.height = some (4 / 10)) ∧
    ¬ ((8 : ℚ) / 10 ≤ 4 / 10) := by
  obtain ⟨more, h⟩ := scene_first_pine all_pines all_pines_spawn.1 all_pines_spawn.2
  have h2 : (prototype_graph ++ ground_entities)[2]? = prototype_graph[2]? := rfl
  have h3 : (prototype_graph ++ ground_entities)[3]? = prototype_graph[3]? := rfl
  have hp := pine_parts (prototype_graph ++ ground_entities) more [canopy_rule]
    (draw_index all_pines 144) (cell_position 0) h2 h3
  have hl : ∀ k, k < 5 → (scene all_pines).entities[14 + k]?
      = (pine_entities 14 (cell_position 0))[k]? := by
    intro k hk
    rw [h]
    exact lookup_mid (prototype_graph ++ ground_entities) _ more k hk
  rw [h] at hl
  rw [h]
  refine ⟨?_, ⟨?_, (hp 2 (Or.inl rfl)).1, ?_, (hp 2 (Or.inl rfl)).2.2.1⟩,
    ⟨?_, (hp 3 (Or.inr (Or.inl rfl))).1, ?_, (hp 3 (Or.inr (Or.inl rfl))).2.2.1⟩,
    ⟨?_, (hp 4 (Or.inr (Or.inr rfl))).1, ?_, (hp 4 (Or.inr (Or.inr rfl))).2.2.1⟩, by norm_num⟩
  · rw [hl 0 (by norm_num)]; rfl
  · rw [hl 2 (by norm_num)]; rfl
  · intro sys hsys
    rw [List.mem_singleton.mp hsys]
    exact (hp 2 (Or.inl rfl)).2.1
  · rw [hl 3 (by norm_num)]; rfl
  · intro sys hsys
    rw [List.mem_singleton.mp hsys]
    exact (hp 3 (Or.inr (Or.inl rfl))).2.1
  · rw [hl 4 (by norm_num)]; rfl
  · intro sys hsys
    rw [List.mem_singleton.mp hsys]
    exact (hp 4 (Or.inr (Or.inr rfl))).2.1

/-- C10, amended: in a store holding the prototype graph, an instance of `PPine`
consists of the root and copies of the four parts of `PPine`, and creating it makes no
draw.  Each of its three canopy parts (the parts number 2, 3, 4 of the instance) carries
the `Canopy` tag through its template chain, but its composition parent is an instance
of `PPine` and not of the rule's root `PTree`, so that no registered rule selects it:
it keeps the `Box` and `Position` of the prototype's part, with `Box.height = 0.4`.
The rule does select the canopy part of an instance of `PTree`. -/
theorem pine_canopies_keep_prototype_values (c : Libc) (w : World) (p : Position)
    (hw : w.Ready) :
    (w.spawn c w.game.pine_prefab p).entities
      = w.entities ++ pine_entities w.entities.length p ∧
    (w.spawn c w.game.pine_prefab p).rand_calls = w.rand_calls ∧
    (∀ k, k = 2 ∨ k = 3 ∨ k = 4 →
      (w.spawn c w.game.pine_prefab p).get Entity.canopy_tag (w.entities.length + k)
        = some () ∧
      (∀ sys ∈ (w.spawn c w.game.pine_prefab p).systems,
        sys.selects (w.spawn c w.game.pine_prefab p) (w.entities.length + k) = false) ∧
      ((w.spawn c w.game.pine_prefab p).get Entity.box (w.entities.length + k)).map Box.height
        = some (4 / 10) ∧
      (w.spawn c w.game.pine_prefab p).get Entity.box (w.entities.length + k)
        = w.get Entity.box (7 + k) ∧
      (w.spawn c w.game.pine_prefab p).get Entity.position (w.entities.length + k)
        = w.get Entity.position (7 + k)) ∧
    (∀ sys ∈ (w.spawn c w.game.tree_prefab p).systems,
      sys.selects (w.spawn c w.game.tree_prefab p) (w.entities.length + 2) = true) := by
  have h7 := ready_filter _ hw 7 (Or.inr rfl)
  have h4 := ready_filter _ hw 4 (Or.inl rfl)
  have h1 := ready_lookup _ hw 1 (by norm_num)
  obtain ⟨h2, h3⟩ := ready_two_three w hw
  have hproto : ∀ k, k = 2 ∨ k = 3 ∨ k = 4 →
      w.get Entity.box (7 + k) = (prototype_graph[7 + k]?).bind Entity.box ∧
      w.get Entity.position (7 + k) = (prototype_graph[7 + k]?).bind Entity.position := by
    intro k hk
    have hlk := ready_lookup w hw (7 + k) (by omega)
    rcases hk with rfl | rfl | rfl
    · exact ⟨get_of_own w Entity.box _ _ _ hlk rfl, get_of_own w Entity.position _ _ _ hlk rfl⟩
    · exact ⟨get_of_own w Entity.box _ _ _ hlk rfl, get_of_own w Entity.position _ _ _ hlk rfl⟩
    · exact ⟨get_of_own w Entity.box _ _ _ hlk rfl, get_of_own w Entity.position _ _ _ hlk rfl⟩
  obtain ⟨es, g, ss, n⟩ := w
  obtain ⟨hg, hs⟩ : g = ⟨4, 7⟩ ∧ ss = [canopy_rule] := hw.2
  subst hg hs
  simp only at h7 h4 h1 h2 h3 hproto ⊢
  rw [spawn_pine c es n p h7, spawn_tree c es n p h4 h1 h2]
  refine ⟨rfl, rfl, ?_, ?_⟩
  · intro k hk
    have hp := pine_parts es [] [canopy_rule] n p h2 h3 k hk
    rw [List.append_nil] at hp
    refine ⟨hp.1, ?_, hp.2.2.1, ?_, ?_⟩
    · intro sys hsys
      rw [List.mem_singleton.mp hsys]
      exact hp.2.1
    · rw [hp.2.2.2.1, (hproto k hk).1]
    · rw [hp.2.2.2.2, (hproto k hk).2]
  · intro sys hsys
    rw [List.mem_singleton.mp hsys]
    have hroot : (es ++ tree_entities es.length p ((randf c n 1).1 + 8 / 10))[es.length]?
        = some { Entity.empty with instanceof := [4], position := some p } :=
      getElem?_length_append _ _ _
    have hpart := lookup_mid es (tree_entities es.length p ((randf c n 1).1 + 8 / 10)) [] 2
      (by simp [tree_entities])
    rw [List.append_nil] at hpart
    simp only [tree_entities, List.getElem?_cons_succ, List.getElem?_cons_zero] at hpart
    exact selects_true_of canopy_rule _ _ es.length 2 _ _ _ _ _ hpart rfl hroot
      (by simp [canopy_rule]) rfl (getElem?_append_of_some _ _ _ _ h2) rfl rfl rfl

/-- C10 amended, for the pine that the first iteration of the loop of `init_level`
spawns when every draw is `RAND_MAX`: its first canopy part keeps the height `0.4`. -/
theorem pine_canopies_keep_prototype_values_witness :
    ((World.spawn all_pines (init_level_ground all_pines (init_prefabs all_pines World.empty))
        (init_level_ground all_pines (init_prefabs all_pines World.empty)).game.pine_prefab
        (cell_position 0)).get Entity.box
      ((init_level_ground all_pines (init_prefabs all_pines World.empty)).entities.length
        + 2)).map Box.height = some (4 / 10) :=
  ((pine_canopies_keep_prototype_values all_pines
      (init_level_ground all_pines (init_prefabs all_pines World.empty)) (cell_position 0)
      (by rw [init_prefabs_eq, init_level_ground_eq]; exact ground_ready 0)).2.2.1
    2 (Or.inl rfl)).2.2.1

/-! ## The integrator step in closed form -/

theorem accelerate_eq (key_minus key_plus : Bool) (dt v : ℚ) :
    accelerate key_minus key_plus dt v = v + 2 / 10 * dt * (held key_plus - held key_minus) := by
  cases key_minus <;> cases key_plus <;> simp [accelerate, held, CameraAcceleration]
  ring

theorem max_speed_of_eq (key_shift : Bool) :
    max_speed_of key_shift = if key_shift then 5 / 100 / 8 else 5 / 100 := by
  cases key_shift <;> simp [max_speed_of, CameraMaxSpeed]

/-- In exact arithmetic: one `MoveCamera` step computes
`v' = decelerate_camera (v + 0.2 * delta_time * ([A] - [D])) delta_time m` and
`v_h' = decelerate_camera (v_h + 0.2 * delta_time * ([W] - [S])) delta_time m` with
`m = 0.05`, or `0.05 / 8` when the modifier is held, and then `r' = r + v'`,
`h' = h + 2 * v_h'`, `d' = d - v_h'`.  Hence a second step that agrees on `delta_time`,
the modifier, the height keys and `v_h`, `h`, `d` gives the same `v_h'`, `h'`, `d'`,
whatever its orbit keys and `v`; one that agrees on `delta_time`, the modifier, the
orbit keys and `v`, `r` gives the same `v'`, `r'`; and with both keys of a pair in the
same state (both held or both unheld) the pair adds nothing. -/
theorem step_closed_form_exact (m m2 : Trig) (it it2 : Frame) (s s2 : Rig) :
    ((MoveCamera m it s).ctrl.v
        = decelerate_camera
            (s.ctrl.v + 2 / 10 * it.delta_time * (held it.keys.key_a - held it.keys.key_d))
            it.delta_time (if it.keys.key_shift then 5 / 100 / 8 else 5 / 100) ∧
      (MoveCamera m it s).ctrl.v_h
        = decelerate_camera
            (s.ctrl.v_h + 2 / 10 * it.delta_time * (held it.keys.key_w - held it.keys.key_s))
            it.delta_time (if it.keys.key_shift then 5 / 100 / 8 else 5 / 100) ∧
      (MoveCamera m it s).ctrl.r = s.ctrl.r + (MoveCamera m it s).ctrl.v ∧
      (MoveCamera m it s).ctrl.h = s.ctrl.h + 2 * (MoveCamera m it s).ctrl.v_h ∧
      (MoveCamera m it s).ctrl.d = s.ctrl.d - (MoveCamera m it s).ctrl.v_h) ∧
    (it2.delta_time = it.delta_time → it2.keys.key_shift = it.keys.key_shift →
      it2.keys.key_s = it.keys.key_s → it2.keys.key_w = it.keys.key_w →
      s2.ctrl.v_h = s.ctrl.v_h → s2.ctrl.h = s.ctrl.h → s2.ctrl.d = s.ctrl.d →
      (MoveCamera m2 it2 s2).ctrl.v_h = (MoveCamera m it s).ctrl.v_h ∧
      (MoveCamera m2 it2 s2).ctrl.h = (MoveCamera m it s).ctrl.h ∧
      (MoveCamera m2 it2 s2).ctrl.d = (MoveCamera m it s).ctrl.d) ∧
    (it2.delta_time = it.delta_time → it2.keys.key_shift = it.keys.key_shift →
      it2.keys.key_d = it.keys.key_d → it2.keys.key_a = it.keys.key_a →
      s2.ctrl.v = s.ctrl.v → s2.ctrl.r = s.ctrl.r →
      (MoveCamera m2 it2 s2).ctrl.v = (MoveCamera m it s).ctrl.v ∧
      (MoveCamera m2 it2 s2).ctrl.r = (MoveCamera m it s).ctrl.r) ∧
    (it.keys.key_a = it.keys.key_d →
      (MoveCamera m it s).ctrl.v
        = decelerate_camera s.ctrl.v it.delta_time
            (if it.keys.key_shift then 5 / 100 / 8 else 5 / 100)) ∧
    (it.keys.key_w = it.keys.key_s →
      (MoveCamera m it s).ctrl.v_h
        = decelerate_camera s.ctrl.v_h it.delta_time
            (if it.keys.key_shift then 5 / 100 / 8 else 5 / 100)) := by
  have hv : ∀ (m : Trig) (it : Frame) (s : Rig), (MoveCamera m it s).ctrl.v
      = decelerate_camera
          (s.ctrl.v + 2 / 10 * it.delta_time * (held it.keys.key_a - held it.keys.key_d))
          it.delta_time (if it.keys.key_shift then 5 / 100 / 8 else 5 / 100) := by
    intro m it s
    simp only [MoveCamera_ctrl, accelerate_eq, max_speed_of_eq]
  have hvh : ∀ (m : Trig) (it : Frame) (s : Rig), (MoveCamera m it s).ctrl.v_h
      = decelerate_camera
          (s.ctrl.v_h + 2 / 10 * it.delta_time * (held it.keys.key_w - held it.keys.key_s))
          it.delta_time (if it.keys.key_shift then 5 / 100 / 8 else 5 / 100) := by
    intro m it s
    simp only [MoveCamera_ctrl, accelerate_eq, max_speed_of_eq]
  have hp := step_position m it s
  have hp2 := step_position m2 it2 s2
  refine ⟨⟨hv m it s, hvh m it s, hp.1, ?_, hp.2.2⟩, ?_, ?_, ?_, ?_⟩
  · rw [hp.2.1]; ring
  · intro h1 h2 h3 h4 h5 h6 h7
    have e : (MoveCamera m2 it2 s2).ctrl.v_h = (MoveCamera m it s).ctrl.v_h := by
      rw [hvh m2 it2 s2, hvh m it s, h1, h2, h3, h4, h5]
    exact ⟨e, by rw [hp2.2.1, hp.2.1, e, h6], by rw [hp2.2.2, hp.2.2, e, h7]⟩
  · intro h1 h2 h3 h4 h5 h6
    have e : (MoveCamera m2 it2 s2).ctrl.v = (MoveCamera m it s).ctrl.v := by
      rw [hv m2 it2 s2, hv m it s, h1, h2, h3, h4, h5]
    exact ⟨e, by rw [hp2.1, hp.1, e, h6]⟩
  · intro h
    rw [hv m it s, h]
    simp
  · intro h
    rw [hvh m it s, h]
    simp

/-! ## Height and distance -/

theorem step_height_distance (m : Trig) (it : Frame) (s : Rig) :
    (MoveCamera m it s).ctrl.h + 2 * (MoveCamera m it s).ctrl.d
      = s.ctrl.h + 2 * s.ctrl.d := by
  obtain ⟨-, ph, pd⟩ := step_position m it s
  rw [ph, pd]
  ring

/-- C15: every `MoveCamera` step preserves `h + 2 * d`, whatever the prior state,
`delta_time` and held keys; so does every run of frames, and from a controller with the
default `h = 6` and `d = 8` the quantity is `22` after every number of frames. -/
theorem height_distance_invariant (m : Trig) (frames : ℕ → Frame) (s : Rig) :
    (∀ it : Frame, (MoveCamera m it s).ctrl.h + 2 * (MoveCamera m it s).ctrl.d
        = s.ctrl.h + 2 * s.ctrl.d) ∧
    (∀ n, (run_frames m frames n s).ctrl.h + 2 * (run_frames m frames n s).ctrl.d
        = s.ctrl.h + 2 * s.ctrl.d) ∧
    (s.ctrl.h = 6 → s.ctrl.d = 8 →
      ∀ n, (run_frames m frames n s).ctrl.h + 2 * (run_frames m frames n s).ctrl.d = 22) := by
  have hrun : ∀ n, (run_frames m frames n s).ctrl.h + 2 * (run_frames m frames n s).ctrl.d
      = s.ctrl.h + 2 * s.ctrl.d := by
    intro n
    induction n with
    | zero => rfl
    | succ k ih =>
      simp only [run_frames]
      rw [step_height_distance, ih]
  refine ⟨fun it => step_height_distance m it s, hrun, fun hh hd n => ?_⟩
  rw [hrun n, hh, hd]
  norm_num

/-- C15, from the default controller: after three frames with W and the modifier held
and `delta_time = 1/60`, `h + 2 * d` is `22`. -/
theorem height_distance_invariant_witness :
    (run_frames ⟨fun _ => 0, fun _ => 0⟩
        (fun _ => ⟨1 / 60, 0, ⟨false, false, false, true, true, false, false⟩⟩) 3
        ⟨CameraController.default, ⟨0, 0, 0, 0, 0, 0⟩, 1⟩).ctrl.h
      + 2 * (run_frames ⟨fun _ => 0, fun _ => 0⟩
        (fun _ => ⟨1 / 60, 0, ⟨false, false, false, true, true, false, false⟩⟩) 3
        ⟨CameraController.default, ⟨0, 0, 0, 0, 0, 0⟩, 1⟩).ctrl.d = 22 :=
  (height_distance_invariant ⟨fun _ => 0, fun _ => 0⟩
    (fun _ => ⟨1 / 60, 0, ⟨false, false, false, true, true, false, false⟩⟩)
    ⟨CameraController.default, ⟨0, 0, 0, 0, 0, 0⟩, 1⟩).2.2
    (by norm_num [CameraController.default, CameraHeight])
    (by norm_num [CameraController.default, CameraDistance]) 3

/-! ## Shape of the prototype graph -/

/-- In the prototype graph every template link points to an older object. -/
theorem prototype_templates_older (a b : ℕ) (e : Entity)
    (he : prototype_graph[a]? = some e) (hb : b ∈ e.instanceof) : b < a := by
  by_cases ha : a < 12
  · interval_cases a <;>
      simp only [prototype_graph, Entity.empty, List.getElem?_cons_succ, List.getElem?_cons_zero,
        Option.some.injEq] at he <;>
      subst he <;> simp at hb <;> omega
  · rw [List.getElem?_eq_none (by simpa [prototype_graph] using ha)] at he
    exact Option.noConfusion he

theorem prototype_acyclic (g : Game) (ss : List System) (n : ℕ) (a b : ℕ)
    (h : Relation.TransGen (World.templates ⟨prototype_graph, g, ss, n⟩) a b) : b < a := by
  induction h with
  | single h1 =>
    obtain ⟨e, he, hb⟩ := h1
    exact prototype_templates_older _ _ e he hb
  | tail _ h2 ih =>
    obtain ⟨e, he, hb⟩ := h2
    exact lt_trans (prototype_templates_older _ _ e he hb) ih

/-- C11: in the graph that `init_prefabs` builds (objects 1 to 11: `PTrunk`, `PCanopy`,
`PPineCanopy`, `PTree` and its two parts, `PPine` and its four parts) every object has
at most one template link and at most one composition link; the only template links are
`PPineCanopy -> PCanopy`, trunk parts `-> PTrunk`, the tree's canopy part `-> PCanopy`
and the pine's canopy parts `-> PPineCanopy`, and no object reaches itself through
template links; the parts of `PTree` are exactly a trunk part and one canopy part, the
parts of `PPine` exactly a trunk part and three pine-canopy parts, no other object has
parts, and neither root has a composition link. -/
theorem prototype_graph_shape (c : Libc) :
    (init_prefabs c World.empty).entities.map Entity.name
      = [none, some "PTrunk", some "PCanopy", some "PPineCanopy", some "PTree", none, none,
          some "PPine", none, none, none, none] ∧
    (init_prefabs c World.empty).game = ⟨4, 7⟩ ∧
    (∀ e ∈ (init_prefabs c World.empty).entities,
      e.instanceof.length ≤ 1 ∧ e.childof.length ≤ 1) ∧
    (init_prefabs c World.empty).entities.map Entity.instanceof
      = [[], [], [], [2], [], [1], [2], [], [1], [3], [3], [3]] ∧
    (∀ a, ¬ Relation.TransGen (init_prefabs c World.empty).templates a a) ∧
    (init_prefabs c World.empty).entities.map Entity.childof
      = [[], [], [], [], [], [4], [4], [], [7], [7], [7], [7]] ∧
    (init_prefabs c World.empty).parts (init_prefabs c World.empty).game.tree_prefab = [5, 6] ∧
    (init_prefabs c World.empty).parts (init_prefabs c World.empty).game.pine_prefab
      = [8, 9, 10, 11] ∧
    (∀ id, id ≠ 4 → id ≠ 7 → (init_prefabs c World.empty).parts id = []) := by
  rw [init_prefabs_eq]
  refine ⟨by simp [prototype_graph, Entity.empty], rfl, ?_, by simp [prototype_graph, Entity.empty],
    fun a h => lt_irrefl a (prototype_acyclic _ _ _ a a h),
    by simp [prototype_graph, Entity.empty], by decide, by decide, ?_⟩
  · intro e he
    simp only [prototype_graph, List.mem_cons, List.mem_singleton, List.not_mem_nil,
      or_false] at he
    rcases he with rfl | rfl | rfl | rfl | rfl | rfl | rfl | rfl | rfl | rfl | rfl | rfl <;>
      simp [Entity.empty]
  · intro id h4 h7
    simp only [World.parts, List.filter_eq_nil_iff, List.mem_range]
    intro i hi
    have hi' : i < 12 := by simpa [prototype_graph] using hi
    interval_cases i <;> simp [prototype_graph, Entity.empty] <;> omega

/-- C11, at concrete objects: `PPineCanopy` (object 3) has one template link and no
composition link and does not reach itself through template links; object 5, which is
neither root, has no parts. -/
theorem prototype_graph_shape_witness :
    (({ Entity.empty with
          name := some "PPineCanopy", is_prefab := true, instanceof := [2],
          color := some ⟨2 / 10, 3 / 10, 15 / 100⟩ } : Entity).instanceof.length ≤ 1 ∧
      ({ Entity.empty with
          name := some "PPineCanopy", is_prefab := true, instanceof := [2],
          color := some ⟨2 / 10, 3 / 10, 15 / 100⟩ } : Entity).childof.length ≤ 1) ∧
    ¬ Relation.TransGen (init_prefabs all_pines World.empty).templates 3 3 ∧
    (init_prefabs all_pines World.empty).parts 5 = [] :=
  ⟨(prototype_graph_shape all_pines).2.2.1 _
      (by rw [init_prefabs_eq]; simp [prototype_graph, Entity.empty]),
    (prototype_graph_shape all_pines).2.2.2.2.1 3,
    (prototype_graph_shape all_pines).2.2.2.2.2.2.2.2 5 (by decide) (by decide)⟩

/-! ## Template resolution on the prototype graph -/

/-- C14: on the graph that `init_prefabs` builds, the parts of `PTree` (objects 5, 6)
and of `PPine` (objects 8 to 11) all resolve `Position`, `Box` and `Color` to a present
value.  The trunk parts 5 and 8 resolve all three to the values of `PTrunk`; the tree's
canopy part resolves its own `Position` and `Box` and the colour of `PCanopy`; each pine
canopy part resolves its own `Position` and `Box`, the colour `(0.2, 0.3, 0.15)` of
`PPineCanopy` (its nearest template) and not the `(0.35, 0.25, 0.0)` of `PCanopy`, and
the `Canopy` tag, which neither the part nor `PPineCanopy` carries itself, from
`PCanopy` two links up. -/
theorem prototype_resolution (c : Libc) :
    ((init_prefabs c World.empty).parts 4 ++ (init_prefabs c World.empty).parts 7).map
        (fun id => ((init_prefabs c World.empty).get Entity.position id,
          (init_prefabs c World.empty).get Entity.box id,
          (init_prefabs c World.empty).get Entity.color id))
      = [ (some ⟨0, 25 / 100, 0⟩, some ⟨4 / 10, 5 / 10, 4 / 10⟩,
            some ⟨25 / 100, 2 / 10, 1 / 10⟩),
          (some ⟨0, 9 / 10, 0⟩, some ⟨8 / 10, 8 / 10, 8 / 10⟩, some ⟨35 / 100, 25 / 100, 0⟩),
          (some ⟨0, 25 / 100, 0⟩, some ⟨4 / 10, 5 / 10, 4 / 10⟩,
            some ⟨25 / 100, 2 / 10, 1 / 10⟩),
          (some ⟨0, 6 / 10, 0⟩, some ⟨8 / 10, 4 / 10, 8 / 10⟩,
            some ⟨2 / 10, 3 / 10, 15 / 100⟩),
          (some ⟨0, 1, 0⟩, some ⟨6 / 10, 4 / 10, 6 / 10⟩, some ⟨2 / 10, 3 / 10, 15 / 100⟩),
          (some ⟨0, 14 / 10, 0⟩, some ⟨4 / 10, 4 / 10, 4 / 10⟩,
            some ⟨2 / 10, 3 / 10, 15 / 100⟩) ] ∧
    (([5, 8] : List ℕ).map (fun id => ((init_prefabs c World.empty).get Entity.position id,
          (init_prefabs c World.empty).get Entity.box id,
          (init_prefabs c World.empty).get Entity.color id))
      = [ ((init_prefabs c World.empty).entities[1]?.bind Entity.position,
            (init_prefabs c World.empty).entities[1]?.bind Entity.box,
            (init_prefabs c World.empty).entities[1]?.bind Entity.color),
          ((init_prefabs c World.empty).entities[1]?.bind Entity.position,
            (init_prefabs c World.empty).entities[1]?.bind Entity.box,
            (init_prefabs c World.empty).entities[1]?.bind Entity.color) ]) ∧
    (([6, 9, 10, 11] : List ℕ).map (fun id =>
        ((init_prefabs c World.empty).get Entity.position id,
          (init_prefabs c World.empty).get Entity.box id))
      = ([6, 9, 10, 11] : List ℕ).map (fun id =>
        ((init_prefabs c World.empty).entities[id]?.bind Entity.position,
          (init_prefabs c World.empty).entities[id]?.bind Entity.box))) ∧
    (([9, 10, 11] : List ℕ).map (fun id => (init_prefabs c World.empty).get Entity.color id)
      = [ (init_prefabs c World.empty).entities[3]?.bind Entity.color,
          (init_prefabs c World.empty).entities[3]?.bind Entity.color,
          (init_prefabs c World.empty).entities[3]?.bind Entity.color ]) ∧
    (init_prefabs c World.empty).entities[3]?.bind Entity.color
      = some ⟨2 / 10, 3 / 10, 15 / 100⟩ ∧
    (init_prefabs c World.empty).entities[2]?.bind Entity.color
      = some ⟨35 / 100, 25 / 100, 0⟩ ∧
    (⟨2 / 10, 3 / 10, 15 / 100⟩ : Color) ≠ ⟨35 / 100, 25 / 100, 0⟩ ∧
    (([9, 10, 11] : List ℕ).map (fun id =>
        (init_prefabs c World.empty).get Entity.canopy_tag id)
      = [some (), some (), some ()]) ∧
    (([3, 9, 10, 11] : List ℕ).map (fun id =>
        (init_prefabs c World.empty).entities[id]?.map Entity.canopy)
      = [some false, some false, some false, some false]) ∧
    (init_prefabs c World.empty).entities[2]?.map Entity.canopy = some true := by
  rw [init_prefabs_eq]
  refine ⟨?_, ?_, ?_, ?_, ?_, ?_, ?_, ?_, ?_, ?_⟩
  · have h4 : World.parts ⟨prototype_graph, ⟨4, 7⟩, [canopy_rule], 0⟩ 4 = [5, 6] := by decide
    have h7 : World.parts ⟨prototype_graph, ⟨4, 7⟩, [canopy_rule], 0⟩ 7 = [8, 9, 10, 11] := by
      decide
    rw [h4, h7]
    simp [World.get, get_attribute, prototype_graph, Entity.empty]
  · simp [World.get, get_attribute, prototype_graph, Entity.empty]
  · simp [World.get, get_attribute, prototype_graph, Entity.empty]
  · simp [World.get, get_attribute, prototype_graph, Entity.empty]
  · simp [prototype_graph, Entity.empty]
  · simp [prototype_graph, Entity.empty]
  · intro h
    have := congrArg Color.b h
    norm_num at this
  · simp [World.get, get_attribute, prototype_graph, Entity.empty, Entity.canopy_tag]
  · simp [prototype_graph, Entity.empty]
  · simp [prototype_graph, Entity.empty]

/-! ## The canopy of a generic tree -/

/-- An attribute found one template link up. -/
theorem get_of_parent {α : Type} (w : World) (kind : Entity → Option α)
    (id b1 : ℕ) (e e1 : Entity) (a : α) (hlen : 2 ≤ w.entities.length)
    (he : w.entities[id]? = some e) (hk : kind e = none) (hi : e.instanceof = [b1])
    (he1 : w.entities[b1]? = some e1) (hk1 : kind e1 = some a) :
    w.get kind id = some a := by
  obtain ⟨k, hk'⟩ : ∃ k, w.entities.length = k + 1 + 1 := ⟨w.entities.length - 2, by omega⟩
  simp only [World.get, hk', get_attribute, he, hk, hi, List.findSome?_cons, List.findSome?_nil,
    he1, hk1]

theorem reaction_bottom (c : Libc) (calls : ℕ) (q : Position) (b : Box) :
    (RandomizeCanopy c calls q b).1.1.y - (RandomizeCanopy c calls q b).1.2.height / 2
      = 5 / 10 := by
  simp only [RandomizeCanopy]
  ring

/-- In exact arithmetic, whatever is drawn, the reaction leaves
`Position.y - Box.height / 2 = 0.5`.  In a store holding the prototype graph, an
instance of `PTree` consists of the root, a trunk part and a canopy part; the canopy
part has the drawn height `h = randf(1) + 0.8` and its bottom face
`Position.y - Box.height / 2` is `0.5`; the trunk part resolves the `Position` and
`Box` of `PTrunk` (`y = 0.25`, height `0.5`), whose top face
`Position.y + Box.height / 2` is `0.5` as well. -/
theorem tree_instance_exact (c : Libc) (w : World) (p : Position) (hw : w.Ready) :
    (∀ (calls : ℕ) (q : Position) (b : Box),
      (RandomizeCanopy c calls q b).1.1.y - (RandomizeCanopy c calls q b).1.2.height / 2
        = 5 / 10) ∧
    (w.spawn c w.game.tree_prefab p).entities
      = w.entities ++ tree_entities w.entities.length p (draw c w.rand_calls + 8 / 10) ∧
    (∃ cp cb,
      (w.spawn c w.game.tree_prefab p).get Entity.position (w.entities.length + 2) = some cp ∧
      (w.spawn c w.game.tree_prefab p).get Entity.box (w.entities.length + 2) = some cb ∧
      cb.height = draw c w.rand_calls + 8 / 10 ∧
      cp.y - cb.height / 2 = 5 / 10) ∧
    (∃ tp tb,
      (w.spawn c w.game.tree_prefab p).get Entity.position (w.entities.length + 1) = some tp ∧
      (w.spawn c w.game.tree_prefab p).get Entity.box (w.entities.length + 1) = some tb ∧
      w.get Entity.position 1 = some tp ∧ w.get Entity.box 1 = some tb ∧
      tp.y = 25 / 100 ∧ tb.height = 5 / 10 ∧
      tp.y + tb.height / 2 = 5 / 10) := by
  have h4 := ready_filter _ hw 4 (Or.inl rfl)
  have h1 := ready_lookup _ hw 1 (by norm_num)
  have h2 := ready_lookup _ hw 2 (by norm_num)
  have hp1 := get_of_own w Entity.position 1 _ ⟨0, 25 / 100, 0⟩ h1 rfl
  have hb1 := get_of_own w Entity.box 1 _ ⟨4 / 10, 5 / 10, 4 / 10⟩ h1 rfl
  obtain ⟨es, g, ss, n⟩ := w
  obtain ⟨hg, hs⟩ : g = ⟨4, 7⟩ ∧ ss = [canopy_rule] := hw.2
  subst hg hs
  simp only at h4 h1 h2 hp1 hb1 ⊢
  rw [spawn_tree c es n p h4 h1 h2]
  have hlen : 2 ≤ (es ++ tree_entities es.length p ((randf c n 1).1 + 8 / 10)).length := by
    have : (tree_entities es.length p ((randf c n 1).1 + 8 / 10)).length = 3 := rfl
    simp only [List.length_append]; omega
  have hcan := lookup_mid es (tree_entities es.length p ((randf c n 1).1 + 8 / 10)) [] 2
    (by simp [tree_entities])
  have htrunk := lookup_mid es (tree_entities es.length p ((randf c n 1).1 + 8 / 10)) [] 1
    (by simp [tree_entities])
  rw [List.append_nil] at hcan htrunk
  simp only [tree_entities, List.getElem?_cons_succ, List.getElem?_cons_zero] at hcan htrunk
  refine ⟨reaction_bottom c, rfl, ⟨_, _, get_of_own _ Entity.position _ _ _ hcan rfl,
    get_of_own _ Entity.box _ _ _ hcan rfl, rfl, ?_⟩,
    ⟨⟨0, 25 / 100, 0⟩, ⟨4 / 10, 5 / 10, 4 / 10⟩,
      get_of_parent _ Entity.position _ 1 _ _ _ hlen htrunk rfl rfl
        (getElem?_append_of_some _ _ _ _ h1) rfl,
      get_of_parent _ Entity.box _ 1 _ _ _ hlen htrunk rfl rfl
        (getElem?_append_of_some _ _ _ _ h1) rfl,
      hp1, hb1, rfl, rfl, by norm_num⟩⟩
  show ((randf c n 1).1 + 8 / 10) / 2 + 5 / 10 - ((randf c n 1).1 + 8 / 10) / 2 = 5 / 10
  ring

/-! ## Where the trees stand -/

theorem cell_position_bounds (i : ℕ) (hi : i < 144) :
    (cell_position i).y = 0 ∧
    -(11 / 2) ≤ (cell_position i).x ∧ (cell_position i).x ≤ 11 / 2 ∧
    -(1 / 2) ≤ (cell_position i).z ∧ (cell_position i).z ≤ 21 / 2 := by
  have hx : i / 12 ≤ 11 := by omega
  have hz : i % 12 ≤ 11 := by omega
  have hx' : ((i / 12 : ℕ) : ℚ) ≤ 11 := by exact_mod_cast hx
  have hz' : ((i % 12 : ℕ) : ℚ) ≤ 11 := by exact_mod_cast hz
  have hx0 : (0 : ℚ) ≤ ((i / 12 : ℕ) : ℚ) := Nat.cast_nonneg _
  have hz0 : (0 : ℚ) ≤ ((i % 12 : ℕ) : ℚ) := Nat.cast_nonneg _
  rw [cell_position_eq]
  refine ⟨rfl, ?_, ?_, ?_, ?_⟩ <;> simp only <;> linarith

theorem cell_position_injective (i j : ℕ) (h : cell_position i = cell_position j) : i = j := by
  rw [cell_position_eq, cell_position_eq] at h
  simp only [Position.mk.injEq, sub_left_inj, Nat.cast_inj, true_and] at h
  have h1 := Nat.div_add_mod i 12
  have h2 := Nat.div_add_mod j 12
  omega

theorem cell_position_mirror (i : ℕ) (hi : i < 144) :
    cell_position (143 - i)
      = ⟨0 - (cell_position i).x, 0, 5 + (5 - (cell_position i).z)⟩ := by
  have hx : (143 - i) / 12 = 11 - i / 12 := by omega
  have hz : (143 - i) % 12 = 11 - i % 12 := by omega
  have hx1 : i / 12 ≤ 11 := by omega
  have hz1 : i % 12 ≤ 11 := by omega
  rw [cell_position_eq, cell_position_eq, hx, hz, Nat.cast_sub hx1, Nat.cast_sub hz1]
  simp only [Position.mk.injEq, true_and]
  constructor <;> push_cast <;> ring

theorem scene_instance_cell (c : Libc) (e : Entity) (he : e ∈ (scene c).instances) :
    ∃ i, i < 144 ∧ e.position = some (cell_position i) := by
  rw [scene_instances, List.mem_filterMap] at he
  obtain ⟨i, hi, h⟩ := he
  refine ⟨i, List.mem_range.mp hi, ?_⟩
  split_ifs at h <;>
    (simp only [Option.some.injEq] at h; rw [← h])

theorem scene_grass (c : Libc) :
    (scene c).entities[12]? = some { Entity.empty with
      position := some ⟨0, -(25 / 100), 5⟩, color := some ⟨25 / 100, 4 / 10, 18 / 100⟩,
      box := some ⟨12, 5 / 10, 12⟩ } := by
  rw [scene_eq]
  have h : (prototype_graph ++ ground_entities)[12]? = some { Entity.empty with
      position := some ⟨0, -(25 / 100), 5⟩, color := some ⟨25 / 100, 4 / 10, 18 / 100⟩,
      box := some ⟨12, 5 / 10, 12⟩ } := rfl
  exact getElem?_append_of_some _ _ _ _ h

/-- C16: the grass of the scene is the box `12 x 0.5 x 12` centred at `(0, -0.25, 5)`,
with the horizontal footprint `[-6, 6] x [-1, 11]`.  For every draw sequence, every tree
of the scene has the Position of a grid cell, with `y = 0`, `x` in `[-5.5, 5.5]` and `z`
in `[-0.5, 10.5]`, hence strictly inside that footprint.  Cell `(x, z)` has the Position
`(x - 5.5, 0, z - 0.5)`; different cells have different Positions; and the reflection of
a cell's Position about the grass centre `(0, 5)` is the Position of the cell
`(11 - x, 11 - z)`, whose number is `143 - i`. -/
theorem trees_stand_on_grass (c : Libc) :
    (∃ (g : Entity) (gp : Position) (gb : Box), (scene c).entities[12]? = some g ∧
      g.position = some gp ∧ g.box = some gb ∧ gb.width = 12 ∧ gb.depth = 12 ∧
      gp.x = 0 ∧ gp.z = 5 ∧
      gp.x - gb.width / 2 = -6 ∧ gp.x + gb.width / 2 = 6 ∧
      gp.z - gb.depth / 2 = -1 ∧ gp.z + gb.depth / 2 = 11) ∧
    (∀ e ∈ (scene c).instances, ∃ i p, i < 144 ∧ p = cell_position i ∧
      e.position = some p ∧ p.y = 0 ∧
      -(11 / 2) ≤ p.x ∧ p.x ≤ 11 / 2 ∧ -(1 / 2) ≤ p.z ∧ p.z ≤ 21 / 2 ∧
      -6 < p.x ∧ p.x < 6 ∧ -1 < p.z ∧ p.z < 11) ∧
    (∀ x z : ℕ, x < 12 → z < 12 →
      cell_position (12 * x + z) = ⟨(x : ℚ) - 11 / 2, 0, (z : ℚ) - 1 / 2⟩) ∧
    (∀ i j : ℕ, cell_position i = cell_position j → i = j) ∧
    (∀ i : ℕ, i < 144 →
      cell_position (143 - i)
        = ⟨0 - (cell_position i).x, 0, 5 + (5 - (cell_position i).z)⟩) := by
  refine ⟨⟨_, ⟨0, -(25 / 100), 5⟩, ⟨12, 5 / 10, 12⟩, scene_grass c, rfl, rfl, rfl, rfl, rfl,
    rfl, by norm_num, by norm_num, by norm_num, by norm_num⟩, ?_, ?_,
    cell_position_injective, cell_position_mirror⟩
  · intro e he
    obtain ⟨i, hi, hp⟩ := scene_instance_cell c e he
    obtain ⟨hy, h1, h2, h3, h4⟩ := cell_position_bounds i hi
    exact ⟨i, _, hi, rfl, hp, hy, h1, h2, h3, h4, by linarith, by linarith, by linarith,
      by linarith⟩
  · intro x z hx hz
    have h1 : (12 * x + z) / 12 = x := by omega
    have h2 : (12 * x + z) % 12 = z := by omega
    rw [cell_position_eq, h1, h2]

/-- C16, for the first tree of the scene in which every draw is `RAND_MAX`: the pine at
`(-5.5, 0, -0.5)`. -/
theorem trees_stand_on_grass_witness :
    ∃ i p, i < 144 ∧ p = cell_position i ∧
      ({ Entity.empty with
          instanceof := [7], position := some ⟨-(11 / 2), 0, -(1 / 2)⟩ } : Entity).position
        = some p ∧ p.y = 0 ∧
      -(11 / 2) ≤ p.x ∧ p.x ≤ 11 / 2 ∧ -(1 / 2) ≤ p.z ∧ p.z ≤ 21 / 2 ∧
      -6 < p.x ∧ p.x < 6 ∧ -1 < p.z ∧ p.z < 11 :=
  (trees_stand_on_grass all_pines).2.1 _
    (List.mem_of_mem_head? (scene_head_pine all_pines all_pines_spawn.1 all_pines_spawn.2))

/-! ## Rounding to the nearest integer -/

theorem round_even_bounds (x : ℚ) : ⌊x⌋ ≤ round_even x ∧ round_even x ≤ ⌊x⌋ + 1 := by
  unfold round_even
  split_ifs <;> constructor <;> omega

theorem round_even_intCast (n : ℤ) : round_even (n : ℚ) = n := by
  simp [round_even]

theorem round_even_error (x : ℚ) : |(round_even x : ℚ) - x| ≤ 1 / 2 := by
  have h1 := Int.floor_le x
  have h2 := Int.lt_floor_add_one x
  unfold round_even
  rw [abs_le]
  split_ifs with ha hb hc
  · constructor <;> linarith
  · push_cast; constructor <;> linarith
  · constructor <;> linarith
  · push_cast; constructor <;> linarith

theorem round_even_mono {x y : ℚ} (h : x ≤ y) : round_even x ≤ round_even y := by
  have hf : ⌊x⌋ ≤ ⌊y⌋ := Int.floor_mono h
  rcases lt_or_eq_of_le hf with hlt | heq
  · have := (round_even_bounds x).2
    have := (round_even_bounds y).1
    omega
  · have hxy : x - ⌊x⌋ ≤ y - ⌊y⌋ := by rw [heq]; linarith
    unfold round_even
    rw [heq]
    split_ifs <;> first | omega | (exfalso; linarith)

theorem round_even_of_near (x : ℚ) (m : ℤ) (h1 : (m : ℚ) - 1 / 2 < x) (h2 : x < m + 1 / 2) :
    round_even x = m := by
  have hf : ⌊x⌋ = m ∨ ⌊x⌋ = m - 1 := by
    have a : m - 1 ≤ ⌊x⌋ := Int.le_floor.mpr (by push_cast; linarith)
    have b : ⌊x⌋ < m + 1 := Int.floor_lt.mpr (by push_cast; linarith)
    omega
  have g1 := Int.floor_le x
  have g2 := Int.lt_floor_add_one x
  unfold round_even
  rcases hf with hf | hf
  · rw [hf] at g1 g2 ⊢
    rw [if_pos (by linarith)]
  · rw [hf] at g1 g2 ⊢
    push_cast at g1 g2 ⊢
    rw [if_neg (by linarith), if_pos (by linarith)]
    ring

theorem round_even_tie (m : ℤ) :
    round_even ((m : ℚ) + 1 / 2) = if m % 2 = 0 then m else m + 1 := by
  have hf : ⌊(m : ℚ) + 1 / 2⌋ = m := by
    rw [Int.floor_eq_iff]
    constructor <;> linarith
  unfold round_even
  rw [hf]
  have e : (m : ℚ) + 1 / 2 - m = 1 / 2 := by ring
  rw [e, if_neg (lt_irrefl _), if_neg (lt_irrefl _)]

/-! ## Rounding to a binary format -/

theorem log_two_eq (x : ℚ) (e : ℤ) (h1 : (2 : ℚ) ^ e ≤ x) (h2 : x < 2 ^ (e + 1)) :
    Int.log 2 x = e := by
  have hx : 0 < x := lt_of_lt_of_le (by positivity) h1
  have a : e ≤ Int.log 2 x :=
    (Int.zpow_le_iff_le_log (by norm_num) hx).mp (by simpa using h1)
  have b : Int.log 2 x < e + 1 :=
    (Int.lt_zpow_iff_log_lt (by norm_num) hx).mp (by simpa using h2)
  omega

theorem round_binary_zero (p : ℕ) (emin : ℤ) : round_binary p emin 0 = 0 := by
  simp [round_binary, round_even]

/-- The value of `round_binary` once the binade of `x` is known. -/
theorem round_binary_eq (p : ℕ) (emin : ℤ) (x : ℚ) (e : ℤ)
    (h1 : (2 : ℚ) ^ e ≤ |x|) (h2 : |x| < 2 ^ (e + 1)) (he : emin ≤ e) :
    round_binary p emin x
      = round_even (x / 2 ^ (e - (p - 1))) * 2 ^ (e - (p - 1)) := by
  unfold round_binary
  rw [log_two_eq |x| e h1 h2, max_eq_left he]

theorem round_binary_nonneg (p : ℕ) (emin : ℤ) (x : ℚ) (hx : 0 ≤ x) :
    0 ≤ round_binary p emin x := by
  unfold round_binary
  have hu : (0 : ℚ) < 2 ^ (max (Int.log 2 |x|) emin - ((p : ℤ) - 1)) := by positivity
  have h0 : (0 : ℤ) ≤ round_even (x / 2 ^ (max (Int.log 2 |x|) emin - ((p : ℤ) - 1))) := by
    have := round_even_mono (div_nonneg hx hu.le)
    rwa [show ((0 : ℚ)) = ((0 : ℤ) : ℚ) by norm_num, round_even_intCast] at this
  exact mul_nonneg (by exact_mod_cast h0) hu.le

/-- Rounding does not cross a power of two from below. -/
theorem round_binary_le_two_pow (p : ℕ) (emin : ℤ) (x : ℚ) (k : ℤ) (hp : 1 ≤ p)
    (hx : 0 < x) (hk : x ≤ 2 ^ k) (hek : max (Int.log 2 x) emin ≤ k) :
    round_binary p emin x ≤ 2 ^ k := by
  unfold round_binary
  rw [abs_of_pos hx]
  set e := max (Int.log 2 x) emin with he
  have hu : (0 : ℚ) < 2 ^ (e - ((p : ℤ) - 1)) := by positivity
  obtain ⟨n, hn⟩ : ∃ n : ℕ, (n : ℤ) = k - (e - ((p : ℤ) - 1)) :=
    ⟨(k - (e - ((p : ℤ) - 1))).toNat, Int.toNat_of_nonneg (by omega)⟩
  have hq : (2 : ℚ) ^ k / 2 ^ (e - ((p : ℤ) - 1)) = (((2 : ℤ) ^ n : ℤ) : ℚ) := by
    rw [← zpow_sub₀ (by norm_num : (2 : ℚ) ≠ 0), ← hn]
    push_cast
    rw [zpow_natCast]
  have hr : round_even (x / 2 ^ (e - ((p : ℤ) - 1))) ≤ (2 : ℤ) ^ n := by
    have := round_even_mono (div_le_div_of_nonneg_right hk hu.le)
    rwa [hq, round_even_intCast] at this
  have hr' : (round_even (x / 2 ^ (e - ((p : ℤ) - 1))) : ℚ) ≤ (((2 : ℤ) ^ n : ℤ) : ℚ) := by
    exact_mod_cast hr
  calc (round_even (x / 2 ^ (e - ((p : ℤ) - 1))) : ℚ) * 2 ^ (e - ((p : ℤ) - 1))
      ≤ (((2 : ℤ) ^ n : ℤ) : ℚ) * 2 ^ (e - ((p : ℤ) - 1)) :=
        mul_le_mul_of_nonneg_right hr' hu.le
    _ = 2 ^ k := by rw [← hq, div_mul_cancel₀ _ hu.ne']

/-- Rounding does not cross a power of two from above. -/
theorem two_pow_le_round_binary (p : ℕ) (emin : ℤ) (x : ℚ) (k : ℤ) (hp : 1 ≤ p)
    (hk : (2 : ℚ) ^ k ≤ x) (hek : max (Int.log 2 x) emin - ((p : ℤ) - 1) ≤ k) :
    2 ^ k ≤ round_binary p emin x := by
  have hx : 0 < x := lt_of_lt_of_le (by positivity) hk
  unfold round_binary
  rw [abs_of_pos hx]
  set e := max (Int.log 2 x) emin with he
  have hu : (0 : ℚ) < 2 ^ (e - ((p : ℤ) - 1)) := by positivity
  obtain ⟨n, hn⟩ : ∃ n : ℕ, (n : ℤ) = k - (e - ((p : ℤ) - 1)) :=
    ⟨(k - (e - ((p : ℤ) - 1))).toNat, Int.toNat_of_nonneg (by omega)⟩
  have hq : (2 : ℚ) ^ k / 2 ^ (e - ((p : ℤ) - 1)) = (((2 : ℤ) ^ n : ℤ) : ℚ) := by
    rw [← zpow_sub₀ (by norm_num : (2 : ℚ) ≠ 0), ← hn]
    push_cast
    rw [zpow_natCast]
  have hr : (2 : ℤ) ^ n ≤ round_even (x / 2 ^ (e - ((p : ℤ) - 1))) := by
    have := round_even_mono (div_le_div_of_nonneg_right hk hu.le)
    rwa [hq, round_even_intCast] at this
  have hr' : (((2 : ℤ) ^ n : ℤ) : ℚ) ≤ (round_even (x / 2 ^ (e - ((p : ℤ) - 1))) : ℚ) := by
    exact_mod_cast hr
  calc (2 : ℚ) ^ k = (((2 : ℤ) ^ n : ℤ) : ℚ) * 2 ^ (e - ((p : ℤ) - 1)) := by
        rw [← hq, div_mul_cancel₀ _ hu.ne']
    _ ≤ (round_even (x / 2 ^ (e - ((p : ℤ) - 1))) : ℚ) * 2 ^ (e - ((p : ℤ) - 1)) :=
        mul_le_mul_of_nonneg_right hr' hu.le

/-- Rounding is monotone on the positive numbers. -/
theorem round_binary_mono (p : ℕ) (emin : ℤ) (x y : ℚ) (hp : 1 ≤ p) (hx : 0 < x)
    (h : x ≤ y) : round_binary p emin x ≤ round_binary p emin y := by
  have hy : 0 < y := lt_of_lt_of_le hx h
  have hl : Int.log 2 x ≤ Int.log 2 y := Int.log_mono_right hx h
  have hm : max (Int.log 2 x) emin ≤ max (Int.log 2 y) emin := max_le_max hl le_rfl
  rcases lt_or_eq_of_le hm with hlt | heq
  · -- different binades: a power of two lies between the two results
    have hxk : x ≤ 2 ^ (max (Int.log 2 x) emin + 1) := by
      have h1 := Int.lt_zpow_succ_log_self (by norm_num : 1 < 2) x
      have h2 : (2 : ℚ) ^ (Int.log 2 x + 1) ≤ 2 ^ (max (Int.log 2 x) emin + 1) :=
        zpow_le_zpow_right₀ (by norm_num) (by have := le_max_left (Int.log 2 x) emin; omega)
      have h1' : x < (2 : ℚ) ^ (Int.log 2 x + 1) := by simpa using h1
      linarith
    have hyk : (2 : ℚ) ^ (max (Int.log 2 y) emin) ≤ y := by
      have hey : max (Int.log 2 y) emin = Int.log 2 y := by
        rcases le_total (Int.log 2 y) emin with hc | hc
        · exfalso
          rw [max_eq_right hc] at hlt
          have := le_max_right (Int.log 2 x) emin
          omega
        · exact max_eq_left hc
      rw [hey]
      simpa using Int.zpow_log_le_self (by norm_num : 1 < 2) hy
    have a := round_binary_le_two_pow p emin x (max (Int.log 2 x) emin + 1) hp hx hxk (by omega)
    have b := two_pow_le_round_binary p emin y (max (Int.log 2 y) emin) hp hyk
      (by have : (1 : ℤ) ≤ (p : ℤ) := by exact_mod_cast hp
          omega)
    have c : (2 : ℚ) ^ (max (Int.log 2 x) emin + 1) ≤ 2 ^ (max (Int.log 2 y) emin) :=
      zpow_le_zpow_right₀ (by norm_num) (by omega)
    linarith
  · unfold round_binary
    rw [abs_of_pos hx, abs_of_pos hy, heq]
    have hu : (0 : ℚ) < 2 ^ (max (Int.log 2 y) emin - ((p : ℤ) - 1)) := by positivity
    have := round_even_mono (div_le_div_of_nonneg_right h hu.le)
    exact mul_le_mul_of_nonneg_right (by exact_mod_cast this) hu.le

/-- Rounding is monotone on the non-negative numbers. -/
theorem round_binary_mono_nonneg (p : ℕ) (emin : ℤ) (x y : ℚ) (hp : 1 ≤ p) (hx : 0 ≤ x)
    (h : x ≤ y) : round_binary p emin x ≤ round_binary p emin y := by
  rcases lt_or_eq_of_le hx with hpos | hzero
  · exact round_binary_mono p emin x y hp hpos h
  · rw [← hzero, round_binary_zero]
    exact round_binary_nonneg p emin y (by linarith)

/-- The rounding error is at most half a unit of the binade. -/
theorem round_binary_error (p : ℕ) (emin : ℤ) (x : ℚ) (k : ℤ)
    (hk : |x| < 2 ^ (k + 1)) (hemin : emin ≤ k) :
    |round_binary p emin x - x| ≤ 2 ^ (k - p) := by
  rcases eq_or_lt_of_le (abs_nonneg x) with h0 | hpos
  · have hx : x = 0 := abs_eq_zero.mp h0.symm
    rw [hx, round_binary_zero, sub_zero, abs_zero]
    positivity
  · have hlog : Int.log 2 |x| < k + 1 :=
      (Int.lt_zpow_iff_log_lt (by norm_num : 1 < 2) hpos).mp (by simpa using hk)
    have he : max (Int.log 2 |x|) emin ≤ k := max_le (by omega) hemin
    unfold round_binary
    set e := max (Int.log 2 |x|) emin with hedef
    have hu : (0 : ℚ) < 2 ^ (e - ((p : ℤ) - 1)) := by positivity
    have herr := round_even_error (x / 2 ^ (e - ((p : ℤ) - 1)))
    have e1 : (round_even (x / 2 ^ (e - ((p : ℤ) - 1))) : ℚ) * 2 ^ (e - ((p : ℤ) - 1)) - x
        = ((round_even (x / 2 ^ (e - ((p : ℤ) - 1))) : ℚ) - x / 2 ^ (e - ((p : ℤ) - 1)))
          * 2 ^ (e - ((p : ℤ) - 1)) := by
      rw [sub_mul, div_mul_cancel₀ _ hu.ne']
    rw [e1, abs_mul, abs_of_pos hu]
    have e2 : (2 : ℚ) ^ (e - ((p : ℤ) - 1)) = 2 * 2 ^ (e - (p : ℤ)) := by
      rw [show e - ((p : ℤ) - 1) = 1 + (e - (p : ℤ)) by ring,
        zpow_add₀ (by norm_num : (2 : ℚ) ≠ 0), zpow_one]
    have e3 : (2 : ℚ) ^ (e - (p : ℤ)) ≤ 2 ^ (k - (p : ℤ)) :=
      zpow_le_zpow_right₀ (by norm_num) (by omega)
    have e4 : (0 : ℚ) < 2 ^ (e - (p : ℤ)) := by positivity
    calc |(round_even (x / 2 ^ (e - ((p : ℤ) - 1))) : ℚ) - x / 2 ^ (e - ((p : ℤ) - 1))|
          * 2 ^ (e - ((p : ℤ) - 1))
        ≤ 1 / 2 * 2 ^ (e - ((p : ℤ) - 1)) := mul_le_mul_of_nonneg_right herr hu.le
      _ = 2 ^ (e - (p : ℤ)) := by rw [e2]; ring
      _ ≤ 2 ^ (k - (p : ℤ)) := e3

/-! ## Evaluating a rounding -/

theorem round_binary_of_near (p : ℕ) (emin : ℤ) (x : ℚ) (e m : ℤ)
    (h1 : (2 : ℚ) ^ e ≤ |x|) (h2 : |x| < 2 ^ (e + 1)) (he : emin ≤ e)
    (hm1 : (m : ℚ) - 1 / 2 < x / 2 ^ (e - (p - 1)))
    (hm2 : x / 2 ^ (e - (p - 1)) < m + 1 / 2) :
    round_binary p emin x = m * 2 ^ (e - (p - 1)) := by
  rw [round_binary_eq p emin x e h1 h2 he, round_even_of_near _ m hm1 hm2]

theorem round_binary_of_tie (p : ℕ) (emin : ℤ) (x : ℚ) (e m : ℤ)
    (h1 : (2 : ℚ) ^ e ≤ |x|) (h2 : |x| < 2 ^ (e + 1)) (he : emin ≤ e)
    (hm : x / 2 ^ (e - (p - 1)) = m + 1 / 2) :
    round_binary p emin x = (if m % 2 = 0 then m else m + 1 : ℤ) * 2 ^ (e - (p - 1)) := by
  rw [round_binary_eq p emin x e h1 h2 he, hm, round_even_tie]

theorem to_float_zero : to_float 0 = 0 := round_binary_zero 24 (-126)

/-! ## Values of the roundings that the examples use -/

theorem to_float_acceleration : to_float (1 / 5) = 13421773 / 67108864 := by
  rw [to_float, round_binary_of_near 24 (-126) _ (-3) 13421773 (by norm_num [abs_of_pos])
    (by norm_num [abs_of_pos]) (by norm_num) (by norm_num) (by norm_num)]
  norm_num

theorem to_float_deceleration : to_float (1 / 10) = 13421773 / 134217728 := by
  rw [to_float, round_binary_of_near 24 (-126) _ (-4) 13421773 (by norm_num [abs_of_pos])
    (by norm_num [abs_of_pos]) (by norm_num) (by norm_num) (by norm_num)]
  norm_num

theorem to_float_max_speed : to_float (1 / 20) = 13421773 / 268435456 := by
  rw [to_float, round_binary_of_near 24 (-126) _ (-5) 13421773 (by norm_num [abs_of_pos])
    (by norm_num [abs_of_pos]) (by norm_num) (by norm_num) (by norm_num)]
  norm_num

theorem to_float_one : to_float (1) = 1 := by
  rw [to_float, round_binary_of_near 24 (-126) _ 0 8388608 (by norm_num [abs_of_pos])
    (by norm_num [abs_of_pos]) (by norm_num) (by norm_num) (by norm_num)]
  norm_num

theorem to_double_eight_tenths : to_double (4 / 5) = 3602879701896397 / 4503599627370496 := by
  rw [to_double, round_binary_of_near 53 (-1022) _ (-1) 7205759403792794 (by norm_num [abs_of_pos])
    (by norm_num [abs_of_pos]) (by norm_num) (by norm_num) (by norm_num)]
  norm_num

theorem to_double_eight_tenths_again : to_double (3602879701896397 / 4503599627370496) = 3602879701896397 / 4503599627370496 := by
  rw [to_double, round_binary_of_near 53 (-1022) _ (-1) 7205759403792794 (by norm_num [abs_of_pos])
    (by norm_num [abs_of_pos]) (by norm_num) (by norm_num) (by norm_num)]
  norm_num

theorem to_double_upper : to_double (8106479329266893 / 4503599627370496) = 8106479329266893 / 4503599627370496 := by
  rw [to_double, round_binary_of_near 53 (-1022) _ 0 8106479329266893 (by norm_num [abs_of_pos])
    (by norm_num [abs_of_pos]) (by norm_num) (by norm_num) (by norm_num)]
  norm_num

theorem to_float_lower : to_float (3602879701896397 / 4503599627370496) = 13421773 / 16777216 := by
  rw [to_float, round_binary_of_near 24 (-126) _ (-1) 13421773 (by norm_num [abs_of_pos])
    (by norm_num [abs_of_pos]) (by norm_num) (by norm_num) (by norm_num)]
  norm_num

theorem to_float_upper : to_float (8106479329266893 / 4503599627370496) = 7549747 / 4194304 := by
  rw [to_float, round_binary_of_near 24 (-126) _ 0 15099494 (by norm_num [abs_of_pos])
    (by norm_num [abs_of_pos]) (by norm_num) (by norm_num) (by norm_num)]
  norm_num

theorem to_double_half_height_zero : to_double (13421773 / 33554432) = 13421773 / 33554432 := by
  rw [to_double, round_binary_of_near 53 (-1022) _ (-2) 7205759511166976 (by norm_num [abs_of_pos])
    (by norm_num [abs_of_pos]) (by norm_num) (by norm_num) (by norm_num)]
  norm_num

theorem to_double_sum_zero : to_double (30198989 / 33554432) = 30198989 / 33554432 := by
  rw [to_double, round_binary_of_near 53 (-1022) _ (-1) 8106479382953984 (by norm_num [abs_of_pos])
    (by norm_num [abs_of_pos]) (by norm_num) (by norm_num) (by norm_num)]
  norm_num

theorem to_float_sum_zero : to_float (30198989 / 33554432) = 7549747 / 8388608 := by
  rw [to_float, round_binary_of_tie 24 (-126) _ (-1) 15099494 (by norm_num [abs_of_pos])
    (by norm_num [abs_of_pos]) (by norm_num) (by norm_num)]
  norm_num

theorem to_float_rand_max : to_float (2147483647) = 2147483648 := by
  rw [to_float, round_binary_of_near 24 (-126) _ 30 16777216 (by norm_num [abs_of_pos])
    (by norm_num [abs_of_pos]) (by norm_num) (by norm_num) (by norm_num)]
  norm_num

theorem to_float_quarter : to_float (1 / 4) = 1 / 4 := by
  rw [to_float, round_binary_of_near 24 (-126) _ (-2) 8388608 (by norm_num [abs_of_pos])
    (by norm_num [abs_of_pos]) (by norm_num) (by norm_num) (by norm_num)]
  norm_num

theorem to_float_half : to_float (1 / 2) = 1 / 2 := by
  rw [to_float, round_binary_of_near 24 (-126) _ (-1) 8388608 (by norm_num [abs_of_pos])
    (by norm_num [abs_of_pos]) (by norm_num) (by norm_num) (by norm_num)]
  norm_num

theorem to_float_sixtieth : to_float (1 / 60) = 8947849 / 536870912 := by
  rw [to_float, round_binary_of_near 24 (-126) _ (-6) 8947849 (by norm_num [abs_of_pos])
    (by norm_num [abs_of_pos]) (by norm_num) (by norm_num) (by norm_num)]
  norm_num

theorem to_float_decrement_sixtieth : to_float (120095998116277 / 72057594037927936) = 14316559 / 8589934592 := by
  rw [to_float, round_binary_of_near 24 (-126) _ (-10) 14316559 (by norm_num [abs_of_pos])
    (by norm_num [abs_of_pos]) (by norm_num) (by norm_num) (by norm_num)]
  norm_num

theorem to_float_decrement_tiny : to_float (13421773 / 9007199254740992) = 13421773 / 9007199254740992 := by
  rw [to_float, round_binary_of_near 24 (-126) _ (-30) 13421773 (by norm_num [abs_of_pos])
    (by norm_num [abs_of_pos]) (by norm_num) (by norm_num) (by norm_num)]
  norm_num

theorem to_float_absorbed : to_float (450359956026163 / 9007199254740992) = 13421773 / 268435456 := by
  rw [to_float, round_binary_of_near 24 (-126) _ (-5) 13421773 (by norm_num [abs_of_pos])
    (by norm_num [abs_of_pos]) (by norm_num) (by norm_num) (by norm_num)]
  norm_num

theorem to_float_max_speed_eighth : to_float (13421773 / 2147483648) = 13421773 / 2147483648 := by
  rw [to_float, round_binary_of_near 24 (-126) _ (-8) 13421773 (by norm_num [abs_of_pos])
    (by norm_num [abs_of_pos]) (by norm_num) (by norm_num) (by norm_num)]
  norm_num

theorem to_float_sixteen_ms : to_float (2 / 125) = 8589935 / 536870912 := by
  rw [to_float, round_binary_of_near 24 (-126) _ (-6) 8589935 (by norm_num [abs_of_pos])
    (by norm_num [abs_of_pos]) (by norm_num) (by norm_num) (by norm_num)]
  norm_num

theorem to_float_increment_sixteen_ms : to_float (115292157654755 / 36028797018963968) = 1717987 / 536870912 := by
  rw [to_float, round_binary_of_near 24 (-126) _ (-9) 13743896 (by norm_num [abs_of_pos])
    (by norm_num [abs_of_pos]) (by norm_num) (by norm_num) (by norm_num)]
  norm_num

theorem to_float_decrement_sixteen_ms : to_float (115292157654755 / 72057594037927936) = 1717987 / 1073741824 := by
  rw [to_float, round_binary_of_near 24 (-126) _ (-10) 13743896 (by norm_num [abs_of_pos])
    (by norm_num [abs_of_pos]) (by norm_num) (by norm_num) (by norm_num)]
  norm_num

theorem to_float_after_d : to_float (25125559 / 536870912) = 3140695 / 67108864 := by
  rw [to_float, round_binary_of_tie 24 (-126) _ (-5) 12562779 (by norm_num [abs_of_pos])
    (by norm_num [abs_of_pos]) (by norm_num) (by norm_num)]
  norm_num

theorem to_float_after_d_a : to_float (26843547 / 536870912) = 6710887 / 134217728 := by
  rw [to_float, round_binary_of_tie 24 (-126) _ (-5) 13421773 (by norm_num [abs_of_pos])
    (by norm_num [abs_of_pos]) (by norm_num) (by norm_num)]
  norm_num

theorem to_float_both_keys : to_float (51969109 / 1073741824) = 12992277 / 268435456 := by
  rw [to_float, round_binary_of_near 24 (-126) _ (-5) 12992277 (by norm_num [abs_of_pos])
    (by norm_num [abs_of_pos]) (by norm_num) (by norm_num) (by norm_num)]
  norm_num

theorem to_float_no_keys : to_float (51969105 / 1073741824) = 3248069 / 67108864 := by
  rw [to_float, round_binary_of_near 24 (-126) _ (-5) 12992276 (by norm_num [abs_of_pos])
    (by norm_num [abs_of_pos]) (by norm_num) (by norm_num) (by norm_num)]
  norm_num

/-! ## Signs and errors of `to_float` -/

theorem round_binary_nonpos (p : ℕ) (emin : ℤ) (x : ℚ) (hx : x ≤ 0) :
    round_binary p emin x ≤ 0 := by
  unfold round_binary
  have hu : (0 : ℚ) < 2 ^ (max (Int.log 2 |x|) emin - ((p : ℤ) - 1)) := by positivity
  have h0 : round_even (x / 2 ^ (max (Int.log 2 |x|) emin - ((p : ℤ) - 1))) ≤ (0 : ℤ) := by
    have := round_even_mono (div_nonpos_of_nonpos_of_nonneg hx hu.le)
    rwa [show ((0 : ℚ)) = ((0 : ℤ) : ℚ) by norm_num, round_even_intCast] at this
  exact mul_nonpos_of_nonpos_of_nonneg (by exact_mod_cast h0) hu.le

theorem to_float_nonneg (x : ℚ) (hx : 0 ≤ x) : 0 ≤ to_float x :=
  round_binary_nonneg 24 (-126) x hx

theorem to_float_nonpos (x : ℚ) (hx : x ≤ 0) : to_float x ≤ 0 :=
  round_binary_nonpos 24 (-126) x hx

theorem to_float_mono (x y : ℚ) (hx : 0 ≤ x) (h : x ≤ y) : to_float x ≤ to_float y :=
  round_binary_mono_nonneg 24 (-126) x y (by norm_num) hx h

theorem to_double_mono (x y : ℚ) (hx : 0 ≤ x) (h : x ≤ y) : to_double x ≤ to_double y :=
  round_binary_mono_nonneg 53 (-1022) x y (by norm_num) hx h

/-- Below `1 / 16` a rounding to `float` is off by at most `2 ^ (-29)`. -/
theorem to_float_error_small (x : ℚ) (hx : |x| < 1 / 16) :
    |to_float x - x| ≤ 1 / 536870912 := by
  have h := round_binary_error 24 (-126) x (-5) (by norm_num; linarith) (by norm_num)
  norm_num at h
  exact h

/-! ## The camera in float arithmetic -/

theorem MoveCamera_f32_ctrl (m : Trig) (it : Frame) (s : Rig) :
    (MoveCamera_f32 m it s).ctrl =
      { r := to_float (s.ctrl.r + decelerate_camera_f32
            (accelerate_f32 it.keys.key_d it.keys.key_a it.delta_time s.ctrl.v)
            it.delta_time (max_speed_of_f32 it.keys.key_shift)),
        v := decelerate_camera_f32
            (accelerate_f32 it.keys.key_d it.keys.key_a it.delta_time s.ctrl.v)
            it.delta_time (max_speed_of_f32 it.keys.key_shift),
        v_h := decelerate_camera_f32
            (accelerate_f32 it.keys.key_s it.keys.key_w it.delta_time s.ctrl.v_h)
            it.delta_time (max_speed_of_f32 it.keys.key_shift),
        h := to_float (s.ctrl.h + to_float (decelerate_camera_f32
            (accelerate_f32 it.keys.key_s it.keys.key_w it.delta_time s.ctrl.v_h)
            it.delta_time (max_speed_of_f32 it.keys.key_shift) * 2)),
        d := to_float (s.ctrl.d - decelerate_camera_f32
            (accelerate_f32 it.keys.key_s it.keys.key_w it.delta_time s.ctrl.v_h)
            it.delta_time (max_speed_of_f32 it.keys.key_shift)),
        shake := to_float (to_double (s.ctrl.shake * to_double (80 / 100))) } := by
  cases hd : it.keys.key_d <;> cases ha : it.keys.key_a <;> cases hs : it.keys.key_s <;>
    cases hw : it.keys.key_w <;>
    simp [MoveCamera_f32, accelerate_f32, max_speed_of_f32, hd, ha, hs, hw]

theorem accelerate_f32_none (dt v : ℚ) : accelerate_f32 false false dt v = v := by
  simp [accelerate_f32]

theorem CameraMaxSpeed_f32_eq : CameraMaxSpeed_f32 = 13421773 / 268435456 := by
  rw [CameraMaxSpeed_f32, show (5 / 100 : ℚ) = 1 / 20 by norm_num, to_float_max_speed]

theorem CameraDeceleration_f32_eq : CameraDeceleration_f32 = 13421773 / 134217728 := by
  rw [CameraDeceleration_f32, to_float_deceleration]

theorem CameraAcceleration_f32_eq : CameraAcceleration_f32 = 13421773 / 67108864 := by
  rw [CameraAcceleration_f32, show (2 / 10 : ℚ) = 1 / 5 by norm_num, to_float_acceleration]

theorem max_speed_of_f32_nonneg (b : Bool) : 0 ≤ max_speed_of_f32 b := by
  cases b
  · simp only [max_speed_of_f32, Bool.false_eq_true, if_false, CameraMaxSpeed_f32_eq]
    norm_num
  · simp only [max_speed_of_f32, if_true, CameraMaxSpeed_f32_eq]
    exact to_float_nonneg _ (by norm_num)

theorem max_speed_of_f32_le (b : Bool) : max_speed_of_f32 b ≤ 13421773 / 268435456 := by
  cases b
  · simp only [max_speed_of_f32, Bool.false_eq_true, if_false, CameraMaxSpeed_f32_eq]
    exact le_rfl
  · simp only [max_speed_of_f32, if_true]
    have h := to_float_mono (CameraMaxSpeed_f32 / 8) (1 / 20)
      (by rw [CameraMaxSpeed_f32_eq]; norm_num) (by rw [CameraMaxSpeed_f32_eq]; norm_num)
    rw [to_float_max_speed] at h
    exact h

/-- The result of `decelerate_camera` in float arithmetic is no larger in size than the
argument, and no larger than `max_speed`. -/
theorem decelerate_camera_f32_abs_le (v dt ms : ℚ) (hms : 0 ≤ ms) :
    |decelerate_camera_f32 v dt ms| ≤ |v| ∧ |decelerate_camera_f32 v dt ms| ≤ ms := by
  simp only [decelerate_camera_f32, glm_clamp_eq, gt_iff_lt]
  rcases lt_trichotomy v 0 with hv | hv | hv
  · have h0 : ¬ 0 < v := not_lt.mpr hv.le
    simp only [h0, if_false, hv, if_true]
    set y := to_float (v + to_float (CameraDeceleration_f32 * dt)) with hy
    have a : v ≤ min (max y v) 0 := le_min (le_max_right _ _) hv.le
    have b : min (max y v) 0 ≤ 0 := min_le_right _ _
    have c1 : min (max y v) 0 ≤ max (min (max y v) 0) (-ms) := le_max_left _ _
    have c2 : max (min (max y v) 0) (-ms) ≤ 0 := max_le b (by linarith)
    rw [min_eq_left (le_trans c2 hms), abs_of_nonpos c2, abs_of_neg hv]
    exact ⟨by linarith, by linarith [le_max_right (min (max y v) 0) (-ms)]⟩
  · subst hv
    simp only [lt_irrefl, if_false]
    rw [max_eq_left (by linarith), min_eq_left hms]
    simp [hms]
  · simp only [hv, if_true]
    set x := to_float (v - to_float (CameraDeceleration_f32 * dt)) with hx
    have a : 0 ≤ min (max x 0) v := le_min (le_max_right _ _) hv.le
    have b : min (max x 0) v ≤ v := min_le_right _ _
    have h2 : ¬ min (max x 0) v < 0 := not_lt.mpr a
    simp only [h2, if_false]
    rw [max_eq_left (by linarith), abs_of_nonneg (le_min a hms), abs_of_pos hv]
    exact ⟨le_trans (min_le_left _ _) b, min_le_right _ _⟩

theorem decelerate_camera_f32_zero (dt ms : ℚ) (hms : 0 ≤ ms) :
    decelerate_camera_f32 0 dt ms = 0 := by
  have h := (decelerate_camera_f32_abs_le 0 dt ms hms).1
  rw [abs_zero] at h
  exact abs_nonpos_iff.mp h

/-- One deceleration in float arithmetic: a speed below `1 / 16` loses at least
`c - 2 ^ (-29)`, where `c` is the rounded product `CameraDeceleration * delta_time`. -/
theorem decelerate_camera_f32_step (v dt ms : ℚ) (hms : 0 ≤ ms) (hv : |v| < 1 / 16)
    (hc : 0 ≤ to_float (CameraDeceleration_f32 * dt)) :
    |decelerate_camera_f32 v dt ms|
      ≤ max (|v| - (to_float (CameraDeceleration_f32 * dt) - 1 / 536870912)) 0 := by
  simp only [decelerate_camera_f32, glm_clamp_eq, gt_iff_lt]
  set c := to_float (CameraDeceleration_f32 * dt) with hcdef
  rcases lt_trichotomy v 0 with hneg | hzero | hpos
  · have h0 : ¬ 0 < v := not_lt.mpr hneg.le
    simp only [h0, if_false, hneg, if_true]
    rw [abs_of_neg hneg] at hv ⊢
    set y := to_float (v + c) with hy
    have b : min (max y v) 0 ≤ 0 := min_le_right _ _
    have c2 : max (min (max y v) 0) (-ms) ≤ 0 := max_le b (by linarith)
    rw [min_eq_left (le_trans c2 hms), abs_of_nonpos c2]
    have c1 : min (max y v) 0 ≤ max (min (max y v) 0) (-ms) := le_max_left _ _
    rcases le_total 0 (v + c) with hs | hs
    · have hy0 : 0 ≤ y := to_float_nonneg _ hs
      have hz : min (max y v) 0 = 0 := min_eq_right (le_trans hy0 (le_max_left _ _))
      have c3 : (0 : ℚ) ≤ max (min (max y v) 0) (-ms) := le_trans (le_of_eq hz.symm) c1
      exact le_trans (by linarith) (le_max_right _ _)
    · have herr := to_float_error_small (v + c) (by rw [abs_of_nonpos hs]; linarith)
      rw [abs_le] at herr
      have hyv : v + c - 1 / 536870912 ≤ y := by linarith [herr.1]
      have hm : min (v + c - 1 / 536870912) 0 ≤ min (max y v) 0 :=
        min_le_min (le_trans hyv (le_max_left _ _)) le_rfl
      rcases le_total (v + c - 1 / 536870912) 0 with ht | ht
      · rw [min_eq_left ht] at hm
        exact le_trans (by linarith) (le_max_left _ _)
      · rw [min_eq_right ht] at hm
        exact le_trans (by linarith) (le_max_right _ _)
  · subst hzero
    simp only [lt_irrefl, if_false]
    rw [max_eq_left (by linarith), min_eq_left hms, abs_zero]
    exact le_max_right _ _
  · simp only [hpos, if_true]
    rw [abs_of_pos hpos] at hv ⊢
    set x := to_float (v - c) with hx
    have a : 0 ≤ min (max x 0) v := le_min (le_max_right _ _) hpos.le
    have h2 : ¬ min (max x 0) v < 0 := not_lt.mpr a
    simp only [h2, if_false]
    rw [max_eq_left (by linarith), abs_of_nonneg (le_min a hms)]
    refine le_trans (min_le_left _ _) (le_trans (min_le_left _ _) ?_)
    rcases le_total (v - c) 0 with hs | hs
    · have hx0 : x ≤ 0 := to_float_nonpos _ hs
      rw [max_eq_right hx0]
      exact le_max_right _ _
    · have herr := to_float_error_small (v - c) (by rw [abs_of_nonneg hs]; linarith)
      rw [abs_le] at herr
      exact max_le_max (by linarith [herr.2]) le_rfl

theorem step_no_direction_f32 (m : Trig) (it : Frame) (s : Rig) (hk : it.keys.no_direction) :
    (MoveCamera_f32 m it s).ctrl.v
        = decelerate_camera_f32 s.ctrl.v it.delta_time (max_speed_of_f32 it.keys.key_shift) ∧
    (MoveCamera_f32 m it s).ctrl.v_h
        = decelerate_camera_f32 s.ctrl.v_h it.delta_time
            (max_speed_of_f32 it.keys.key_shift) := by
  obtain ⟨hd, ha, hs, hw⟩ := hk
  rw [MoveCamera_f32_ctrl, hd, ha, hs, hw, accelerate_f32_none, accelerate_f32_none]
  exact ⟨rfl, rfl⟩

theorem step_position_f32 (m : Trig) (it : Frame) (s : Rig) :
    (MoveCamera_f32 m it s).ctrl.r = to_float (s.ctrl.r + (MoveCamera_f32 m it s).ctrl.v) ∧
    (MoveCamera_f32 m it s).ctrl.h
      = to_float (s.ctrl.h + to_float ((MoveCamera_f32 m it s).ctrl.v_h * 2)) ∧
    (MoveCamera_f32 m it s).ctrl.d = to_float (s.ctrl.d - (MoveCamera_f32 m it s).ctrl.v_h) := by
  rw [MoveCamera_f32_ctrl]
  exact ⟨rfl, rfl, rfl⟩

/-! ## A rounded number is not changed by rounding it again -/

theorem round_even_neg (x : ℚ) : round_even (-x) = -round_even x := by
  have h1 := Int.floor_le x
  have h2 := Int.lt_floor_add_one x
  rcases lt_trichotomy (x - ⌊x⌋) (1 / 2) with h | h | h
  · have e : round_even x = ⌊x⌋ := by unfold round_even; rw [if_pos h]
    rw [e]
    exact round_even_of_near _ _ (by push_cast; linarith) (by push_cast; linarith)
  · have hx : x = (⌊x⌋ : ℚ) + 1 / 2 := by linarith
    have hn : -x = ((-⌊x⌋ - 1 : ℤ) : ℚ) + 1 / 2 := by push_cast; linarith
    have e1 := round_even_tie ⌊x⌋
    rw [← hx] at e1
    rw [e1, hn, round_even_tie]
    split_ifs <;> omega
  · have e : round_even x = ⌊x⌋ + 1 := by
      unfold round_even; rw [if_neg (by linarith), if_pos h]
    rw [e]
    exact round_even_of_near _ _ (by push_cast; linarith) (by push_cast; linarith)

theorem round_binary_neg (p : ℕ) (emin : ℤ) (x : ℚ) :
    round_binary p emin (-x) = -round_binary p emin x := by
  unfold round_binary
  rw [abs_neg, neg_div, round_even_neg]
  push_cast
  ring

theorem round_binary_abs_le (p : ℕ) (emin : ℤ) (x : ℚ) (hp : 1 ≤ p) :
    |round_binary p emin x| ≤ 2 ^ (max (Int.log 2 |x|) emin + 1) := by
  have pos : ∀ z : ℚ, 0 < z →
      |round_binary p emin z| ≤ 2 ^ (max (Int.log 2 |z|) emin + 1) := by
    intro z hz
    rw [abs_of_nonneg (round_binary_nonneg p emin z hz.le), abs_of_pos hz]
    have hlt : z < 2 ^ (Int.log 2 z + 1) := by
      have := Int.lt_zpow_succ_log_self (by norm_num : 1 < 2) z
      simpa using this
    have hle : (2 : ℚ) ^ (Int.log 2 z + 1) ≤ 2 ^ (max (Int.log 2 z) emin + 1) :=
      zpow_le_zpow_right₀ (by norm_num) (by have := le_max_left (Int.log 2 z) emin; omega)
    exact round_binary_le_two_pow p emin z _ hp hz (le_trans hlt.le hle) (by omega)
  rcases lt_trichotomy x 0 with h | h | h
  · have := pos (-x) (by linarith)
    rwa [round_binary_neg, abs_neg, abs_neg] at this
  · rw [h, round_binary_zero, abs_zero]
    positivity
  · exact pos x h

/-- A multiple of a power of two that is no finer than the format allows at the size of
the number is its own rounding. -/
theorem round_binary_of_multiple (p : ℕ) (emin : ℤ) (y : ℚ) (k g : ℤ)
    (hy : y = k * 2 ^ g) (hg : max (Int.log 2 |y|) emin - ((p : ℤ) - 1) ≤ g) :
    round_binary p emin y = y := by
  unfold round_binary
  set f := max (Int.log 2 |y|) emin - ((p : ℤ) - 1) with hf
  have hu : (2 : ℚ) ^ f ≠ 0 := by positivity
  obtain ⟨n, hn⟩ : ∃ n : ℕ, g = f + n := ⟨(g - f).toNat, by omega⟩
  have e : y / 2 ^ f = ((k * 2 ^ n : ℤ) : ℚ) := by
    rw [hy, hn, zpow_add₀ (by norm_num : (2 : ℚ) ≠ 0), zpow_natCast]
    push_cast
    field_simp
    ring
  rw [e, round_even_intCast, ← e, div_mul_cancel₀ _ hu]

theorem round_binary_idem (p : ℕ) (emin : ℤ) (x : ℚ) (hp : 1 ≤ p) :
    round_binary p emin (round_binary p emin x) = round_binary p emin x := by
  set y := round_binary p emin x with hy
  set e := max (Int.log 2 |x|) emin with he
  rcases eq_or_ne y 0 with hz | hz
  · rw [hz, round_binary_zero]
  rcases le_or_lt (Int.log 2 |y|) e with hle | hgt
  · refine round_binary_of_multiple p emin y
      (round_even (x / 2 ^ (e - ((p : ℤ) - 1)))) (e - ((p : ℤ) - 1)) rfl ?_
    have : max (Int.log 2 |y|) emin ≤ e := max_le hle (le_max_right _ _)
    omega
  · have hb : |y| ≤ 2 ^ (e + 1) := round_binary_abs_le p emin x hp
    have hy0 : 0 < |y| := abs_pos.mpr hz
    have hge : (2 : ℚ) ^ (e + 1) ≤ |y| := by
      have := (Int.zpow_le_iff_le_log (by norm_num : 1 < 2) hy0).mpr
        (show e + 1 ≤ Int.log 2 |y| by omega)
      simpa using this
    have habs : |y| = 2 ^ (e + 1) := le_antisymm hb hge
    have hlog : Int.log 2 |y| = e + 1 := by
      rw [habs]
      have : Int.log 2 (((2 : ℕ) : ℚ) ^ (e + 1)) = e + 1 := Int.log_zpow (by norm_num) (e + 1)
      simpa using this
    have hemin : emin ≤ e := le_max_right _ _
    rcases (abs_eq (by positivity : (0 : ℚ) ≤ 2 ^ (e + 1))).mp habs with h | h
    · exact round_binary_of_multiple p emin y 1 (e + 1) (by rw [h]; simp)
        (by rw [hlog, max_eq_left (by omega)]; omega)
    · exact round_binary_of_multiple p emin y (-1) (e + 1) (by rw [h]; simp)
        (by rw [hlog, max_eq_left (by omega)]; omega)

theorem to_float_idem (x : ℚ) : to_float (to_float x) = to_float x :=
  round_binary_idem 24 (-126) x (by norm_num)

/-! ## Frames without directional input, in float arithmetic -/

theorem run_frames_f32_v (m : Trig) (frames : ℕ → Frame) (n : ℕ) (s : Rig)
    (hk : (frames n).keys.no_direction) :
    (run_frames_f32 m frames (n + 1) s).ctrl.v
      = decelerate_camera_f32 (run_frames_f32 m frames n s).ctrl.v (frames n).delta_time
          (max_speed_of_f32 (frames n).keys.key_shift) :=
  (step_no_direction_f32 m (frames n) (run_frames_f32 m frames n s) hk).1

/-- Evaluating one deceleration of a positive speed: `c` is the rounded product, `w`
the rounded difference. -/
theorem decelerate_camera_f32_pos (v dt ms c x w : ℚ) (hv : 0 < v)
    (hc : to_float (CameraDeceleration_f32 * dt) = c) (hx : v - c = x)
    (hw : to_float x = w) (h0 : 0 ≤ w) (hwv : w ≤ v) (hwm : w ≤ ms) :
    decelerate_camera_f32 v dt ms = w := by
  have h2 : ¬ w < 0 := not_lt.mpr h0
  simp only [decelerate_camera_f32, glm_clamp_eq, gt_iff_lt, hv, if_true, hc, hx, hw,
    max_eq_left h0, min_eq_left hwv, h2, if_false]
  rw [max_eq_left (by linarith), min_eq_left hwm]

/-- With no direction held, one step in float arithmetic sends a speed below `1 / 16` to
at most `max (a - (c - 2 ^ (-29))) 0`, and any speed to at most `0.05f`. -/
theorem step_speed_bound_f32 (m : Trig) (it : Frame) (s : Rig) (hk : it.keys.no_direction) :
    (|(MoveCamera_f32 m it s).ctrl.v| ≤ |s.ctrl.v| ∧
      |(MoveCamera_f32 m it s).ctrl.v| ≤ 13421773 / 268435456 ∧
      (0 ≤ to_float (CameraDeceleration_f32 * it.delta_time) → |s.ctrl.v| < 1 / 16 →
        |(MoveCamera_f32 m it s).ctrl.v| ≤ max (|s.ctrl.v|
          - (to_float (CameraDeceleration_f32 * it.delta_time) - 1 / 536870912)) 0)) ∧
    (|(MoveCamera_f32 m it s).ctrl.v_h| ≤ |s.ctrl.v_h| ∧
      |(MoveCamera_f32 m it s).ctrl.v_h| ≤ 13421773 / 268435456 ∧
      (0 ≤ to_float (CameraDeceleration_f32 * it.delta_time) → |s.ctrl.v_h| < 1 / 16 →
        |(MoveCamera_f32 m it s).ctrl.v_h| ≤ max (|s.ctrl.v_h|
          - (to_float (CameraDeceleration_f32 * it.delta_time) - 1 / 536870912)) 0)) := by
  obtain ⟨hv, hvh⟩ := step_no_direction_f32 m it s hk
  have hms := max_speed_of_f32_nonneg it.keys.key_shift
  have hle := max_speed_of_f32_le it.keys.key_shift
  rw [hv, hvh]
  exact ⟨⟨(decelerate_camera_f32_abs_le _ _ _ hms).1,
      le_trans (decelerate_camera_f32_abs_le _ _ _ hms).2 hle,
      fun hc hs => decelerate_camera_f32_step _ _ _ hms hs hc⟩,
    ⟨(decelerate_camera_f32_abs_le _ _ _ hms).1,
      le_trans (decelerate_camera_f32_abs_le _ _ _ hms).2 hle,
      fun hc hs => decelerate_camera_f32_step _ _ _ hms hs hc⟩⟩

/-- Bound on both speeds `k` frames after the first one, in float arithmetic. -/
theorem speeds_after_f32 (m : Trig) (frames : ℕ → Frame) (dt : ℚ) (s : Rig)
    (hc : 1 / 536870912 < to_float (CameraDeceleration_f32 * dt))
    (hframes : ∀ i, (frames i).delta_time = dt ∧ (frames i).keys.no_direction) (k : ℕ) :
    |(run_frames_f32 m frames (1 + k) s).ctrl.v|
      ≤ max (13421773 / 268435456
          - k * (to_float (CameraDeceleration_f32 * dt) - 1 / 536870912)) 0 ∧
    |(run_frames_f32 m frames (1 + k) s).ctrl.v_h|
      ≤ max (13421773 / 268435456
          - k * (to_float (CameraDeceleration_f32 * dt) - 1 / 536870912)) 0 := by
  have hd : 0 < to_float (CameraDeceleration_f32 * dt) - 1 / 536870912 := sub_pos.mpr hc
  have hc0 : 0 ≤ to_float (CameraDeceleration_f32 * dt) := by linarith
  set δ := to_float (CameraDeceleration_f32 * dt) - 1 / 536870912 with hδ
  induction k with
  | zero =>
    have hb := step_speed_bound_f32 m (frames 0) s (hframes 0).2
    simp only [run_frames_f32, Nat.cast_zero, zero_mul, sub_zero]
    exact ⟨le_trans hb.1.2.1 (le_max_left _ _), le_trans hb.2.2.1 (le_max_left _ _)⟩
  | succ k ih =>
    have hb := step_speed_bound_f32 m (frames (1 + k)) (run_frames_f32 m frames (1 + k) s)
      (hframes (1 + k)).2
    rw [(hframes (1 + k)).1] at hb
    have hk0 : (0 : ℚ) ≤ k := Nat.cast_nonneg k
    have hsmall : max (13421773 / 268435456 - (k : ℚ) * δ) 0 < 1 / 16 :=
      max_lt (by nlinarith) (by norm_num)
    have hstep : ∀ a : ℚ, a ≤ max (13421773 / 268435456 - k * δ) 0 →
        max (a - δ) 0 ≤ max (13421773 / 268435456 - ((k + 1 : ℕ) : ℚ) * δ) 0 := by
      intro a ha
      push_cast
      rcases le_total (13421773 / 268435456 - (k : ℚ) * δ) 0 with h | h
      · rw [max_eq_right h] at ha
        exact le_trans (max_le (by linarith) le_rfl) (le_max_right _ _)
      · rw [max_eq_left h] at ha
        exact max_le_max (by linarith) le_rfl
    have e : 1 + (k + 1) = (1 + k) + 1 := by omega
    rw [e]
    simp only [run_frames_f32]
    exact ⟨le_trans (hb.1.2.2 hc0 (lt_of_le_of_lt ih.1 hsmall)) (hstep _ ih.1),
      le_trans (hb.2.2.2 hc0 (lt_of_le_of_lt ih.2 hsmall)) (hstep _ ih.2)⟩

theorem rest_frames_f32_bound (dt : ℚ)
    (hc : 1 / 536870912 < to_float (CameraDeceleration_f32 * dt)) :
    (13421773 / 268435456 : ℚ) - ((rest_frames_f32 dt - 1 : ℕ) : ℚ)
      * (to_float (CameraDeceleration_f32 * dt) - 1 / 536870912) ≤ 0 := by
  have hd : 0 < to_float (CameraDeceleration_f32 * dt) - 1 / 536870912 := sub_pos.mpr hc
  have h := Nat.le_ceil ((13421773 / 268435456 : ℚ)
    / (to_float (CameraDeceleration_f32 * dt) - 1 / 536870912))
  rw [div_le_iff₀ hd] at h
  have e : rest_frames_f32 dt - 1 = ⌈(13421773 / 268435456 : ℚ)
      / (to_float (CameraDeceleration_f32 * dt) - 1 / 536870912)⌉₊ := by
    unfold rest_frames_f32
    rw [CameraMaxSpeed_f32_eq]
    omega
  rw [e]
  linarith

/-- From frame `rest_frames_f32 dt` on, both velocities are zero in float arithmetic. -/
theorem at_rest_from_f32 (m : Trig) (frames : ℕ → Frame) (dt : ℚ) (s : Rig)
    (hc : 1 / 536870912 < to_float (CameraDeceleration_f32 * dt))
    (hframes : ∀ i, (frames i).delta_time = dt ∧ (frames i).keys.no_direction) (n : ℕ)
    (hn : rest_frames_f32 dt ≤ n) :
    (run_frames_f32 m frames n s).ctrl.v = 0 ∧ (run_frames_f32 m frames n s).ctrl.v_h = 0 := by
  have h1 : 1 ≤ rest_frames_f32 dt := by unfold rest_frames_f32; omega
  obtain ⟨k, rfl⟩ : ∃ k, n = 1 + k := ⟨n - 1, by omega⟩
  have hb := speeds_after_f32 m frames dt s hc hframes k
  have hd : 0 < to_float (CameraDeceleration_f32 * dt) - 1 / 536870912 := by linarith
  have hk : ((rest_frames_f32 dt - 1 : ℕ) : ℚ) ≤ (k : ℚ) := by
    exact_mod_cast (show rest_frames_f32 dt - 1 ≤ k by omega)
  have hz : (13421773 / 268435456 : ℚ)
      - k * (to_float (CameraDeceleration_f32 * dt) - 1 / 536870912) ≤ 0 := by
    have := rest_frames_f32_bound dt hc
    have := mul_le_mul_of_nonneg_right hk hd.le
    linarith
  rw [max_eq_right hz] at hb
  exact ⟨abs_nonpos_iff.mp hb.1, abs_nonpos_iff.mp hb.2⟩

/-- Once both velocities are zero after a step in float arithmetic, the next step leaves
`r`, `h` and `d` as they are. -/
theorem rest_keeps_position_f32 (m : Trig) (it it2 : Frame) (s : Rig)
    (hv : (MoveCamera_f32 m it2 (MoveCamera_f32 m it s)).ctrl.v = 0)
    (hvh : (MoveCamera_f32 m it2 (MoveCamera_f32 m it s)).ctrl.v_h = 0) :
    (MoveCamera_f32 m it2 (MoveCamera_f32 m it s)).ctrl.r = (MoveCamera_f32 m it s).ctrl.r ∧
    (MoveCamera_f32 m it2 (MoveCamera_f32 m it s)).ctrl.h = (MoveCamera_f32 m it s).ctrl.h ∧
    (MoveCamera_f32 m it2 (MoveCamera_f32 m it s)).ctrl.d = (MoveCamera_f32 m it s).ctrl.d := by
  obtain ⟨pr, ph, pd⟩ := step_position_f32 m it2 (MoveCamera_f32 m it s)
  obtain ⟨qr, qh, qd⟩ := step_position_f32 m it s
  rw [pr, ph, pd, hv, hvh, zero_mul, to_float_zero, add_zero, add_zero, sub_zero]
  refine ⟨?_, ?_, ?_⟩
  · rw [qr, to_float_idem]
  · rw [qh, to_float_idem]
  · rw [qd, to_float_idem]

/-- The rest statement in float arithmetic: when the rounded product
`CameraDeceleration * delta_time` exceeds `2 ^ (-29)`, both velocities are zero and `r`,
`h`, `d` constant from frame `rest_frames_f32 delta_time` on. -/
theorem no_input_rest_f32 (m : Trig) (frames : ℕ → Frame) (dt : ℚ) (s : Rig)
    (hc : 1 / 536870912 < to_float (CameraDeceleration_f32 * dt))
    (hframes : ∀ i, (frames i).delta_time = dt ∧ (frames i).keys.no_direction) (n : ℕ)
    (hn : rest_frames_f32 dt ≤ n) :
    (run_frames_f32 m frames n s).ctrl.v = 0 ∧
    (run_frames_f32 m frames n s).ctrl.v_h = 0 ∧
    (run_frames_f32 m frames n s).ctrl.r
      = (run_frames_f32 m frames (rest_frames_f32 dt) s).ctrl.r ∧
    (run_frames_f32 m frames n s).ctrl.h
      = (run_frames_f32 m frames (rest_frames_f32 dt) s).ctrl.h ∧
    (run_frames_f32 m frames n s).ctrl.d
      = (run_frames_f32 m frames (rest_frames_f32 dt) s).ctrl.d := by
  obtain ⟨hv, hvh⟩ := at_rest_from_f32 m frames dt s hc hframes n hn
  refine ⟨hv, hvh, ?_⟩
  have h1 : 1 ≤ rest_frames_f32 dt := by unfold rest_frames_f32; omega
  induction n, hn using Nat.le_induction with
  | base => exact ⟨rfl, rfl, rfl⟩
  | succ k hk ih =>
    obtain ⟨hv0, hvh0⟩ := at_rest_from_f32 m frames dt s hc hframes k hk
    obtain ⟨ihr, ihh, ihd⟩ := ih hv0 hvh0
    obtain ⟨j, rfl⟩ : ∃ j, k = j + 1 := ⟨k - 1, by omega⟩
    simp only [run_frames_f32] at hv hvh ihr ihh ihd ⊢
    obtain ⟨pr, ph, pd⟩ := rest_keeps_position_f32 m (frames j) (frames (j + 1))
      (run_frames_f32 m frames j s) hv hvh
    exact ⟨pr.trans ihr, ph.trans ihh, pd.trans ihd⟩

/-! ## Coming to rest: the bound of exact arithmetic and the float code -/

/-- One frame without keys and without the modifier, evaluated: `c` is the rounded
product, `w` the rounded difference, `r` the speed after the cap. -/
theorem run_frames_f32_v_eval (m : Trig) (frames : ℕ → Frame) (n : ℕ) (s : Rig)
    (c v x w r : ℚ) (hn : (run_frames_f32 m frames n s).ctrl.v = v)
    (hk : (frames n).keys.no_direction) (hs : (frames n).keys.key_shift = false)
    (hc : to_float (CameraDeceleration_f32 * (frames n).delta_time) = c)
    (hv : 0 < v) (hx : v - c = x)
    (hw : to_float x = w) (h0 : 0 ≤ w) (hwv : w ≤ v)
    (hr : min w (13421773 / 268435456) = r) :
    (run_frames_f32 m frames (n + 1) s).ctrl.v = r := by
  have h2 : ¬ w < 0 := not_lt.mpr h0
  rw [run_frames_f32_v m frames n s hk, hn, hs]
  simp only [decelerate_camera_f32, glm_clamp_eq, gt_iff_lt, hv, if_true, hc, hx, hw,
    max_eq_left h0, min_eq_left hwv, h2, if_false, max_speed_of_f32, Bool.false_eq_true,
    CameraMaxSpeed_f32_eq]
  rw [max_eq_left (by linarith), hr]

/-- With `delta_time = 2 ^ (-26)` the rounded difference `0.05f - float(0.1f * delta_time)`
is `0.05f` again: the speed `0.05f` is not reduced, in any number of frames. -/
theorem tiny_frames_keep_speed (m : Trig) (s : Rig) (n : ℕ)
    (hv : s.ctrl.v = 13421773 / 268435456) :
    (run_frames_f32 m (fun _ => ⟨1 / 67108864, 0, ⟨false, false, false, false, false, false, false⟩⟩) n s).ctrl.v
      = 13421773 / 268435456 := by
  induction n with
  | zero => exact hv
  | succ k ih =>
    exact run_frames_f32_v_eval m _ k s (13421773 / 9007199254740992)
      (13421773 / 268435456) (450359956026163 / 9007199254740992)
      (13421773 / 268435456) (13421773 / 268435456) ih
      ⟨rfl, rfl, rfl, rfl⟩ rfl
      (by
        show to_float (CameraDeceleration_f32 * (1 / 67108864)) = _
        rw [CameraDeceleration_f32_eq,
          show (13421773 / 134217728 : ℚ) * (1 / 67108864) = 13421773 / 9007199254740992 by
            norm_num]
        exact to_float_decrement_tiny)
      (by norm_num) (by norm_num) to_float_absorbed
      (by norm_num) (by norm_num) (by norm_num)

/-- C2, refuted as stated, in the float arithmetic of the program.  At the frame time
of `set_target_fps(60)`, `delta_time = float(1 / 60)`, the bound is
`1 + ⌈0.05 / (0.1 * delta_time)⌉ = 31`; with
no key held and starting from `v = 1`, the velocity at frame 31 is `57 / 2 ^ 32`
(about `1.3e-8`), not `0`.  At `delta_time = 2 ^ (-26)` the bound is `33554433`; starting
from `v = 0.05f`, the velocity at that frame is still `0.05f`. -/
theorem rest_bound_fails_in_float :
    rest_frames (to_float (1 / 60)) = 31 ∧
    (run_frames_f32 ⟨fun _ => 0, fun _ => 0⟩
        (fun _ => ⟨to_float (1 / 60), 0, ⟨false, false, false, false, false, false, false⟩⟩) 31
        ⟨⟨0, 1, 0, 6, 8, 0⟩, ⟨0, 0, 0, 0, 0, 0⟩, 1⟩).ctrl.v = 57 / 4294967296 ∧
    rest_frames (1 / 67108864) = 33554433 ∧
    (run_frames_f32 ⟨fun _ => 0, fun _ => 0⟩
        (fun _ => ⟨1 / 67108864, 0, ⟨false, false, false, false, false, false, false⟩⟩)
        (rest_frames (1 / 67108864))
        ⟨⟨0, to_float (5 / 100), 0, 6, 8, 0⟩, ⟨0, 0, 0, 0, 0, 0⟩, 1⟩).ctrl.v
      = 13421773 / 268435456 := by
  have hC : to_float (CameraDeceleration_f32 * to_float (1 / 60)) = 14316559 / 8589934592 := by
    rw [CameraDeceleration_f32_eq, to_float_sixtieth,
      show (13421773 / 134217728 : ℚ) * (8947849 / 536870912) = 120095998116277 / 72057594037927936 by
        norm_num]
    exact to_float_decrement_sixtieth
  have h0 : (run_frames_f32 ⟨fun _ => 0, fun _ => 0⟩
      (fun _ => ⟨to_float (1 / 60), 0, ⟨false, false, false, false, false, false, false⟩⟩) 0
      ⟨⟨0, 1, 0, 6, 8, 0⟩, ⟨0, 0, 0, 0, 0, 0⟩, 1⟩).ctrl.v = 1 := rfl
  have h1 := run_frames_f32_v_eval _ _ 0 _ _ _ (8575618033 / 8589934592) (8374627 / 8388608) (13421773 / 268435456)
    h0 ⟨rfl, rfl, rfl, rfl⟩ rfl hC (by norm_num) (by norm_num)
    (by rw [to_float, round_binary_of_near 24 (-126) _ (-1) 16749254 (by norm_num [abs_of_pos])
        (by norm_num [abs_of_pos]) (by norm_num) (by norm_num) (by norm_num)]; norm_num)
    (by norm_num) (by norm_num) (by norm_num)
  have h2 := run_frames_f32_v_eval _ _ 1 _ _ _ (415180177 / 8589934592) (12974381 / 268435456) (12974381 / 268435456)
    h1 ⟨rfl, rfl, rfl, rfl⟩ rfl hC (by norm_num) (by norm_num)
    (by rw [to_float, round_binary_of_near 24 (-126) _ (-5) 12974381 (by norm_num [abs_of_pos])
        (by norm_num [abs_of_pos]) (by norm_num) (by norm_num) (by norm_num)]; norm_num)
    (by norm_num) (by norm_num) (by norm_num)
  have h3 := run_frames_f32_v_eval _ _ 2 _ _ _ (400863633 / 8589934592) (12526989 / 268435456) (12526989 / 268435456)
    h2 ⟨rfl, rfl, rfl, rfl⟩ rfl hC (by norm_num) (by norm_num)
    (by rw [to_float, round_binary_of_near 24 (-126) _ (-5) 12526989 (by norm_num [abs_of_pos])
        (by norm_num [abs_of_pos]) (by norm_num) (by norm_num) (by norm_num)]; norm_num)
    (by norm_num) (by norm_num) (by norm_num)
  have h4 := run_frames_f32_v_eval _ _ 3 _ _ _ (386547089 / 8589934592) (12079597 / 268435456) (12079597 / 268435456)
    h3 ⟨rfl, rfl, rfl, rfl⟩ rfl hC (by norm_num) (by norm_num)
    (by rw [to_float, round_binary_of_near 24 (-126) _ (-5) 12079597 (by norm_num [abs_of_pos])
        (by norm_num [abs_of_pos]) (by norm_num) (by norm_num) (by norm_num)]; norm_num)
    (by norm_num) (by norm_num) (by norm_num)
  have h5 := run_frames_f32_v_eval _ _ 4 _ _ _ (372230545 / 8589934592) (11632205 / 268435456) (11632205 / 268435456)
    h4 ⟨rfl, rfl, rfl, rfl⟩ rfl hC (by norm_num) (by norm_num)
    (by rw [to_float, round_binary_of_near 24 (-126) _ (-5) 11632205 (by norm_num [abs_of_pos])
        (by norm_num [abs_of_pos]) (by norm_num) (by norm_num) (by norm_num)]; norm_num)
    (by norm_num) (by norm_num) (by norm_num)
  have h6 := run_frames_f32_v_eval _ _ 5 _ _ _ (357914001 / 8589934592) (11184813 / 268435456) (11184813 / 268435456)
    h5 ⟨rfl, rfl, rfl, rfl⟩ rfl hC (by norm_num) (by norm_num)
    (by rw [to_float, round_binary_of_near 24 (-126) _ (-5) 11184813 (by norm_num [abs_of_pos])
        (by norm_num [abs_of_pos]) (by norm_num) (by norm_num) (by norm_num)]; norm_num)
    (by norm_num) (by norm_num) (by norm_num)
  have h7 := run_frames_f32_v_eval _ _ 6 _ _ _ (343597457 / 8589934592) (10737421 / 268435456) (10737421 / 268435456)
    h6 ⟨rfl, rfl, rfl, rfl⟩ rfl hC (by norm_num) (by norm_num)
    (by rw [to_float, round_binary_of_near 24 (-126) _ (-5) 10737421 (by norm_num [abs_of_pos])
        (by norm_num [abs_of_pos]) (by norm_num) (by norm_num) (by norm_num)]; norm_num)
    (by norm_num) (by norm_num) (by norm_num)
  have h8 := run_frames_f32_v_eval _ _ 7 _ _ _ (329280913 / 8589934592) (10290029 / 268435456) (10290029 / 268435456)
    h7 ⟨rfl, rfl, rfl, rfl⟩ rfl hC (by norm_num) (by norm_num)
    (by rw [to_float, round_binary_of_near 24 (-126) _ (-5) 10290029 (by norm_num [abs_of_pos])
        (by norm_num [abs_of_pos]) (by norm_num) (by norm_num) (by norm_num)]; norm_num)
    (by norm_num) (by norm_num) (by norm_num)
  have h9 := run_frames_f32_v_eval _ _ 8 _ _ _ (314964369 / 8589934592) (9842637 / 268435456) (9842637 / 268435456)
    h8 ⟨rfl, rfl, rfl, rfl⟩ rfl hC (by norm_num) (by norm_num)
    (by rw [to_float, round_binary_of_near 24 (-126) _ (-5) 9842637 (by norm_num [abs_of_pos])
        (by norm_num [abs_of_pos]) (by norm_num) (by norm_num) (by norm_num)]; norm_num)
    (by norm_num) (by norm_num) (by norm_num)
  have h10 := run_frames_f32_v_eval _ _ 9 _ _ _ (300647825 / 8589934592) (9395245 / 268435456) (9395245 / 268435456)
    h9 ⟨rfl, rfl, rfl, rfl⟩ rfl hC (by norm_num) (by norm_num)
    (by rw [to_float, round_binary_of_near 24 (-126) _ (-5) 9395245 (by norm_num [abs_of_pos])
        (by norm_num [abs_of_pos]) (by norm_num) (by norm_num) (by norm_num)]; norm_num)
    (by norm_num) (by norm_num) (by norm_num)
  have h11 := run_frames_f32_v_eval _ _ 10 _ _ _ (286331281 / 8589934592) (8947853 / 268435456) (8947853 / 268435456)
    h10 ⟨rfl, rfl, rfl, rfl⟩ rfl hC (by norm_num) (by norm_num)
    (by rw [to_float, round_binary_of_near 24 (-126) _ (-5) 8947853 (by norm_num [abs_of_pos])
        (by norm_num [abs_of_pos]) (by norm_num) (by norm_num) (by norm_num)]; norm_num)
    (by norm_num) (by norm_num) (by norm_num)
  have h12 := run_frames_f32_v_eval _ _ 11 _ _ _ (272014737 / 8589934592) (8500461 / 268435456) (8500461 / 268435456)
    h11 ⟨rfl, rfl, rfl, rfl⟩ rfl hC (by norm_num) (by norm_num)
    (by rw [to_float, round_binary_of_near 24 (-126) _ (-5) 8500461 (by norm_num [abs_of_pos])
        (by norm_num [abs_of_pos]) (by norm_num) (by norm_num) (by norm_num)]; norm_num)
    (by norm_num) (by norm_num) (by norm_num)
  have h13 := run_frames_f32_v_eval _ _ 12 _ _ _ (257698193 / 8589934592) (16106137 / 536870912) (16106137 / 536870912)
    h12 ⟨rfl, rfl, rfl, rfl⟩ rfl hC (by norm_num) (by norm_num)
    (by rw [to_float, round_binary_of_near 24 (-126) _ (-6) 16106137 (by norm_num [abs_of_pos])
        (by norm_num [abs_of_pos]) (by norm_num) (by norm_num) (by norm_num)]; norm_num)
    (by norm_num) (by norm_num) (by norm_num)
  have h14 := run_frames_f32_v_eval _ _ 13 _ _ _ (243381633 / 8589934592) (1901419 / 67108864) (1901419 / 67108864)
    h13 ⟨rfl, rfl, rfl, rfl⟩ rfl hC (by norm_num) (by norm_num)
    (by rw [to_float, round_binary_of_near 24 (-126) _ (-6) 15211352 (by norm_num [abs_of_pos])
        (by norm_num [abs_of_pos]) (by norm_num) (by norm_num) (by norm_num)]; norm_num)
    (by norm_num) (by norm_num) (by norm_num)
  have h15 := run_frames_f32_v_eval _ _ 14 _ _ _ (229065073 / 8589934592) (14316567 / 536870912) (14316567 / 536870912)
    h14 ⟨rfl, rfl, rfl, rfl⟩ rfl hC (by norm_num) (by norm_num)
    (by rw [to_float, round_binary_of_near 24 (-126) _ (-6) 14316567 (by norm_num [abs_of_pos])
        (by norm_num [abs_of_pos]) (by norm_num) (by norm_num) (by norm_num)]; norm_num)
    (by norm_num) (by norm_num) (by norm_num)
  have h16 := run_frames_f32_v_eval _ _ 15 _ _ _ (214748513 / 8589934592) (6710891 / 268435456) (6710891 / 268435456)
    h15 ⟨rfl, rfl, rfl, rfl⟩ rfl hC (by norm_num) (by norm_num)
    (by rw [to_float, round_binary_of_near 24 (-126) _ (-6) 13421782 (by norm_num [abs_of_pos])
        (by norm_num [abs_of_pos]) (by norm_num) (by norm_num) (by norm_num)]; norm_num)
    (by norm_num) (by norm_num) (by norm_num)
  have h17 := run_frames_f32_v_eval _ _ 16 _ _ _ (200431953 / 8589934592) (12526997 / 536870912) (12526997 / 536870912)
    h16 ⟨rfl, rfl, rfl, rfl⟩ rfl hC (by norm_num) (by norm_num)
    (by rw [to_float, round_binary_of_near 24 (-126) _ (-6) 12526997 (by norm_num [abs_of_pos])
        (by norm_num [abs_of_pos]) (by norm_num) (by norm_num) (by norm_num)]; norm_num)
    (by norm_num) (by norm_num) (by norm_num)
  have h18 := run_frames_f32_v_eval _ _ 17 _ _ _ (186115393 / 8589934592) (2908053 / 134217728) (2908053 / 134217728)
    h17 ⟨rfl, rfl, rfl, rfl⟩ rfl hC (by norm_num) (by norm_num)
    (by rw [to_float, round_binary_of_near 24 (-126) _ (-6) 11632212 (by norm_num [abs_of_pos])
        (by norm_num [abs_of_pos]) (by norm_num) (by norm_num) (by norm_num)]; norm_num)
    (by norm_num) (by norm_num) (by norm_num)
  have h19 := run_frames_f32_v_eval _ _ 18 _ _ _ (171798833 / 8589934592) (10737427 / 536870912) (10737427 / 536870912)
    h18 ⟨rfl, rfl, rfl, rfl⟩ rfl hC (by norm_num) (by norm_num)
    (by rw [to_float, round_binary_of_near 24 (-126) _ (-6) 10737427 (by norm_num [abs_of_pos])
        (by norm_num [abs_of_pos]) (by norm_num) (by norm_num) (by norm_num)]; norm_num)
    (by norm_num) (by norm_num) (by norm_num)
  have h20 := run_frames_f32_v_eval _ _ 19 _ _ _ (157482273 / 8589934592) (4921321 / 268435456) (4921321 / 268435456)
    h19 ⟨rfl, rfl, rfl, rfl⟩ rfl hC (by norm_num) (by norm_num)
    (by rw [to_float, round_binary_of_near 24 (-126) _ (-6) 9842642 (by norm_num [abs_of_pos])
        (by norm_num [abs_of_pos]) (by norm_num) (by norm_num) (by norm_num)]; norm_num)
    (by norm_num) (by norm_num) (by norm_num)
  have h21 := run_frames_f32_v_eval _ _ 20 _ _ _ (143165713 / 8589934592) (8947857 / 536870912) (8947857 / 536870912)
    h20 ⟨rfl, rfl, rfl, rfl⟩ rfl hC (by norm_num) (by norm_num)
    (by rw [to_float, round_binary_of_near 24 (-126) _ (-6) 8947857 (by norm_num [abs_of_pos])
        (by norm_num [abs_of_pos]) (by norm_num) (by norm_num) (by norm_num)]; norm_num)
    (by norm_num) (by norm_num) (by norm_num)
  have h22 := run_frames_f32_v_eval _ _ 21 _ _ _ (128849153 / 8589934592) (503317 / 33554432) (503317 / 33554432)
    h21 ⟨rfl, rfl, rfl, rfl⟩ rfl hC (by norm_num) (by norm_num)
    (by rw [to_float, round_binary_of_near 24 (-126) _ (-7) 16106144 (by norm_num [abs_of_pos])
        (by norm_num [abs_of_pos]) (by norm_num) (by norm_num) (by norm_num)]; norm_num)
    (by norm_num) (by norm_num) (by norm_num)
  have h23 := run_frames_f32_v_eval _ _ 22 _ _ _ (114532593 / 8589934592) (7158287 / 536870912) (7158287 / 536870912)
    h22 ⟨rfl, rfl, rfl, rfl⟩ rfl hC (by norm_num) (by norm_num)
    (by rw [to_float, round_binary_of_near 24 (-126) _ (-7) 14316574 (by norm_num [abs_of_pos])
        (by norm_num [abs_of_pos]) (by norm_num) (by norm_num) (by norm_num)]; norm_num)
    (by norm_num) (by norm_num) (by norm_num)
  have h24 := run_frames_f32_v_eval _ _ 23 _ _ _ (100216033 / 8589934592) (3131751 / 268435456) (3131751 / 268435456)
    h23 ⟨rfl, rfl, rfl, rfl⟩ rfl hC (by norm_num) (by norm_num)
    (by rw [to_float, round_binary_of_near 24 (-126) _ (-7) 12527004 (by norm_num [abs_of_pos])
        (by norm_num [abs_of_pos]) (by norm_num) (by norm_num) (by norm_num)]; norm_num)
    (by norm_num) (by norm_num) (by norm_num)
  have h25 := run_frames_f32_v_eval _ _ 24 _ _ _ (85899473 / 8589934592) (5368717 / 536870912) (5368717 / 536870912)
    h24 ⟨rfl, rfl, rfl, rfl⟩ rfl hC (by norm_num) (by norm_num)
    (by rw [to_float, round_binary_of_near 24 (-126) _ (-7) 10737434 (by norm_num [abs_of_pos])
        (by norm_num [abs_of_pos]) (by norm_num) (by norm_num) (by norm_num)]; norm_num)
    (by norm_num) (by norm_num) (by norm_num)
  have h26 := run_frames_f32_v_eval _ _ 25 _ _ _ (71582913 / 8589934592) (1118483 / 134217728) (1118483 / 134217728)
    h25 ⟨rfl, rfl, rfl, rfl⟩ rfl hC (by norm_num) (by norm_num)
    (by rw [to_float, round_binary_of_near 24 (-126) _ (-7) 8947864 (by norm_num [abs_of_pos])
        (by norm_num [abs_of_pos]) (by norm_num) (by norm_num) (by norm_num)]; norm_num)
    (by norm_num) (by norm_num) (by norm_num)
  have h27 := run_frames_f32_v_eval _ _ 26 _ _ _ (57266353 / 8589934592) (3579147 / 536870912) (3579147 / 536870912)
    h26 ⟨rfl, rfl, rfl, rfl⟩ rfl hC (by norm_num) (by norm_num)
    (by rw [to_float, round_binary_of_near 24 (-126) _ (-8) 14316588 (by norm_num [abs_of_pos])
        (by norm_num [abs_of_pos]) (by norm_num) (by norm_num) (by norm_num)]; norm_num)
    (by norm_num) (by norm_num) (by norm_num)
  have h28 := run_frames_f32_v_eval _ _ 27 _ _ _ (42949793 / 8589934592) (1342181 / 268435456) (1342181 / 268435456)
    h27 ⟨rfl, rfl, rfl, rfl⟩ rfl hC (by norm_num) (by norm_num)
    (by rw [to_float, round_binary_of_near 24 (-126) _ (-8) 10737448 (by norm_num [abs_of_pos])
        (by norm_num [abs_of_pos]) (by norm_num) (by norm_num) (by norm_num)]; norm_num)
    (by norm_num) (by norm_num) (by norm_num)
  have h29 := run_frames_f32_v_eval _ _ 28 _ _ _ (28633233 / 8589934592) (1789577 / 536870912) (1789577 / 536870912)
    h28 ⟨rfl, rfl, rfl, rfl⟩ rfl hC (by norm_num) (by norm_num)
    (by rw [to_float, round_binary_of_tie 24 (-126) _ (-9) 14316616 (by norm_num [abs_of_pos])
        (by norm_num [abs_of_pos]) (by norm_num) (by norm_num)]; norm_num)
    (by norm_num) (by norm_num) (by norm_num)
  have h30 := run_frames_f32_v_eval _ _ 29 _ _ _ (14316673 / 8589934592) (14316673 / 8589934592) (14316673 / 8589934592)
    h29 ⟨rfl, rfl, rfl, rfl⟩ rfl hC (by norm_num) (by norm_num)
    (by rw [to_float, round_binary_of_near 24 (-126) _ (-10) 14316673 (by norm_num [abs_of_pos])
        (by norm_num [abs_of_pos]) (by norm_num) (by norm_num) (by norm_num)]; norm_num)
    (by norm_num) (by norm_num) (by norm_num)
  have h31 := run_frames_f32_v_eval _ _ 30 _ _ _ (57 / 4294967296) (57 / 4294967296) (57 / 4294967296)
    h30 ⟨rfl, rfl, rfl, rfl⟩ rfl hC (by norm_num) (by norm_num)
    (by rw [to_float, round_binary_of_near 24 (-126) _ (-27) 14942208 (by norm_num [abs_of_pos])
        (by norm_num [abs_of_pos]) (by norm_num) (by norm_num) (by norm_num)]; norm_num)
    (by norm_num) (by norm_num) (by norm_num)
  refine ⟨?_, h31, ?_, ?_⟩
  · rw [rest_frames, to_float_sixtieth]
    have e : ⌈(5 / 100 : ℚ) / (1 / 10 * (8947849 / 536870912))⌉₊ = 30 := by
      rw [Nat.ceil_eq_iff (by norm_num)]
      constructor <;> norm_num
    rw [e]
  · rw [rest_frames]
    have e : ⌈(5 / 100 : ℚ) / (1 / 10 * (1 / 67108864))⌉₊ = 33554432 := by
      rw [Nat.ceil_eq_iff (by norm_num)]
      constructor <;> norm_num
    rw [e]
  · exact tiny_frames_keep_speed _ _ _
      (by show to_float (5 / 100) = _; rw [← CameraMaxSpeed_f32, CameraMaxSpeed_f32_eq])

/-- C2, amended.  With a fixed `delta_time` and none of the four directional keys held
(the modifier may be held or not, frame by frame):

* in the float arithmetic of the program, `|v|` and `|v_h|` never increase from one
  frame to the next, whatever `delta_time` is;
* in float arithmetic, when the rounded product `c = float(0.1f * delta_time)` exceeds
  `2 ^ (-29)`, both velocities are `0` from frame `1 + ⌈0.05f / (c - 2 ^ (-29))⌉` on and
  `r`, `h`, `d` keep the values they have at that frame;
* in exact arithmetic, for `delta_time > 0`, the speeds never increase, and from frame
  `1 + ⌈0.05 / (0.1 * delta_time)⌉` on both velocities are `0` and `r`, `h`, `d` keep the
  values they have at that frame. -/
theorem no_input_comes_to_rest (m : Trig) (frames : ℕ → Frame) (delta_time : ℚ) (s : Rig)
    (hframes : ∀ i, (frames i).delta_time = delta_time ∧ (frames i).keys.no_direction) :
    (∀ n, |(run_frames_f32 m frames (n + 1) s).ctrl.v|
          ≤ |(run_frames_f32 m frames n s).ctrl.v| ∧
        |(run_frames_f32 m frames (n + 1) s).ctrl.v_h|
          ≤ |(run_frames_f32 m frames n s).ctrl.v_h|) ∧
    (1 / 536870912 < to_float (CameraDeceleration_f32 * delta_time) →
      ∀ n, rest_frames_f32 delta_time ≤ n →
        (run_frames_f32 m frames n s).ctrl.v = 0 ∧
        (run_frames_f32 m frames n s).ctrl.v_h = 0 ∧
        (run_frames_f32 m frames n s).ctrl.r
          = (run_frames_f32 m frames (rest_frames_f32 delta_time) s).ctrl.r ∧
        (run_frames_f32 m frames n s).ctrl.h
          = (run_frames_f32 m frames (rest_frames_f32 delta_time) s).ctrl.h ∧
        (run_frames_f32 m frames n s).ctrl.d
          = (run_frames_f32 m frames (rest_frames_f32 delta_time) s).ctrl.d) ∧
    (0 < delta_time →
      (∀ n, |(run_frames m frames (n + 1) s).ctrl.v| ≤ |(run_frames m frames n s).ctrl.v| ∧
          |(run_frames m frames (n + 1) s).ctrl.v_h|
            ≤ |(run_frames m frames n s).ctrl.v_h|) ∧
      (∀ n, rest_frames delta_time ≤ n →
          (run_frames m frames n s).ctrl.v = 0 ∧
          (run_frames m frames n s).ctrl.v_h = 0 ∧
          (run_frames m frames n s).ctrl.r
            = (run_frames m frames (rest_frames delta_time) s).ctrl.r ∧
          (run_frames m frames n s).ctrl.h
            = (run_frames m frames (rest_frames delta_time) s).ctrl.h ∧
          (run_frames m frames n s).ctrl.d
            = (run_frames m frames (rest_frames delta_time) s).ctrl.d)) := by
  refine ⟨fun n => ?_, fun hc n hn => no_input_rest_f32 m frames delta_time s hc hframes n hn,
    fun hdt => no_input_rest_exact m frames delta_time s hdt hframes⟩
  have hb := step_speed_bound_f32 m (frames n) (run_frames_f32 m frames n s) (hframes n).2
  simp only [run_frames_f32]
  exact ⟨hb.1.1, hb.2.1⟩

/-- C2 amended, at the frame time of `set_target_fps(60)`: `delta_time = float(1 / 60)`, no key
held in any frame, starting from `v = 1`.  The first frame does not raise `|v|`; the
float bound is `rest_frames_f32 = 32` and at frame 32 the velocity is `0` in float
arithmetic; in exact arithmetic it is `0` at frame `rest_frames`. -/
theorem no_input_comes_to_rest_witness :
    |(run_frames_f32 ⟨fun _ => 0, fun _ => 0⟩ (fun _ => ⟨to_float (1 / 60), 0, ⟨false, false, false, false, false, false, false⟩⟩) (0 + 1) ⟨⟨0, 1, 0, 6, 8, 0⟩, ⟨0, 0, 0, 0, 0, 0⟩, 1⟩).ctrl.v|
        ≤ |(run_frames_f32 ⟨fun _ => 0, fun _ => 0⟩ (fun _ => ⟨to_float (1 / 60), 0, ⟨false, false, false, false, false, false, false⟩⟩) 0 ⟨⟨0, 1, 0, 6, 8, 0⟩, ⟨0, 0, 0, 0, 0, 0⟩, 1⟩).ctrl.v| ∧
    rest_frames_f32 (to_float (1 / 60)) = 32 ∧
    (run_frames_f32 ⟨fun _ => 0, fun _ => 0⟩ (fun _ => ⟨to_float (1 / 60), 0, ⟨false, false, false, false, false, false, false⟩⟩) 32 ⟨⟨0, 1, 0, 6, 8, 0⟩, ⟨0, 0, 0, 0, 0, 0⟩, 1⟩).ctrl.v = 0 ∧
    (run_frames ⟨fun _ => 0, fun _ => 0⟩ (fun _ => ⟨to_float (1 / 60), 0, ⟨false, false, false, false, false, false, false⟩⟩) (rest_frames (to_float (1 / 60))) ⟨⟨0, 1, 0, 6, 8, 0⟩, ⟨0, 0, 0, 0, 0, 0⟩, 1⟩).ctrl.v = 0 :=
  have hC : to_float (CameraDeceleration_f32 * to_float (1 / 60)) = 14316559 / 8589934592 := by
    rw [CameraDeceleration_f32_eq, to_float_sixtieth,
      show (13421773 / 134217728 : ℚ) * (8947849 / 536870912) = 120095998116277 / 72057594037927936 by
        norm_num]
    exact to_float_decrement_sixtieth
  have hN : rest_frames_f32 (to_float (1 / 60)) = 32 := by
    rw [rest_frames_f32, hC, CameraMaxSpeed_f32_eq]
    have e : ⌈(13421773 / 268435456 : ℚ) / (14316559 / 8589934592 - 1 / 536870912)⌉₊ = 31 := by
      rw [Nat.ceil_eq_iff (by norm_num)]
      constructor <;> norm_num
    rw [e]
  have h := no_input_comes_to_rest ⟨fun _ => 0, fun _ => 0⟩ (fun _ => ⟨to_float (1 / 60), 0, ⟨false, false, false, false, false, false, false⟩⟩) (to_float (1 / 60)) ⟨⟨0, 1, 0, 6, 8, 0⟩, ⟨0, 0, 0, 0, 0, 0⟩, 1⟩
    (fun _ => ⟨rfl, rfl, rfl, rfl, rfl⟩)
  ⟨(h.1 0).1, hN,
    (h.2.1 (by rw [hC]; norm_num) 32 (le_of_eq hN)).1,
    ((h.2.2 (by rw [to_float_sixtieth]; norm_num)).2 _ le_rfl).1⟩

/-! ## The integrator step in float arithmetic -/

theorem MoveCamera_f32_v (m : Trig) (it : Frame) (s : Rig) :
    (MoveCamera_f32 m it s).ctrl.v
      = decelerate_camera_f32
          (accelerate_f32 it.keys.key_d it.keys.key_a it.delta_time s.ctrl.v)
          it.delta_time (max_speed_of_f32 it.keys.key_shift) := by
  rw [MoveCamera_f32_ctrl]

theorem MoveCamera_f32_v_h (m : Trig) (it : Frame) (s : Rig) :
    (MoveCamera_f32 m it s).ctrl.v_h
      = decelerate_camera_f32
          (accelerate_f32 it.keys.key_s it.keys.key_w it.delta_time s.ctrl.v_h)
          it.delta_time (max_speed_of_f32 it.keys.key_shift) := by
  rw [MoveCamera_f32_ctrl]

theorem max_speed_of_f32_eq (key_shift : Bool) :
    max_speed_of_f32 key_shift
      = if key_shift then to_float (CameraMaxSpeed_f32 / 8) else CameraMaxSpeed_f32 := rfl

theorem accelerate_f32_both (dt v : ℚ) :
    accelerate_f32 true true dt v
      = to_float (to_float (v - to_float (CameraAcceleration_f32 * dt))
          + to_float (CameraAcceleration_f32 * dt)) := by
  simp [accelerate_f32]

/-- With at most one key of a pair held, the two key tests give the sum
`v + a * ([plus] - [minus])` of the closed form, evaluated in float arithmetic. -/
theorem accelerate_f32_eq (key_minus key_plus : Bool) (dt v : ℚ) (hv : to_float v = v)
    (hk : ¬ (key_minus = true ∧ key_plus = true)) :
    accelerate_f32 key_minus key_plus dt v
      = to_float (v + to_float (to_float (CameraAcceleration_f32 * dt)
          * (held key_plus - held key_minus))) := by
  cases key_minus <;> cases key_plus
  · simp [accelerate_f32, held, to_float_zero, hv]
  · simp [accelerate_f32, held, to_float_idem]
  · simp only [accelerate_f32, held, if_true, Bool.false_eq_true, if_false, zero_sub, mul_neg,
      mul_one]
    rw [show to_float (-to_float (CameraAcceleration_f32 * dt))
        = -to_float (to_float (CameraAcceleration_f32 * dt)) from round_binary_neg _ _ _,
      to_float_idem, sub_eq_add_neg]
  · exact absurd ⟨rfl, rfl⟩ hk

/-- C12, refuted as stated, in the float arithmetic of the program.  From `v = 0.05f`
with `delta_time = float(0.016)`: with D and A both held the step gives
`v' = 12992277 / 2 ^ 28` (about `0.04840000346`), with neither held it gives
`v' = 3248069 / 2 ^ 26` (about `0.04839999974`): subtracting and adding the rounded
`0.2f * delta_time` does not give `v` back. -/
theorem both_keys_differ_in_float :
    (MoveCamera_f32 ⟨fun _ => 0, fun _ => 0⟩ ⟨to_float (16 / 1000), 0, ⟨true, true, false, false, false, false, false⟩⟩
        ⟨⟨0, to_float (5 / 100), 0, 6, 8, 0⟩, ⟨0, 0, 0, 0, 0, 0⟩, 1⟩).ctrl.v = 12992277 / 268435456 ∧
    (MoveCamera_f32 ⟨fun _ => 0, fun _ => 0⟩ ⟨to_float (16 / 1000), 0, ⟨false, false, false, false, false, false, false⟩⟩
        ⟨⟨0, to_float (5 / 100), 0, 6, 8, 0⟩, ⟨0, 0, 0, 0, 0, 0⟩, 1⟩).ctrl.v = 3248069 / 67108864 ∧
    (MoveCamera_f32 ⟨fun _ => 0, fun _ => 0⟩ ⟨to_float (16 / 1000), 0, ⟨true, true, false, false, false, false, false⟩⟩
        ⟨⟨0, to_float (5 / 100), 0, 6, 8, 0⟩, ⟨0, 0, 0, 0, 0, 0⟩, 1⟩).ctrl.v
      ≠ (MoveCamera_f32 ⟨fun _ => 0, fun _ => 0⟩ ⟨to_float (16 / 1000), 0, ⟨false, false, false, false, false, false, false⟩⟩
        ⟨⟨0, to_float (5 / 100), 0, 6, 8, 0⟩, ⟨0, 0, 0, 0, 0, 0⟩, 1⟩).ctrl.v := by
  have hdt : to_float (16 / 1000) = 8589935 / 536870912 := by
    rw [show (16 / 1000 : ℚ) = 2 / 125 by norm_num]
    exact to_float_sixteen_ms
  have hv0 : to_float (5 / 100) = 13421773 / 268435456 := by
    rw [← CameraMaxSpeed_f32, CameraMaxSpeed_f32_eq]
  have ha : to_float (CameraAcceleration_f32 * (8589935 / 536870912)) = 1717987 / 536870912 := by
    rw [CameraAcceleration_f32_eq,
      show (13421773 / 67108864 : ℚ) * (8589935 / 536870912) = 115292157654755 / 36028797018963968 by norm_num]
    exact to_float_increment_sixteen_ms
  have hc : to_float (CameraDeceleration_f32 * (8589935 / 536870912)) = 1717987 / 1073741824 := by
    rw [CameraDeceleration_f32_eq,
      show (13421773 / 134217728 : ℚ) * (8589935 / 536870912) = 115292157654755 / 72057594037927936 by norm_num]
    exact to_float_decrement_sixteen_ms
  have hacc : accelerate_f32 true true (8589935 / 536870912) (13421773 / 268435456) = 6710887 / 134217728 := by
    rw [accelerate_f32_both, ha,
      show (13421773 / 268435456 : ℚ) - 1717987 / 536870912 = 25125559 / 536870912 by norm_num, to_float_after_d,
      show (3140695 / 67108864 : ℚ) + 1717987 / 536870912 = 26843547 / 536870912 by norm_num, to_float_after_d_a]
  have hboth : (MoveCamera_f32 ⟨fun _ => 0, fun _ => 0⟩ ⟨to_float (16 / 1000), 0, ⟨true, true, false, false, false, false, false⟩⟩
      ⟨⟨0, to_float (5 / 100), 0, 6, 8, 0⟩, ⟨0, 0, 0, 0, 0, 0⟩, 1⟩).ctrl.v = 12992277 / 268435456 := by
    rw [MoveCamera_f32_v]
    show decelerate_camera_f32 (accelerate_f32 true true (to_float (16 / 1000))
      (to_float (5 / 100))) (to_float (16 / 1000)) CameraMaxSpeed_f32 = _
    rw [hdt, hv0, hacc, CameraMaxSpeed_f32_eq]
    exact decelerate_camera_f32_pos _ _ _ _ (51969109 / 1073741824) _ (by norm_num) hc (by norm_num)
      to_float_both_keys (by norm_num) (by norm_num) (by norm_num)
  have hnone : (MoveCamera_f32 ⟨fun _ => 0, fun _ => 0⟩ ⟨to_float (16 / 1000), 0, ⟨false, false, false, false, false, false, false⟩⟩
      ⟨⟨0, to_float (5 / 100), 0, 6, 8, 0⟩, ⟨0, 0, 0, 0, 0, 0⟩, 1⟩).ctrl.v = 3248069 / 67108864 := by
    rw [MoveCamera_f32_v]
    show decelerate_camera_f32 (to_float (5 / 100)) (to_float (16 / 1000))
      CameraMaxSpeed_f32 = _
    rw [hdt, hv0, CameraMaxSpeed_f32_eq]
    exact decelerate_camera_f32_pos _ _ _ _ (51969105 / 1073741824) _ (by norm_num) hc (by norm_num)
      to_float_no_keys (by norm_num) (by norm_num) (by norm_num)
  refine ⟨hboth, hnone, ?_⟩
  rw [hboth, hnone]
  norm_num

/-- C12, amended.  One `MoveCamera` step in the float arithmetic of the program computes
`v' = decelerate_camera (a_v, delta_time, m)` and
`v_h' = decelerate_camera (a_vh, delta_time, m)`, where `a_v` is `v` after the D test and
then the A test, `a_vh` is `v_h` after the S test and then the W test, and `m = 0.05f`,
or `0.05f / 8` when the modifier is held; then `r' = r + v'`, `h' = h + v_h' * 2`,
`d' = d - v_h'`, each operation rounded to `float`.

* With at most one key of a pair held, the velocity after the two tests is
  `v + 0.2f * delta_time * ([plus] - [minus])` evaluated in float arithmetic.
* With both keys of a pair held it is `(v - a) + a` with `a = float(0.2f * delta_time)`,
  both operations rounded.
* A second step that agrees on `delta_time`, the modifier, the height keys and `v_h`,
  `h`, `d` gives the same `v_h'`, `h'`, `d'`, whatever its orbit keys and `v`; one that
  agrees on `delta_time`, the modifier, the orbit keys and `v`, `r` gives the same `v'`,
  `r'`.
* In exact arithmetic `v' = decelerate_camera (v + 0.2 * delta_time * ([A] - [D]),
  delta_time, m)`, likewise `v_h'`, with `m = 0.05` or `0.05 / 8`, and a pair of which
  both keys are in the same state adds nothing. -/
theorem MoveCamera_step (m m2 : Trig) (it it2 : Frame) (s s2 : Rig) :
    ((MoveCamera_f32 m it s).ctrl.v
        = decelerate_camera_f32
            (accelerate_f32 it.keys.key_d it.keys.key_a it.delta_time s.ctrl.v)
            it.delta_time
            (if it.keys.key_shift then to_float (CameraMaxSpeed_f32 / 8)
              else CameraMaxSpeed_f32) ∧
      (MoveCamera_f32 m it s).ctrl.v_h
        = decelerate_camera_f32
            (accelerate_f32 it.keys.key_s it.keys.key_w it.delta_time s.ctrl.v_h)
            it.delta_time
            (if it.keys.key_shift then to_float (CameraMaxSpeed_f32 / 8)
              else CameraMaxSpeed_f32) ∧
      (MoveCamera_f32 m it s).ctrl.r
        = to_float (s.ctrl.r + (MoveCamera_f32 m it s).ctrl.v) ∧
      (MoveCamera_f32 m it s).ctrl.h
        = to_float (s.ctrl.h + to_float ((MoveCamera_f32 m it s).ctrl.v_h * 2)) ∧
      (MoveCamera_f32 m it s).ctrl.d
        = to_float (s.ctrl.d - (MoveCamera_f32 m it s).ctrl.v_h)) ∧
    (∀ (key_minus key_plus : Bool) (v : ℚ), to_float v = v →
      ¬ (key_minus = true ∧ key_plus = true) →
      accelerate_f32 key_minus key_plus it.delta_time v
        = to_float (v + to_float (to_float (CameraAcceleration_f32 * it.delta_time)
            * (held key_plus - held key_minus)))) ∧
    (∀ v : ℚ, accelerate_f32 true true it.delta_time v
        = to_float (to_float (v - to_float (CameraAcceleration_f32 * it.delta_time))
            + to_float (CameraAcceleration_f32 * it.delta_time))) ∧
    (it2.delta_time = it.delta_time → it2.keys.key_shift = it.keys.key_shift →
      it2.keys.key_s = it.keys.key_s → it2.keys.key_w = it.keys.key_w →
      s2.ctrl.v_h = s.ctrl.v_h → s2.ctrl.h = s.ctrl.h → s2.ctrl.d = s.ctrl.d →
      (MoveCamera_f32 m2 it2 s2).ctrl.v_h = (MoveCamera_f32 m it s).ctrl.v_h ∧
      (MoveCamera_f32 m2 it2 s2).ctrl.h = (MoveCamera_f32 m it s).ctrl.h ∧
      (MoveCamera_f32 m2 it2 s2).ctrl.d = (MoveCamera_f32 m it s).ctrl.d) ∧
    (it2.delta_time = it.delta_time → it2.keys.key_shift = it.keys.key_shift →
      it2.keys.key_d = it.keys.key_d → it2.keys.key_a = it.keys.key_a →
      s2.ctrl.v = s.ctrl.v → s2.ctrl.r = s.ctrl.r →
      (MoveCamera_f32 m2 it2 s2).ctrl.v = (MoveCamera_f32 m it s).ctrl.v ∧
      (MoveCamera_f32 m2 it2 s2).ctrl.r = (MoveCamera_f32 m it s).ctrl.r) ∧
    ((MoveCamera m it s).ctrl.v
        = decelerate_camera
            (s.ctrl.v + 2 / 10 * it.delta_time * (held it.keys.key_a - held it.keys.key_d))
            it.delta_time (if it.keys.key_shift then 5 / 100 / 8 else 5 / 100) ∧
      (MoveCamera m it s).ctrl.v_h
        = decelerate_camera
            (s.ctrl.v_h + 2 / 10 * it.delta_time * (held it.keys.key_w - held it.keys.key_s))
            it.delta_time (if it.keys.key_shift then 5 / 100 / 8 else 5 / 100) ∧
      (it.keys.key_a = it.keys.key_d →
        (MoveCamera m it s).ctrl.v
          = decelerate_camera s.ctrl.v it.delta_time
              (if it.keys.key_shift then 5 / 100 / 8 else 5 / 100)) ∧
      (it.keys.key_w = it.keys.key_s →
        (MoveCamera m it s).ctrl.v_h
          = decelerate_camera s.ctrl.v_h it.delta_time
              (if it.keys.key_shift then 5 / 100 / 8 else 5 / 100))) := by
  have hp := step_position_f32 m it s
  have hp2 := step_position_f32 m2 it2 s2
  have hx := step_closed_form_exact m m2 it it2 s s2
  refine ⟨⟨by rw [MoveCamera_f32_v, max_speed_of_f32_eq],
      by rw [MoveCamera_f32_v_h, max_speed_of_f32_eq], hp.1, hp.2.1, hp.2.2⟩,
    fun km kp v hv hk => accelerate_f32_eq km kp _ v hv hk,
    fun v => accelerate_f32_both _ v, ?_, ?_,
    ⟨hx.1.1, hx.1.2.1, hx.2.2.2.1, hx.2.2.2.2⟩⟩
  · intro h1 h2 h3 h4 h5 h6 h7
    have e : (MoveCamera_f32 m2 it2 s2).ctrl.v_h = (MoveCamera_f32 m it s).ctrl.v_h := by
      rw [MoveCamera_f32_v_h, MoveCamera_f32_v_h, h1, h2, h3, h4, h5]
    exact ⟨e, by rw [hp2.2.1, hp.2.1, e, h6], by rw [hp2.2.2, hp.2.2, e, h7]⟩
  · intro h1 h2 h3 h4 h5 h6
    have e : (MoveCamera_f32 m2 it2 s2).ctrl.v = (MoveCamera_f32 m it s).ctrl.v := by
      rw [MoveCamera_f32_v, MoveCamera_f32_v, h1, h2, h3, h4, h5]
    exact ⟨e, by rw [hp2.1, hp.1, e, h6]⟩

/-- C12 amended, at a concrete pair of steps: both with `delta_time = 1/2` and W held, the
second one also with A and D held and coming from another `v` and `r`.  In float
arithmetic `v_h'`, `h'` and `d'` agree; with only the key that adds held, the velocity
`0` after the key tests is the closed form evaluated in float arithmetic; in exact
arithmetic the held pair A, D of the second step adds nothing to `v`. -/
theorem MoveCamera_step_witness :
    ((MoveCamera_f32 ⟨fun _ => 0, fun _ => 0⟩
          ⟨1 / 2, 0, ⟨true, true, false, true, false, false, false⟩⟩
          ⟨⟨4, 1 / 50, 1 / 100, 6, 8, 0⟩, ⟨0, 0, 0, 0, 0, 0⟩, 1⟩).ctrl.v_h
        = (MoveCamera_f32 ⟨fun _ => 0, fun _ => 0⟩
          ⟨1 / 2, 0, ⟨false, false, false, true, false, false, false⟩⟩
          ⟨⟨0, 0, 1 / 100, 6, 8, 0⟩, ⟨0, 0, 0, 0, 0, 0⟩, 1⟩).ctrl.v_h ∧
      (MoveCamera_f32 ⟨fun _ => 0, fun _ => 0⟩
          ⟨1 / 2, 0, ⟨true, true, false, true, false, false, false⟩⟩
          ⟨⟨4, 1 / 50, 1 / 100, 6, 8, 0⟩, ⟨0, 0, 0, 0, 0, 0⟩, 1⟩).ctrl.h
        = (MoveCamera_f32 ⟨fun _ => 0, fun _ => 0⟩
          ⟨1 / 2, 0, ⟨false, false, false, true, false, false, false⟩⟩
          ⟨⟨0, 0, 1 / 100, 6, 8, 0⟩, ⟨0, 0, 0, 0, 0, 0⟩, 1⟩).ctrl.h ∧
      (MoveCamera_f32 ⟨fun _ => 0, fun _ => 0⟩
          ⟨1 / 2, 0, ⟨true, true, false, true, false, false, false⟩⟩
          ⟨⟨4, 1 / 50, 1 / 100, 6, 8, 0⟩, ⟨0, 0, 0, 0, 0, 0⟩, 1⟩).ctrl.d
        = (MoveCamera_f32 ⟨fun _ => 0, fun _ => 0⟩
          ⟨1 / 2, 0, ⟨false, false, false, true, false, false, false⟩⟩
          ⟨⟨0, 0, 1 / 100, 6, 8, 0⟩, ⟨0, 0, 0, 0, 0, 0⟩, 1⟩).ctrl.d) ∧
    accelerate_f32 false true (1 / 2) 0
      = to_float (0 + to_float (to_float (CameraAcceleration_f32 * (1 / 2))
          * (held true - held false))) ∧
    (MoveCamera ⟨fun _ => 0, fun _ => 0⟩
        ⟨1 / 2, 0, ⟨true, true, false, true, false, false, false⟩⟩
        ⟨⟨4, 1 / 50, 1 / 100, 6, 8, 0⟩, ⟨0, 0, 0, 0, 0, 0⟩, 1⟩).ctrl.v
      = decelerate_camera (1 / 50) (1 / 2) (if false then 5 / 100 / 8 else 5 / 100) :=
  ⟨(MoveCamera_step ⟨fun _ => 0, fun _ => 0⟩ ⟨fun _ => 0, fun _ => 0⟩
      ⟨1 / 2, 0, ⟨false, false, false, true, false, false, false⟩⟩
      ⟨1 / 2, 0, ⟨true, true, false, true, false, false, false⟩⟩
      ⟨⟨0, 0, 1 / 100, 6, 8, 0⟩, ⟨0, 0, 0, 0, 0, 0⟩, 1⟩
      ⟨⟨4, 1 / 50, 1 / 100, 6, 8, 0⟩, ⟨0, 0, 0, 0, 0, 0⟩, 1⟩).2.2.2.1
      rfl rfl rfl rfl rfl rfl rfl,
    (MoveCamera_step ⟨fun _ => 0, fun _ => 0⟩ ⟨fun _ => 0, fun _ => 0⟩
      ⟨1 / 2, 0, ⟨false, false, false, true, false, false, false⟩⟩
      ⟨1 / 2, 0, ⟨true, true, false, true, false, false, false⟩⟩
      ⟨⟨0, 0, 1 / 100, 6, 8, 0⟩, ⟨0, 0, 0, 0, 0, 0⟩, 1⟩
      ⟨⟨4, 1 / 50, 1 / 100, 6, 8, 0⟩, ⟨0, 0, 0, 0, 0, 0⟩, 1⟩).2.1
      false true 0 to_float_zero (by simp),
    (MoveCamera_step ⟨fun _ => 0, fun _ => 0⟩ ⟨fun _ => 0, fun _ => 0⟩
      ⟨1 / 2, 0, ⟨true, true, false, true, false, false, false⟩⟩
      ⟨1 / 2, 0, ⟨false, false, false, true, false, false, false⟩⟩
      ⟨⟨4, 1 / 50, 1 / 100, 6, 8, 0⟩, ⟨0, 0, 0, 0, 0, 0⟩, 1⟩
      ⟨⟨0, 0, 1 / 100, 6, 8, 0⟩, ⟨0, 0, 0, 0, 0, 0⟩, 1⟩).2.2.2.2.2.2.2.1 rfl⟩

/-! ## The canopy rule in float arithmetic -/

/-- The value of `randf(1.0)` in float arithmetic lies in `[0, 1]`. -/
theorem randf_f32_range (c : Libc) (calls : ℕ) (hmax : 0 < c.RAND_MAX)
    (hrand : c.rand calls ≤ c.RAND_MAX) :
    0 ≤ (randf_f32 c calls 1).1 ∧ (randf_f32 c calls 1).1 ≤ 1 := by
  have hr0 : (0 : ℚ) ≤ (c.rand calls : ℚ) := Nat.cast_nonneg _
  have hrM : (c.rand calls : ℚ) ≤ (c.RAND_MAX : ℚ) := by exact_mod_cast hrand
  have hM1 : (1 : ℚ) ≤ (c.RAND_MAX : ℚ) := by exact_mod_cast hmax
  have ha : 0 ≤ to_float (c.rand calls) := to_float_nonneg _ hr0
  have hab : to_float (c.rand calls) ≤ to_float (c.RAND_MAX) := to_float_mono _ _ hr0 hrM
  have hb : 1 ≤ to_float (c.RAND_MAX) := by
    have := to_float_mono 1 (c.RAND_MAX) (by norm_num) hM1
    rwa [to_float_one] at this
  have hb0 : 0 < to_float (c.RAND_MAX) := by linarith
  have hq0 : 0 ≤ to_float (c.rand calls) / to_float (c.RAND_MAX) := div_nonneg ha hb0.le
  have hq1 : to_float (c.rand calls) / to_float (c.RAND_MAX) ≤ 1 := (div_le_one hb0).mpr hab
  have ht0 := to_float_nonneg _ hq0
  have ht1 := to_float_mono _ _ hq0 hq1
  rw [to_float_one] at ht1
  simp only [randf_f32, mul_one]
  have hu1 := to_float_mono _ _ ht0 ht1
  rw [to_float_one] at hu1
  exact ⟨to_float_nonneg _ ht0, hu1⟩

/-- The height `float(r + 0.8)` for a draw `r` in `[0, 1]` lies between `0.8f` and `1.8f`. -/
theorem canopy_height_f32 (r : ℚ) (h0 : 0 ≤ r) (h1 : r ≤ 1) :
    13421773 / 16777216 ≤ to_float (to_double (r + to_double (8 / 10))) ∧
    to_float (to_double (r + to_double (8 / 10))) ≤ 7549747 / 4194304 := by
  have hc : to_double (8 / 10) = 3602879701896397 / 4503599627370496 := by
    rw [show (8 / 10 : ℚ) = 4 / 5 by norm_num]
    exact to_double_eight_tenths
  rw [hc]
  have lo := to_double_mono (3602879701896397 / 4503599627370496)
    (r + 3602879701896397 / 4503599627370496) (by norm_num) (by linarith)
  rw [to_double_eight_tenths_again] at lo
  have hi := to_double_mono (r + 3602879701896397 / 4503599627370496)
    (8106479329266893 / 4503599627370496) (by linarith) (by linarith)
  rw [to_double_upper] at hi
  have lo2 := to_float_mono _ _ (by norm_num) lo
  rw [to_float_lower] at lo2
  have hi2 := to_float_mono _ _ (le_trans (by norm_num) lo) hi
  rw [to_float_upper] at hi2
  exact ⟨lo2, hi2⟩

theorem to_double_error_one (x : ℚ) (hx : |x| < 1) :
    |to_double x - x| ≤ 1 / 18014398509481984 := by
  have h := round_binary_error 53 (-1022) x (-1) (by norm_num; exact hx) (by norm_num)
  norm_num at h
  exact h

theorem to_double_error_two (x : ℚ) (hx : |x| < 2) :
    |to_double x - x| ≤ 1 / 9007199254740992 := by
  have h := round_binary_error 53 (-1022) x 0 (by norm_num; exact hx) (by norm_num)
  norm_num at h
  exact h

theorem to_float_error_two (x : ℚ) (hx : |x| < 2) :
    |to_float x - x| ≤ 1 / 16777216 := by
  have h := round_binary_error 24 (-126) x 0 (by norm_num; exact hx) (by norm_num)
  norm_num at h
  exact h

/-- For a height `h` between `0.8f` and `1.8f`, the stored `float(h / 2.0 + 0.5)` is
within `6e-8` of the real number `h / 2 + 0.5`. -/
theorem canopy_y_f32 (h : ℚ) (h0 : 13421773 / 16777216 ≤ h) (h1 : h ≤ 7549747 / 4194304) :
    |to_float (to_double (to_double (h / 2) + 5 / 10)) - (h / 2 + 5 / 10)| ≤ 6 / 10 ^ 8 := by
  have a1 := to_double_error_one (h / 2) (by rw [abs_lt]; constructor <;> linarith)
  generalize to_double (h / 2) = z1 at a1 ⊢
  rw [abs_le] at a1
  have a2 := to_double_error_two (z1 + 5 / 10)
    (by rw [abs_lt]; constructor <;> linarith [a1.1, a1.2])
  generalize to_double (z1 + 5 / 10) = z2 at a2 ⊢
  rw [abs_le] at a2
  have a3 := to_float_error_two z2
    (by rw [abs_lt]; constructor <;> linarith [a1.1, a1.2, a2.1, a2.2])
  generalize to_float z2 = y at a3 ⊢
  rw [abs_le] at a3 ⊢
  norm_num
  constructor <;> linarith [a1.1, a1.2, a2.1, a2.2, a3.1, a3.2]

/-- What the callback writes, in float arithmetic. -/
theorem RandomizeCanopy_f32_eq (c : Libc) (calls : ℕ) (p : Position) (b : Box) :
    RandomizeCanopy_f32 c calls p b
      = ((⟨p.x, to_float (to_double (to_double
            (to_float (to_double ((randf_f32 c calls 1).1 + to_double (8 / 10))) / 2)
              + 5 / 10)), p.z⟩,
          ⟨b.width, to_float (to_double ((randf_f32 c calls 1).1 + to_double (8 / 10))),
            b.depth⟩), calls + 1) := rfl

/-- The reaction in float arithmetic at the draw `rand() = 0`: the height is `0.8f` and
`float(0.8f / 2.0 + 0.5)` is a tie between two floats, rounded to the even one. -/
theorem canopy_at_zero (p : Position) (b : Box) :
    RandomizeCanopy_f32 all_zero 0 p b
      = ((⟨p.x, 7549747 / 8388608, p.z⟩, ⟨b.width, 13421773 / 16777216, b.depth⟩), 1) := by
  have hr : (randf_f32 all_zero 0 1).1 = 0 := by
    simp [randf_f32, all_zero, to_float_zero]
  have hc : to_double (8 / 10) = 3602879701896397 / 4503599627370496 := by
    rw [show (8 / 10 : ℚ) = 4 / 5 by norm_num]
    exact to_double_eight_tenths
  rw [RandomizeCanopy_f32_eq, hr, hc, zero_add, to_double_eight_tenths_again, to_float_lower,
    show (13421773 / 16777216 : ℚ) / 2 = 13421773 / 33554432 by norm_num,
    to_double_half_height_zero,
    show (13421773 / 33554432 : ℚ) + 5 / 10 = 30198989 / 33554432 by norm_num,
    to_double_sum_zero, to_float_sum_zero]

/-- Range of the stored height and distance of the stored `Position.y` from
`height / 2 + 0.5`, for a draw between `0` and `RAND_MAX`. -/
theorem canopy_f32_range (c : Libc) (calls : ℕ) (p : Position) (b : Box)
    (hmax : 0 < c.RAND_MAX) (hrand : c.rand calls ≤ c.RAND_MAX) :
    (8 / 10 ≤ (RandomizeCanopy_f32 c calls p b).1.2.height ∧
      (RandomizeCanopy_f32 c calls p b).1.2.height < 18 / 10) ∧
    |(RandomizeCanopy_f32 c calls p b).1.1.y
        - ((RandomizeCanopy_f32 c calls p b).1.2.height / 2 + 5 / 10)| ≤ 6 / 10 ^ 8 := by
  obtain ⟨r0, r1⟩ := randf_f32_range c calls hmax hrand
  obtain ⟨lo, hi⟩ := canopy_height_f32 _ r0 r1
  have hy := canopy_y_f32 _ lo hi
  rw [RandomizeCanopy_f32_eq]
  exact ⟨⟨by linarith, by linarith⟩, hy⟩

/-- C9: for every value `rand()` can return (`0` to `RAND_MAX`, with `RAND_MAX > 0`), the
callback of `RandomizeCanopy`, in the float arithmetic of the program, sets
`Box.height = h` with `h = float(randf(1.0) + 0.8)` in the half-open interval
`[0.8, 1.8)` (the largest height it can store is `1.8f`, which is below `1.8`), sets
`Position.y` to `h / 2.0 + 0.5` as the program evaluates it, a number within `6e-8` of
the real `h / 2 + 0.5`, and leaves `Position.x`, `Position.z`, `Box.width` and
`Box.depth` unchanged; it makes one `rand()` call. -/
theorem canopy_height_range (c : Libc) (calls : ℕ) (p : Position) (b : Box)
    (hmax : 0 < c.RAND_MAX) (hrand : c.rand calls ≤ c.RAND_MAX) :
    (RandomizeCanopy_f32 c calls p b).1.2.height
      = to_float (to_double ((randf_f32 c calls 1).1 + to_double (8 / 10))) ∧
    8 / 10 ≤ (RandomizeCanopy_f32 c calls p b).1.2.height ∧
    (RandomizeCanopy_f32 c calls p b).1.2.height < 18 / 10 ∧
    (RandomizeCanopy_f32 c calls p b).1.1.y
      = to_float (to_double (to_double ((RandomizeCanopy_f32 c calls p b).1.2.height / 2)
          + 5 / 10)) ∧
    |(RandomizeCanopy_f32 c calls p b).1.1.y
        - ((RandomizeCanopy_f32 c calls p b).1.2.height / 2 + 5 / 10)| ≤ 6 / 10 ^ 8 ∧
    (RandomizeCanopy_f32 c calls p b).1.1.x = p.x ∧
    (RandomizeCanopy_f32 c calls p b).1.1.z = p.z ∧
    (RandomizeCanopy_f32 c calls p b).1.2.width = b.width ∧
    (RandomizeCanopy_f32 c calls p b).1.2.depth = b.depth ∧
    (RandomizeCanopy_f32 c calls p b).2 = calls + 1 := by
  obtain ⟨r0, r1⟩ := randf_f32_range c calls hmax hrand
  obtain ⟨lo, hi⟩ := canopy_height_f32 _ r0 r1
  have hy := canopy_y_f32 _ lo hi
  rw [RandomizeCanopy_f32_eq]
  exact ⟨rfl, by linarith, by linarith, rfl, hy, rfl, rfl, rfl, rfl, rfl⟩

/-- C9, at the largest draw: `RAND_MAX = 2147483647` and `rand()` returns `2147483647`,
applied to the `Position` and `Box` of the canopy part of `PTree`. -/
theorem canopy_height_range_witness :
    8 / 10 ≤ (RandomizeCanopy_f32 ⟨2147483647, fun _ => 2147483647⟩ 0 ⟨0, 9 / 10, 0⟩
        ⟨8 / 10, 8 / 10, 8 / 10⟩).1.2.height ∧
    (RandomizeCanopy_f32 ⟨2147483647, fun _ => 2147483647⟩ 0 ⟨0, 9 / 10, 0⟩
        ⟨8 / 10, 8 / 10, 8 / 10⟩).1.2.height < 18 / 10 ∧
    |(RandomizeCanopy_f32 ⟨2147483647, fun _ => 2147483647⟩ 0 ⟨0, 9 / 10, 0⟩
        ⟨8 / 10, 8 / 10, 8 / 10⟩).1.1.y
      - ((RandomizeCanopy_f32 ⟨2147483647, fun _ => 2147483647⟩ 0 ⟨0, 9 / 10, 0⟩
        ⟨8 / 10, 8 / 10, 8 / 10⟩).1.2.height / 2 + 5 / 10)| ≤ 6 / 10 ^ 8 :=
  have h := canopy_height_range ⟨2147483647, fun _ => 2147483647⟩ 0 ⟨0, 9 / 10, 0⟩
    ⟨8 / 10, 8 / 10, 8 / 10⟩ (by norm_num) (le_refl _)
  ⟨h.2.1, h.2.2.1, h.2.2.2.2.1⟩

/-! ## The canopy of a generic tree in float arithmetic -/

/-- Instantiating `PTree` in a store with one rule rooted at `PTree`: the canopy part
gets the `Position` and `Box` that the rule's callback returns. -/
theorem spawn_tree_with (c : Libc) (sys : System) (hsys : sys.parent_instanceof = 4)
    (es : List Entity) (n : ℕ) (p : Position)
    (hk : es.filter (fun e => decide (4 ∈ e.childof))
      = prototype_graph.filter (fun e => decide (4 ∈ e.childof)))
    (h1 : es[1]? = prototype_graph[1]?) (h2 : es[2]? = prototype_graph[2]?) :
    World.spawn c ⟨es, ⟨4, 7⟩, [sys], n⟩ 4 p
      = ⟨es ++
          [ { Entity.empty with instanceof := [4], position := some p },
            { Entity.empty with instanceof := [1], childof := [es.length] },
            { Entity.empty with
                instanceof := [2], childof := [es.length],
                position := some (sys.each c n ⟨0, 9 / 10, 0⟩ ⟨8 / 10, 8 / 10, 8 / 10⟩).1.1,
                box := some (sys.each c n ⟨0, 9 / 10, 0⟩ ⟨8 / 10, 8 / 10, 8 / 10⟩).1.2 } ],
          ⟨4, 7⟩, [sys], (sys.each c n ⟨0, 9 / 10, 0⟩ ⟨8 / 10, 8 / 10, 8 / 10⟩).2⟩ := by
  have hr : sys.parent_instanceof
      ∈ ({ Entity.empty with instanceof := [4] } : Entity).instanceof := by
    simp [hsys]
  rw [prototype_children.2] at hk
  simp only [World.spawn, entity_mk]
  rw [add_instanceof_new c es _ _ n 4 _ hk]
  simp only [List.foldl_cons, List.foldl_nil]
  rw [instantiate_child_no_canopy c es _ _ n 4 _ _ [] 1 _ rfl rfl h1 rfl rfl,
    instantiate_child_selected c es _ _ n 4 _ _ _ 2 _ _ _ rfl rfl h2 rfl rfl rfl hr,
    set_position_root c es _ _ _ _ _ p rfl]
  simp [Entity.empty]

/-- The canopy part of a generic tree instantiated in a store that holds the prototype
graph and the rule with the float callback: its `Position` and `Box` are what the
callback returns for the values of the part of `PTree`. -/
theorem tree_canopy_f32 (c : Libc) (es : List Entity) (n : ℕ) (p : Position)
    (hes : ∃ rest : List Entity, es = prototype_graph ++ rest ∧
      ∀ e ∈ rest, 4 ∉ e.childof ∧ 7 ∉ e.childof) :
    (World.spawn c ⟨es, ⟨4, 7⟩, [canopy_rule_f32], n⟩ 4 p).get Entity.position
        (es.length + 2)
      = some (RandomizeCanopy_f32 c n ⟨0, 9 / 10, 0⟩ ⟨8 / 10, 8 / 10, 8 / 10⟩).1.1 ∧
    (World.spawn c ⟨es, ⟨4, 7⟩, [canopy_rule_f32], n⟩ 4 p).get Entity.box
        (es.length + 2)
      = some (RandomizeCanopy_f32 c n ⟨0, 9 / 10, 0⟩ ⟨8 / 10, 8 / 10, 8 / 10⟩).1.2 := by
  have hw : World.Ready ⟨es, ⟨4, 7⟩, [canopy_rule], n⟩ := ⟨hes, rfl, rfl⟩
  have h4 := ready_filter _ hw 4 (Or.inl rfl)
  have h1 := ready_lookup _ hw 1 (by norm_num)
  have h2 := ready_lookup _ hw 2 (by norm_num)
  simp only at h4 h1 h2
  rw [spawn_tree_with c canopy_rule_f32 rfl es n p h4 h1 h2]
  have hcan := lookup_mid es
    [ { Entity.empty with instanceof := [4], position := some p },
      { Entity.empty with instanceof := [1], childof := [es.length] },
      { Entity.empty with
          instanceof := [2], childof := [es.length],
          position := some (canopy_rule_f32.each c n ⟨0, 9 / 10, 0⟩
            ⟨8 / 10, 8 / 10, 8 / 10⟩).1.1,
          box := some (canopy_rule_f32.each c n ⟨0, 9 / 10, 0⟩
            ⟨8 / 10, 8 / 10, 8 / 10⟩).1.2 } ] [] 2 (by simp)
  rw [List.append_nil] at hcan
  simp only [List.getElem?_cons_succ, List.getElem?_cons_zero] at hcan
  exact ⟨get_of_own _ Entity.position _ _ _ hcan rfl, get_of_own _ Entity.box _ _ _ hcan rfl⟩

/-- The trunk part of such an instance resolves the `Position` and `Box` of `PTrunk`. -/
theorem tree_trunk_f32 (c : Libc) (es : List Entity) (n : ℕ) (p : Position)
    (hes : ∃ rest : List Entity, es = prototype_graph ++ rest ∧
      ∀ e ∈ rest, 4 ∉ e.childof ∧ 7 ∉ e.childof) :
    (World.spawn c ⟨es, ⟨4, 7⟩, [canopy_rule_f32], n⟩ 4 p).get Entity.position
        (es.length + 1) = some ⟨0, 25 / 100, 0⟩ ∧
    (World.spawn c ⟨es, ⟨4, 7⟩, [canopy_rule_f32], n⟩ 4 p).get Entity.box
        (es.length + 1) = some ⟨4 / 10, 5 / 10, 4 / 10⟩ := by
  have hw : World.Ready ⟨es, ⟨4, 7⟩, [canopy_rule], n⟩ := ⟨hes, rfl, rfl⟩
  have h4 := ready_filter _ hw 4 (Or.inl rfl)
  have h1 := ready_lookup _ hw 1 (by norm_num)
  have h2 := ready_lookup _ hw 2 (by norm_num)
  simp only at h4 h1 h2
  rw [spawn_tree_with c canopy_rule_f32 rfl es n p h4 h1 h2]
  have htrunk := lookup_mid es
    [ { Entity.empty with instanceof := [4], position := some p },
      { Entity.empty with instanceof := [1], childof := [es.length] },
      { Entity.empty with
          instanceof := [2], childof := [es.length],
          position := some (canopy_rule_f32.each c n ⟨0, 9 / 10, 0⟩
            ⟨8 / 10, 8 / 10, 8 / 10⟩).1.1,
          box := some (canopy_rule_f32.each c n ⟨0, 9 / 10, 0⟩
            ⟨8 / 10, 8 / 10, 8 / 10⟩).1.2 } ] [] 1 (by simp)
  rw [List.append_nil] at htrunk
  simp only [List.getElem?_cons_succ, List.getElem?_cons_zero] at htrunk
  have hlen : 2 ≤ (es ++
    [ { Entity.empty with instanceof := [4], position := some p },
      { Entity.empty with instanceof := [1], childof := [es.length] },
      { Entity.empty with
          instanceof := [2], childof := [es.length],
          position := some (canopy_rule_f32.each c n ⟨0, 9 / 10, 0⟩
            ⟨8 / 10, 8 / 10, 8 / 10⟩).1.1,
          box := some (canopy_rule_f32.each c n ⟨0, 9 / 10, 0⟩
            ⟨8 / 10, 8 / 10, 8 / 10⟩).1.2 } ]).length := by
    simp only [List.length_append, List.length_cons, List.length_nil]; omega
  exact ⟨get_of_parent _ Entity.position _ 1 _ _ _ hlen htrunk rfl rfl
      (getElem?_append_of_some _ _ _ _ h1) rfl,
    get_of_parent _ Entity.box _ 1 _ _ _ hlen htrunk rfl rfl
      (getElem?_append_of_some _ _ _ _ h1) rfl⟩

theorem ground_has_no_parts : ∀ e ∈ ground_entities, 4 ∉ e.childof ∧ 7 ∉ e.childof := by
  intro e he
  simp only [ground_entities, List.mem_cons, List.mem_singleton, List.not_mem_nil, or_false] at he
  rcases he with rfl | rfl <;> simp [Entity.empty]

/-- C13, refuted as stated, in the float arithmetic of the program.  When `rand()`
returns `0` (with `RAND_MAX = 2147483647`) the callback stores the height `0.8f` and
`Position.y = float(0.8f / 2.0 + 0.5)`; the sum lies halfway between two floats and is
rounded to the even one, so that the bottom face `Position.y - Box.height / 2` is
`16777215 / 2 ^ 25` (about `0.49999997`), not `0.5`.  This is the canopy part of a
generic tree instantiated after the grass and the water in the store with the float
callback. -/
theorem canopy_bottom_misses_half :
    (RandomizeCanopy_f32 all_zero 0 ⟨0, 9 / 10, 0⟩ ⟨8 / 10, 8 / 10, 8 / 10⟩).1.2.height
      = 13421773 / 16777216 ∧
    (RandomizeCanopy_f32 all_zero 0 ⟨0, 9 / 10, 0⟩ ⟨8 / 10, 8 / 10, 8 / 10⟩).1.1.y
      = 7549747 / 8388608 ∧
    (RandomizeCanopy_f32 all_zero 0 ⟨0, 9 / 10, 0⟩ ⟨8 / 10, 8 / 10, 8 / 10⟩).1.1.y
        - (RandomizeCanopy_f32 all_zero 0 ⟨0, 9 / 10, 0⟩ ⟨8 / 10, 8 / 10, 8 / 10⟩).1.2.height / 2
      = 16777215 / 33554432 ∧
    (RandomizeCanopy_f32 all_zero 0 ⟨0, 9 / 10, 0⟩ ⟨8 / 10, 8 / 10, 8 / 10⟩).1.1.y
        - (RandomizeCanopy_f32 all_zero 0 ⟨0, 9 / 10, 0⟩ ⟨8 / 10, 8 / 10, 8 / 10⟩).1.2.height / 2
      ≠ 5 / 10 ∧
    (∃ (cp : Position) (cb : Box),
      (World.spawn all_zero
        ⟨prototype_graph ++ ground_entities, ⟨4, 7⟩, [canopy_rule_f32], 0⟩ 4
        (cell_position 0)).get Entity.position
          ((prototype_graph ++ ground_entities).length + 2) = some cp ∧
      (World.spawn all_zero
        ⟨prototype_graph ++ ground_entities, ⟨4, 7⟩, [canopy_rule_f32], 0⟩ 4
        (cell_position 0)).get Entity.box
          ((prototype_graph ++ ground_entities).length + 2) = some cb ∧
      cp.y - cb.height / 2 = 16777215 / 33554432) := by
  obtain ⟨hp, hb⟩ := tree_canopy_f32 all_zero (prototype_graph ++ ground_entities) 0
    (cell_position 0) ⟨ground_entities, rfl, ground_has_no_parts⟩
  refine ⟨?_, ?_, ?_, ?_, ⟨_, _, hp, hb, ?_⟩⟩ <;> rw [canopy_at_zero] <;> norm_num

/-- C13, amended.  For every draw `rand()` can return (`0` to `RAND_MAX`, with
`RAND_MAX > 0`), after the canopy-sizing reaction in the float arithmetic of the
program the bottom face `Position.y - Box.height / 2` is within `6e-8` of `0.5`,
whatever `Position` and `Box` the callback is given.  In a store holding the prototype
graph and the rule with the float callback, an instance of `PTree` has a canopy part
(identifier: root + 2) with height in `[0.8, 1.8)` and bottom face within `6e-8` of
`0.5`, and a trunk part (identifier: root + 1) that resolves the `Position` and `Box`
of `PTrunk` (`y = 0.25`, height `0.5`), whose top face `Position.y + Box.height / 2` is
`0.5`, in float arithmetic as well.  In exact arithmetic the bottom face of the canopy
part is `0.5`. -/
theorem canopy_rests_on_trunk (c : Libc) (es : List Entity) (n : ℕ) (p : Position)
    (hes : ∃ rest : List Entity, es = prototype_graph ++ rest ∧
      ∀ e ∈ rest, 4 ∉ e.childof ∧ 7 ∉ e.childof)
    (hmax : 0 < c.RAND_MAX) (hrand : c.rand n ≤ c.RAND_MAX) :
    (∀ (q : Position) (b : Box),
      |(RandomizeCanopy_f32 c n q b).1.1.y - (RandomizeCanopy_f32 c n q b).1.2.height / 2
        - 5 / 10| ≤ 6 / 10 ^ 8) ∧
    (∃ (cp : Position) (cb : Box),
      (World.spawn c ⟨es, ⟨4, 7⟩, [canopy_rule_f32], n⟩ 4 p).get Entity.position
        (es.length + 2) = some cp ∧
      (World.spawn c ⟨es, ⟨4, 7⟩, [canopy_rule_f32], n⟩ 4 p).get Entity.box
        (es.length + 2) = some cb ∧
      8 / 10 ≤ cb.height ∧ cb.height < 18 / 10 ∧
      |cp.y - cb.height / 2 - 5 / 10| ≤ 6 / 10 ^ 8) ∧
    (∃ (tp : Position) (tb : Box),
      (World.spawn c ⟨es, ⟨4, 7⟩, [canopy_rule_f32], n⟩ 4 p).get Entity.position
        (es.length + 1) = some tp ∧
      (World.spawn c ⟨es, ⟨4, 7⟩, [canopy_rule_f32], n⟩ 4 p).get Entity.box
        (es.length + 1) = some tb ∧
      tp.y = 25 / 100 ∧ tb.height = 5 / 10 ∧
      tp.y + tb.height / 2 = 5 / 10 ∧
      to_float (tp.y + to_float (tb.height / 2)) = 5 / 10) ∧
    (∃ (cp : Position) (cb : Box),
      (World.spawn c ⟨es, ⟨4, 7⟩, [canopy_rule], n⟩ 4 p).get Entity.position
        (es.length + 2) = some cp ∧
      (World.spawn c ⟨es, ⟨4, 7⟩, [canopy_rule], n⟩ 4 p).get Entity.box
        (es.length + 2) = some cb ∧
      cp.y - cb.height / 2 = 5 / 10) := by
  have hw : World.Ready ⟨es, ⟨4, 7⟩, [canopy_rule], n⟩ := ⟨hes, rfl, rfl⟩
  have hbottom : ∀ (q : Position) (b : Box),
      |(RandomizeCanopy_f32 c n q b).1.1.y - (RandomizeCanopy_f32 c n q b).1.2.height / 2
        - 5 / 10| ≤ 6 / 10 ^ 8 := by
    intro q b
    have h := (canopy_f32_range c n q b hmax hrand).2
    rw [show (RandomizeCanopy_f32 c n q b).1.1.y - (RandomizeCanopy_f32 c n q b).1.2.height / 2
        - 5 / 10 = (RandomizeCanopy_f32 c n q b).1.1.y
          - ((RandomizeCanopy_f32 c n q b).1.2.height / 2 + 5 / 10) by ring]
    exact h
  have hrange := (canopy_f32_range c n ⟨0, 9 / 10, 0⟩ ⟨8 / 10, 8 / 10, 8 / 10⟩
    hmax hrand).1
  obtain ⟨x1, x2, x3, x4, -, x5⟩ := (tree_instance_exact c _ p hw).2.2.1
  obtain ⟨cp, cb⟩ := tree_canopy_f32 c es n p hes
  obtain ⟨tp, tb⟩ := tree_trunk_f32 c es n p hes
  refine ⟨hbottom, ⟨_, _, cp, cb, hrange.1, hrange.2,
      hbottom ⟨0, 9 / 10, 0⟩ ⟨8 / 10, 8 / 10, 8 / 10⟩⟩,
    ⟨_, _, tp, tb, rfl, rfl, by norm_num, ?_⟩, ⟨x1, x2, x3, x4, x5⟩⟩
  show to_float (25 / 100 + to_float (5 / 10 / 2)) = 5 / 10
  rw [show (5 / 10 / 2 : ℚ) = 1 / 4 by norm_num, to_float_quarter,
    show (25 / 100 + 1 / 4 : ℚ) = 1 / 2 by norm_num, to_float_half]
  norm_num

/-- C13 amended, for a generic tree instantiated after the grass and the water, in the
store with the float callback, with `RAND_MAX = 2147483647` and `rand()` returning
`1073741823`: the bottom face of its canopy part is within `6e-8` of `0.5`. -/
theorem canopy_rests_on_trunk_witness :
    ∃ (cp : Position) (cb : Box),
      (World.spawn ⟨2147483647, fun _ => 1073741823⟩
        ⟨prototype_graph ++ ground_entities, ⟨4, 7⟩, [canopy_rule_f32], 0⟩ 4
        (cell_position 0)).get Entity.position
          ((prototype_graph ++ ground_entities).length + 2) = some cp ∧
      (World.spawn ⟨2147483647, fun _ => 1073741823⟩
        ⟨prototype_graph ++ ground_entities, ⟨4, 7⟩, [canopy_rule_f32], 0⟩ 4
        (cell_position 0)).get Entity.box
          ((prototype_graph ++ ground_entities).length + 2) = some cb ∧
      8 / 10 ≤ cb.height ∧ cb.height < 18 / 10 ∧
      |cp.y - cb.height / 2 - 5 / 10| ≤ 6 / 10 ^ 8 :=
  (canopy_rests_on_trunk ⟨2147483647, fun _ => 1073741823⟩
    (prototype_graph ++ ground_entities) 0 (cell_position 0)
    ⟨ground_entities, rfl, ground_has_no_parts⟩
    (by norm_num) (by norm_num)).2.1

end Trees
